import Mathlib

/-!
# FAT32 driver of DragonOS (`kernel/filesystem/fat32/fat32.c`)

A shallow embedding of the driver's mount, FAT-entry, directory lookup, path
walk and inode write-back routines, followed by theorems about them.

Conventions of the embedding.

* Machine integers are natural numbers; an operation whose C type can wrap is
  reduced modulo `2^w` explicitly (`u16`, `u32`, `u64`).
* A byte is a `Fin 256`; memory and the disk are functions from addresses to
  bytes, multi-byte fields are little-endian (x86-64).
* An integer division by zero (a `#DE` trap on x86-64), a dereference of a
  null inode pointer and a loop that is cut off by its fuel are results of
  their own (`Fault`).
* `fat32.h`, `MBR.h` and the VFS headers are not part of the source tree.  The
  on-disk layouts and the constants they declare are taken from the
  specification (section 6); the numeric fields of `fat32_sb_info_t` and
  `fat32_inode_info_t` are taken to be 64-bit unsigned, the type of the locals
  (`uint64_t sector`, `uint64_t fLBA`) that receive them, and `char` is signed.
-/

namespace Fat32

/-! ## Machine words and memory -/

abbrev Byte := Fin 256

/-- Contents of a region of memory, by byte offset from its start. -/
abbrev Mem := Nat → Byte

def u8 (x : Nat) : Byte := ⟨x % 256, Nat.mod_lt _ (by decide)⟩

def u16 (x : Nat) : Nat := x % 2 ^ 16

def u32 (x : Nat) : Nat := x % 2 ^ 32

def u64 (x : Nat) : Nat := x % 2 ^ 64

/-- Value of a signed `char` holding the byte `b`. -/
def char_val (b : Byte) : Int := if b.val < 128 then (b.val : Int) else (b.val : Int) - 256

/-- Conversion `(uint16_t)c` of a signed `char`. -/
def char_u16 (b : Byte) : Nat := if b.val < 128 then b.val else 65280 + b.val

def zero_mem : Mem := fun _ => 0

def get_u16 (m : Mem) (off : Nat) : Nat := (m off).val + 256 * (m (off + 1)).val

def get_u32 (m : Mem) (off : Nat) : Nat :=
  (m off).val + 256 * (m (off + 1)).val + 65536 * (m (off + 2)).val + 16777216 * (m (off + 3)).val

def set_u16 (m : Mem) (off v : Nat) : Mem := fun i =>
  if i = off then u8 v else if i = off + 1 then u8 (v / 256) else m i

def set_u32 (m : Mem) (off v : Nat) : Mem := fun i =>
  if i = off then u8 v
  else if i = off + 1 then u8 (v / 256)
  else if i = off + 2 then u8 (v / 65536)
  else if i = off + 3 then u8 (v / 16777216)
  else m i

inductive Fault where
  | divide_error
  | null_pointer
  | out_of_fuel
  deriving DecidableEq, Repr

instance {ε α : Type} [DecidableEq ε] [DecidableEq α] : DecidableEq (Except ε α) := fun a b =>
  match a, b with
  | .ok x, .ok y => if h : x = y then isTrue (by rw [h]) else isFalse (fun e => h (by cases e; rfl))
  | .error x, .error y =>
    if h : x = y then isTrue (by rw [h]) else isFalse (fun e => h (by cases e; rfl))
  | .ok _, .error _ => isFalse (fun e => by cases e)
  | .error _, .ok _ => isFalse (fun e => by cases e)

/-! ## The block device -/

inductive ata_cmd where
  | ATA_CMD_READ_DMA_EXT
  | ATA_CMD_WRITE_DMA_EXT
  deriving DecidableEq, Repr

/-- One call of `ahci_operation.transfer`. -/
structure ahci_request where
  cmd : ata_cmd
  lba : Nat
  count : Nat
  deriving DecidableEq, Repr

/-- Modelled from the spec: the block device behind `ahci_operation.transfer`
(the AHCI driver is an external collaborator).  The device has blocks of
`sector_bytes` bytes; `data a` is the byte at absolute byte address `a`, so
block `lba` occupies the addresses `lba * sector_bytes ..
(lba + 1) * sector_bytes - 1`; `log` lists the transfers served, oldest first. -/
structure ahci_disk where
  sector_bytes : Nat
  data : Nat → Byte
  log : List ahci_request

/-- Modelled from the spec: `transfer(READ, LBA, sector_count, buffer)`, a
contiguous transfer of `count` blocks into the start of `buf`; the rest of
the buffer keeps its contents. -/
def ahci_read (d : ahci_disk) (lba count : Nat) (buf : Mem) : Mem × ahci_disk :=
  (fun i => if i < count * d.sector_bytes then d.data (lba * d.sector_bytes + i) else buf i,
   { d with log := d.log ++ [⟨ata_cmd.ATA_CMD_READ_DMA_EXT, lba, count⟩] })

/-- Modelled from the spec: `transfer(WRITE, LBA, sector_count, buffer)`, a
contiguous transfer of `count` blocks from the start of `buf`. -/
def ahci_write (d : ahci_disk) (lba count : Nat) (buf : Mem) : ahci_disk :=
  { d with
    data := fun a =>
      if lba * d.sector_bytes ≤ a ∧ a < lba * d.sector_bytes + count * d.sector_bytes
      then buf (a - lba * d.sector_bytes) else d.data a
    log := d.log ++ [⟨ata_cmd.ATA_CMD_WRITE_DMA_EXT, lba, count⟩] }

/-- Byte `i` of block `lba` of the device. -/
def sector_byte (d : ahci_disk) (lba i : Nat) : Byte := d.data (lba * d.sector_bytes + i)

/-! ## On-disk structures -/

/-- Modelled from the spec: the BPB fields of `struct fat32_BootSector_t`
that the driver consumes (spec section 6; the declaration is in `fat32.h`). -/
structure fat32_BootSector_t where
  BPB_BytesPerSec : Nat
  BPB_SecPerClus : Nat
  BPB_RsvdSecCnt : Nat
  BPB_NumFATs : Nat
  BPB_TotSec32 : Nat
  BPB_FATSz32 : Nat
  BPB_RootClus : Nat
  BPB_FSInfo : Nat
  BPB_BkBootSec : Nat
  deriving DecidableEq, Repr

/-- Modelled from the spec: the cast `(struct fat32_BootSector_t *)buf`, with
the field offsets of spec section 6 (BytesPerSec u16 @11, SecPerClus u8 @13,
RsvdSecCnt u16 @14, NumFATs u8 @16, TotSec32 u32 @32, FATSz32 u32 @36,
RootClus u32 @44, FSInfo u16 @48, BkBootSec u16 @50). -/
def boot_sector_of (buf : Mem) : fat32_BootSector_t :=
  { BPB_BytesPerSec := get_u16 buf 11
    BPB_SecPerClus := (buf 13).val
    BPB_RsvdSecCnt := get_u16 buf 14
    BPB_NumFATs := (buf 16).val
    BPB_TotSec32 := get_u32 buf 32
    BPB_FATSz32 := get_u32 buf 36
    BPB_RootClus := get_u32 buf 44
    BPB_FSInfo := get_u16 buf 48
    BPB_BkBootSec := get_u16 buf 50 }

/-- The boot sector structure after `memset(..., 0, ...)`. -/
def zero_boot_sector : fat32_BootSector_t := ⟨0, 0, 0, 0, 0, 0, 0, 0, 0⟩

/-- Modelled from the spec: an MBR partition table entry (`MBR.h`); the
starting LBA and the sector count are 32-bit fields. -/
structure MBR_disk_partition_table_entry_t where
  type : Nat
  starting_LBA : Nat
  total_sectors : Nat
  deriving DecidableEq, Repr

/-- Modelled from the spec: partition table kind `VFS_DPT_MBR`. -/
def VFS_DPT_MBR : Nat := 0

/-- Modelled from the spec: attribute `LONG_NAME = 0x0F` (section 6). -/
def ATTR_LONG_NAME : Nat := 0x0f

/-- Modelled from the spec: attribute `DIRECTORY = 0x10` (section 6). -/
def ATTR_DIRECTORY : Nat := 0x10

/-- Modelled from the spec: NTRes bit `LOWERCASE_BASE = 0x08` (section 6). -/
def LOWERCASE_BASE : Nat := 0x08

/-- Modelled from the spec: NTRes bit `LOWERCASE_EXT = 0x10` (section 6). -/
def LOWERCASE_EXT : Nat := 0x10

/-! ## In-memory structures -/

/-- The private superblock information `fat32_sb_info_t`. -/
structure fat32_sb_info_t where
  ahci_ctrl_num : Nat
  ahci_port_num : Nat
  part_num : Nat
  bootsector : fat32_BootSector_t
  fsinfo : Mem
  fsinfo_sector_addr_infat : Nat
  bootsector_bak_sector_addr_infat : Nat
  starting_sector : Nat
  sector_count : Nat
  sec_per_clus : Nat
  bytes_per_sec : Nat
  bytes_per_clus : Nat
  first_data_sector : Nat
  FAT1_base_sector : Nat
  FAT2_base_sector : Nat
  sec_per_FAT : Nat
  NumFATs : Nat

/-- The structure after `memset(sb_ptr->private_sb_info, 0, sizeof(fat32_sb_info_t))`. -/
def zero_sb_info : fat32_sb_info_t :=
  { ahci_ctrl_num := 0, ahci_port_num := 0, part_num := 0
    bootsector := zero_boot_sector, fsinfo := zero_mem
    fsinfo_sector_addr_infat := 0, bootsector_bak_sector_addr_infat := 0
    starting_sector := 0, sector_count := 0
    sec_per_clus := 0, bytes_per_sec := 0, bytes_per_clus := 0
    first_data_sector := 0, FAT1_base_sector := 0, FAT2_base_sector := 0
    sec_per_FAT := 0, NumFATs := 0 }

structure fat32_inode_info_t where
  first_clus : Nat
  dEntry_location_clus : Nat
  dEntry_location_clus_offset : Nat
  create_date : Nat
  create_time : Nat
  write_date : Nat
  write_time : Nat
  deriving DecidableEq, Repr

/-- Modelled from the spec: the two inode attributes of the VFS. -/
inductive vfs_attribute where
  | VFS_ATTR_FILE
  | VFS_ATTR_DIR
  deriving DecidableEq, Repr

/-- The inode `vfs_index_node_t`; `sb` stands for `inode->sb->private_sb_info`. -/
structure vfs_index_node_t where
  file_size : Nat
  blocks : Nat
  attribute_ : vfs_attribute
  sb : fat32_sb_info_t
  private_inode_info : fat32_inode_info_t

/-- The directory entry `vfs_dir_entry_t`: `name` is the allocated name
buffer, `parent = none` stands for a dentry that is its own parent (the root). -/
inductive vfs_dir_entry_t where
  | mk (name : List Byte) (name_length : Nat) (dir_inode : Option vfs_index_node_t)
      (parent : Option vfs_dir_entry_t)

def vfs_dir_entry_t.name : vfs_dir_entry_t → List Byte
  | .mk n _ _ _ => n

def vfs_dir_entry_t.name_length : vfs_dir_entry_t → Nat
  | .mk _ l _ _ => l

def vfs_dir_entry_t.dir_inode : vfs_dir_entry_t → Option vfs_index_node_t
  | .mk _ _ i _ => i

def vfs_dir_entry_t.parent : vfs_dir_entry_t → Option vfs_dir_entry_t
  | .mk _ _ _ p => p

structure vfs_superblock_t where
  root : vfs_dir_entry_t
  private_sb_info : fat32_sb_info_t

/-! ## FAT entries -/

/-- `fat32_read_FAT_entry`: the 28-bit FAT entry of `cluster`, read from FAT1.
The sector buffer `uint32_t buf[256]` of the code holds 1024 bytes and is
taken here as memory without an end: the definition says what the code does
when `BPB_BytesPerSec` and the block size of the device are at most 1024. -/
def fat32_read_FAT_entry (fsbi : fat32_sb_info_t) (cluster : Nat) (d : ahci_disk) :
    Except Fault Nat × ahci_disk :=
  let fat_ent_per_sec := fsbi.bootsector.BPB_BytesPerSec >>> 2
  if fat_ent_per_sec = 0 then (.error .divide_error, d)
  else
    let r := ahci_read d (u64 (fsbi.FAT1_base_sector + cluster / fat_ent_per_sec)) 1 zero_mem
    (.ok (get_u32 r.1 (4 * (cluster &&& (fat_ent_per_sec - 1))) &&& 0x0fffffff), r.2)

/-- `fat32_write_FAT_entry`: store the low 28 bits of `value` in the FAT entry
of `cluster`, in FAT1 and in FAT2. -/
def fat32_write_FAT_entry (fsbi : fat32_sb_info_t) (cluster value : Nat) (d : ahci_disk) :
    Except Fault Nat × ahci_disk :=
  let fat_ent_per_sec := fsbi.bootsector.BPB_BytesPerSec >>> 2
  if fat_ent_per_sec = 0 then (.error .divide_error, d)
  else
    let r := ahci_read d (u64 (fsbi.FAT1_base_sector + cluster / fat_ent_per_sec)) 1 zero_mem
    let idx := cluster &&& (fat_ent_per_sec - 1)
    let buf := set_u32 r.1 (4 * idx)
      ((get_u32 r.1 (4 * idx) &&& 0xf0000000) ||| (value &&& 0x0fffffff))
    let d1 := ahci_write r.2 (u64 (fsbi.FAT1_base_sector + cluster / fat_ent_per_sec)) 1 buf
    let d2 := ahci_write d1 (u64 (fsbi.FAT2_base_sector + cluster / fat_ent_per_sec)) 1 buf
    (.ok 0, d2)

/-! ## Mounting -/

/-- The fields of `fat32_sb_info_t` as `fat32_read_superblock` stores them
(lines 448 to 463).  The sums are computed in 32-bit unsigned arithmetic (the
type of `starting_LBA` and of `BPB_FATSz32`); `bootsector` and `fsinfo` are not
assigned here and keep the zeroes of the `memset`. -/
def fat32_sb_info_fill (DPTE : MBR_disk_partition_table_entry_t) (fbs : fat32_BootSector_t)
    (ahci_ctrl_num ahci_port_num part_num : Nat) : fat32_sb_info_t :=
  let FAT1_base_sector := u32 (DPTE.starting_LBA + fbs.BPB_RsvdSecCnt)
  { zero_sb_info with
    ahci_ctrl_num := ahci_ctrl_num
    ahci_port_num := ahci_port_num
    part_num := part_num
    starting_sector := DPTE.starting_LBA
    sector_count := DPTE.total_sectors
    sec_per_clus := fbs.BPB_SecPerClus
    bytes_per_clus := fbs.BPB_SecPerClus * fbs.BPB_BytesPerSec
    bytes_per_sec := fbs.BPB_BytesPerSec
    first_data_sector :=
      u32 (DPTE.starting_LBA + fbs.BPB_RsvdSecCnt + u32 (fbs.BPB_FATSz32 * fbs.BPB_NumFATs))
    FAT1_base_sector := FAT1_base_sector
    FAT2_base_sector := u64 (FAT1_base_sector + fbs.BPB_FATSz32)
    sec_per_FAT := fbs.BPB_FATSz32
    NumFATs := fbs.BPB_NumFATs
    fsinfo_sector_addr_infat := fbs.BPB_FSInfo
    bootsector_bak_sector_addr_infat := fbs.BPB_BkBootSec }

/-- The block count `(file_size + bytes_per_clus - 1) / bytes_per_sec` of
lines 323 and 493, in 64-bit unsigned arithmetic. -/
def inode_blocks (file_size bytes_per_clus bytes_per_sec : Nat) : Except Fault Nat :=
  if bytes_per_sec = 0 then .error .divide_error
  else .ok (u64 (file_size + bytes_per_clus + (2 ^ 64 - 1)) / bytes_per_sec)

/-- `fat32_read_superblock`: build the superblock of a partition from its boot
sector `buf`.  The result is `ok none` for the `NULL` returned on an
unsupported partition table.  The `fsinfo` member that receives the one-block
transfer of line 469 holds 512 bytes and is taken here as memory without an
end: the definition says what the code does when the blocks of the device
have at most 512 bytes. -/
def fat32_read_superblock (DPTE : MBR_disk_partition_table_entry_t) (DPT_type : Nat) (buf : Mem)
    (ahci_ctrl_num ahci_port_num part_num : Nat) (d : ahci_disk) :
    Except Fault (Option vfs_superblock_t) × ahci_disk :=
  if DPT_type ≠ VFS_DPT_MBR then (.ok none, d)
  else
    let fbs := boot_sector_of buf
    let fsbi0 := fat32_sb_info_fill DPTE fbs ahci_ctrl_num ahci_port_num part_num
    let r := ahci_read d (u32 (DPTE.starting_LBA + fbs.BPB_FSInfo)) 1 zero_mem
    let fsbi := { fsbi0 with fsinfo := r.1 }
    match inode_blocks 0 fsbi.bytes_per_clus fsbi.bytes_per_sec with
    | .error e => (.error e, r.2)
    | .ok blocks =>
      let finode : fat32_inode_info_t :=
        { first_clus := fbs.BPB_RootClus
          dEntry_location_clus := 0
          dEntry_location_clus_offset := 0
          create_time := 0
          create_date := 0
          write_date := 0
          write_time := 0 }
      let inode : vfs_index_node_t :=
        { file_size := 0
          blocks := blocks
          attribute_ := vfs_attribute.VFS_ATTR_DIR
          sb := fsbi
          private_inode_info := finode }
      (.ok (some { root := .mk [u8 47] 1 (some inode) none, private_sb_info := fsbi }), r.2)

/-! ## Inode write-back -/

/-- The LBA of the cluster that holds the directory entry of an inode,
`first_data_sector + (dEntry_location_clus - 2) * sec_per_clus` in 64-bit
unsigned arithmetic (line 554). -/
def dentry_cluster_LBA (fsbi : fat32_sb_info_t) (clus : Nat) : Nat :=
  u64 (fsbi.first_data_sector + u64 (clus + (2 ^ 64 - 2)) * fsbi.sec_per_clus)

/-- `fat32_write_inode`: write the size and the first cluster of `inode` into
its short directory entry on the device.  The bytes of the buffer that the
transfer of the cluster does not fill are taken as zero. -/
def fat32_write_inode (inode : vfs_index_node_t) (d : ahci_disk) : ahci_disk :=
  let finode := inode.private_inode_info
  if finode.dEntry_location_clus = 0 then d
  else
    let fsbi := inode.sb
    let fLBA := dentry_cluster_LBA fsbi finode.dEntry_location_clus
    let r := ahci_read d fLBA fsbi.sec_per_clus zero_mem
    let fdEntry := finode.dEntry_location_clus_offset
    let buf1 := set_u32 r.1 (fdEntry + 28) inode.file_size
    let buf2 := set_u16 buf1 (fdEntry + 26) (finode.first_clus &&& 0xffff)
    let buf3 := set_u16 buf2 (fdEntry + 20)
      ((finode.first_clus >>> 16) ||| (get_u16 buf2 (fdEntry + 20) &&& 0xf000))
    ahci_write r.2 fLBA fsbi.sec_per_clus buf3

/-! ## Directory lookup -/

/-- Kernel memory next to the two buffers `fat32_lookup` works on, which C
leaves unspecified: `before_buf k` is the byte at address `buf - 1 - k` (the
scan of entry 0 looks at the 32 bytes in front of the cluster buffer),
`after_name k` the byte `k` positions past the end of the name buffer of the
target dentry. -/
structure kernel_heap where
  before_buf : Nat → Byte
  after_name : Nat → Byte

/-- The byte at address `buf + a`. -/
def dir_byte (km : kernel_heap) (buf : Mem) (a : Int) : Byte :=
  if 0 ≤ a then buf a.toNat else km.before_buf (-a - 1).toNat

def dir_u16 (km : kernel_heap) (buf : Mem) (a : Int) : Nat :=
  (dir_byte km buf a).val + 256 * (dir_byte km buf (a + 1)).val

/-- `dest_dentry->name[js]`. -/
def name_byte (km : kernel_heap) (dest : vfs_dir_entry_t) (js : Nat) : Byte :=
  dest.name.getD js (km.after_name (js - dest.name.length))

/-- Modelled from the spec: `LDIR_Name1[0..5]` of the long entry at `buf + ld`
(UCS-2 units at offset 1). -/
def LDIR_Name1 (km : kernel_heap) (buf : Mem) (ld : Int) : List Nat :=
  (List.range 5).map fun x => dir_u16 km buf (ld + 1 + 2 * (x : Int))

/-- Modelled from the spec: `LDIR_Name2[0..6]` (UCS-2 units at offset 14). -/
def LDIR_Name2 (km : kernel_heap) (buf : Mem) (ld : Int) : List Nat :=
  (List.range 6).map fun x => dir_u16 km buf (ld + 14 + 2 * (x : Int))

/-- Modelled from the spec: `LDIR_Name3[0..2]` (UCS-2 units at offset 28). -/
def LDIR_Name3 (km : kernel_heap) (buf : Mem) (ld : Int) : List Nat :=
  (List.range 2).map fun x => dir_u16 km buf (ld + 28 + 2 * (x : Int))

/-- One of the three `for` loops over a name slice of a long entry (lines 147
to 171): `none` is `goto continue_cmp_fail`, `some js` the index reached. -/
def lfn_cmp_slice (km : kernel_heap) (dest : vfs_dir_entry_t) : List Nat → Nat → Option Nat
  | [], js => some js
  | u :: us, js =>
    if js > dest.name_length ∧ u = 0xffff then lfn_cmp_slice km dest us js
    else if js > dest.name_length ∨ u ≠ char_u16 (name_byte km dest js) then none
    else lfn_cmp_slice km dest us (js + 1)

/-- Outcome of the comparison of one short entry. -/
inductive cmp_result where
  | success
  | fail
  | short_name
  deriving DecidableEq, Repr

/-- The `while` loop over the long entries in front of a short entry (lines
144 to 179), from the long entry at `buf + ld`.  `short_name` is the exit of
the loop towards the short-name comparison. -/
def lfn_walk (km : kernel_heap) (buf : Mem) (dest : vfs_dir_entry_t) :
    Nat → Int → Nat → Except Fault cmp_result
  | 0, _, _ => .error .out_of_fuel
  | fuel + 1, ld, js =>
    if (dir_byte km buf (ld + 11)).val = ATTR_LONG_NAME ∧ (dir_byte km buf ld).val ≠ 0xe5 then
      match lfn_cmp_slice km dest (LDIR_Name1 km buf ld) js with
      | none => .ok .fail
      | some js1 =>
        match lfn_cmp_slice km dest (LDIR_Name2 km buf ld) js1 with
        | none => .ok .fail
        | some js2 =>
          match lfn_cmp_slice km dest (LDIR_Name3 km buf ld) js2 with
          | none => .ok .fail
          | some js3 =>
            if js3 ≥ dest.name_length then .ok .success
            else lfn_walk km buf dest fuel (ld - 32) js3
    else .ok .short_name

def is_letter (c : Nat) : Bool := (65 ≤ c ∧ c ≤ 90) ∨ (97 ≤ c ∧ c ≤ 122)

def is_digit (c : Nat) : Bool := 48 ≤ c ∧ c ≤ 57

/-- Body of the loop over the base name (lines 185 to 251) for the byte `c =
DIR_Name[x]`: `none` is `goto continue_cmp_fail`, `some js` the index with
which the loop goes on. -/
def sfn_base_step (km : kernel_heap) (dest : vfs_dir_entry_t) (attr ntres : Nat) (c : Byte)
    (js : Nat) : Option Nat :=
  if c.val = 32 then
    if attr &&& ATTR_DIRECTORY = 0 then
      if char_val (name_byte km dest js) = 46 then some js
      else if (c.val : Int) = char_val (name_byte km dest js) then some (js + 1)
      else none
    else
      if js < dest.name_length ∧ (c.val : Int) = char_val (name_byte km dest js) then some (js + 1)
      else if js = dest.name_length then some js
      else none
  else if is_letter c.val then
    if ntres &&& LOWERCASE_BASE ≠ 0 then
      if js < dest.name_length ∧ (c.val : Int) + 32 = char_val (name_byte km dest js)
      then some (js + 1) else none
    else
      if js < dest.name_length ∧ (c.val : Int) = char_val (name_byte km dest js)
      then some (js + 1) else none
  else if is_digit c.val then
    if js < dest.name_length ∧ (c.val : Int) = char_val (name_byte km dest js)
    then some (js + 1) else none
  else some (js + 1)

/-- Body of the loop over the extension (lines 260 to 301). -/
def sfn_ext_step (km : kernel_heap) (dest : vfs_dir_entry_t) (ntres : Nat) (c : Byte)
    (js : Nat) : Option Nat :=
  if is_letter c.val then
    if ntres &&& LOWERCASE_EXT ≠ 0 then
      if (c.val : Int) + 32 = char_val (name_byte km dest js) then some (js + 1) else none
    else
      if (c.val : Int) = char_val (name_byte km dest js) then some (js + 1) else none
  else if is_digit c.val ∨ c.val = 32 then
    if (c.val : Int) = char_val (name_byte km dest js) then some (js + 1) else none
  else none

/-- A `for` loop over the bytes `DIR_Name[x]`, `x = lo .. lo + n - 1`, of the
short entry at `buf + e`, with loop body `step`. -/
def sfn_loop (step : Byte → Nat → Option Nat) (buf : Mem) (e : Nat) : Nat → Nat → Nat → Option Nat
  | 0, _, js => some js
  | n + 1, x, js =>
    match step (buf (e + x)) js with
    | none => none
    | some js1 => sfn_loop step buf e n (x + 1) js1

/-- The short-name comparison of the entry at `buf + e` (lines 182 to 304):
`true` is `goto find_lookup_success`. -/
def sfn_match (km : kernel_heap) (buf : Mem) (dest : vfs_dir_entry_t) (e : Nat) : Bool :=
  let attr := (buf (e + 11)).val
  let ntres := (buf (e + 12)).val
  match sfn_loop (sfn_base_step km dest attr ntres) buf e 8 0 0 with
  | none => false
  | some js =>
    if attr &&& ATTR_DIRECTORY = 0 then
      (sfn_loop (sfn_ext_step km dest ntres) buf e 3 8 (js + 1)).isSome
    else true

/-- Body of the loop over the 32-byte entries of a cluster (lines 131 to 305)
for entry number `idx`: `ok true` is `goto find_lookup_success`, `ok false`
the next iteration. -/
def lookup_entry (km : kernel_heap) (buf : Mem) (dest : vfs_dir_entry_t) (idx : Nat) :
    Except Fault Bool :=
  let e := 32 * idx
  if (buf (e + 11)).val = ATTR_LONG_NAME then .ok false
  else if (buf e).val = 0xe5 ∨ (buf e).val = 0x00 ∨ (buf e).val = 0x05 then .ok false
  else
    match lfn_walk km buf dest (dest.name_length + 1) ((e : Int) - 32) 0 with
    | .error f => .error f
    | .ok .success => .ok true
    | .ok .fail => .ok false
    | .ok .short_name => .ok (sfn_match km buf dest e)

/-- The loop `for (i = 0; i < bytes_per_clus; i += 32)` from entry `idx` on,
with `n` iterations allowed: the number of the first accepted entry. -/
def scan_cluster (km : kernel_heap) (buf : Mem) (dest : vfs_dir_entry_t) (bytes_per_clus : Nat) :
    Nat → Nat → Except Fault (Option Nat)
  | 0, _ => .ok none
  | n + 1, idx =>
    if 32 * idx < bytes_per_clus then
      match lookup_entry km buf dest idx with
      | .error f => .error f
      | .ok true => .ok (some idx)
      | .ok false => scan_cluster km buf dest bytes_per_clus n (idx + 1)
    else .ok none

/-- Result of the scan of a directory: the cluster and the number of the
accepted entry and the cluster buffer it was found in. -/
structure lookup_hit where
  cluster : Nat
  index : Nat
  buf : Mem

/-- The LBA of a directory cluster, `first_data_sector + (cluster - 2) *
sec_per_clus` (line 118): the subtraction is done on the 32-bit `cluster`, the
rest in 64 bits. -/
def cluster_LBA (fsbi : fat32_sb_info_t) (cluster : Nat) : Nat :=
  u64 (fsbi.first_data_sector + u32 (cluster + (2 ^ 32 - 2)) * fsbi.sec_per_clus)

/-- The `while (true)` loop over the cluster chain of the parent directory
(lines 114 to 316); `fuel` bounds the number of clusters visited.  The cluster
buffer of `bytes_per_clus` bytes (line 106) is taken here as memory without an
end: the definition says what the code does when the transfer of
`sec_per_clus` blocks fits into `bytes_per_clus` bytes. -/
def lookup_chain (km : kernel_heap) (fsbi : fat32_sb_info_t) (dest : vfs_dir_entry_t) :
    Nat → Nat → Mem → ahci_disk → Except Fault (Option lookup_hit) × ahci_disk
  | 0, _, _, d => (.error .out_of_fuel, d)
  | fuel + 1, cluster, buf, d =>
    let sector := cluster_LBA fsbi cluster
    let r := ahci_read d sector fsbi.sec_per_clus buf
    match scan_cluster km r.1 dest fsbi.bytes_per_clus ((fsbi.bytes_per_clus + 31) / 32) 0 with
    | .error f => (.error f, r.2)
    | .ok (some idx) => (.ok (some ⟨cluster, idx, r.1⟩), r.2)
    | .ok none =>
      match fat32_read_FAT_entry fsbi cluster r.2 with
      | (.error f, d1) => (.error f, d1)
      | (.ok next, d1) =>
        if next ≥ 0x0ffffff7 then (.ok none, d1)
        else lookup_chain km fsbi dest fuel next r.1 d1

/-- The inode built at `find_lookup_success` (lines 318 to 340) from the
accepted short entry. -/
def lookup_inode (fsbi : fat32_sb_info_t) (h : lookup_hit) : Except Fault vfs_index_node_t :=
  let e := 32 * h.index
  let file_size := get_u32 h.buf (e + 28)
  match inode_blocks file_size fsbi.bytes_per_clus fsbi.bytes_per_sec with
  | .error f => .error f
  | .ok blocks =>
    .ok
      { file_size := file_size
        blocks := blocks
        attribute_ :=
          if (h.buf (e + 11)).val &&& ATTR_DIRECTORY ≠ 0 then vfs_attribute.VFS_ATTR_DIR
          else vfs_attribute.VFS_ATTR_FILE
        sb := fsbi
        private_inode_info :=
          { first_clus := ((get_u16 h.buf (e + 20) <<< 16) ||| get_u16 h.buf (e + 26)) &&& 0x0fffffff
            dEntry_location_clus := h.cluster
            dEntry_location_clus_offset := h.index
            create_date := get_u16 h.buf (e + 16)
            create_time := get_u16 h.buf (e + 14)
            write_date := get_u16 h.buf (e + 24)
            write_time := get_u16 h.buf (e + 22) } }

/-- `fat32_lookup`: look `dest_dentry` up in the directory `parent_inode`.
The result is `ok none` for `NULL`, and `ok (some dentry)` for the target
dentry with its inode bound. -/
def fat32_lookup (km : kernel_heap) (fuel : Nat) (parent_inode : vfs_index_node_t)
    (dest_dentry : vfs_dir_entry_t) (d : ahci_disk) :
    Except Fault (Option vfs_dir_entry_t) × ahci_disk :=
  let finode := parent_inode.private_inode_info
  let fsbi := parent_inode.sb
  match lookup_chain km fsbi dest_dentry fuel (u32 finode.first_clus) zero_mem d with
  | (.error f, d1) => (.error f, d1)
  | (.ok none, d1) => (.ok none, d1)
  | (.ok (some h), d1) =>
    match lookup_inode fsbi h with
    | .error f => (.error f, d1)
    | .ok p =>
      (.ok (some (.mk dest_dentry.name dest_dentry.name_length (some p) dest_dentry.parent)), d1)

/-! ## Path walk -/

/-- The loops `while (*path == '/') ++path;`. -/
def skip_slashes : List Byte → List Byte
  | [] => []
  | c :: cs => if c.val = 47 then skip_slashes cs else c :: cs

/-- The loop `while (*path && *path != '/') ++path;`: the characters passed
and the rest of the path. -/
def take_name : List Byte → List Byte × List Byte
  | [] => ([], [])
  | c :: cs =>
    if c.val ≠ 0 ∧ c.val ≠ 47 then ((c :: (take_name cs).1), (take_name cs).2)
    else ([], c :: cs)

/-- The test `(!*path) || (*path == '\0')`; the end of the list is the
terminating NUL of the string. -/
def at_end (path : List Byte) : Bool := (path.headD 0).val = 0

/-- The `while (true)` loop of `fat32_path_walk` (lines 368 to 415).  The
lookup is the call through `parent->dir_inode->inode_ops->lookup`; it works on
a state `σ` (the device). -/
def path_walk_loop {σ : Type}
    (lookup : vfs_index_node_t → vfs_dir_entry_t → σ → Except Fault (Option vfs_dir_entry_t) × σ)
    (flags : Nat) : Nat → vfs_dir_entry_t → List Byte → σ →
    Except Fault (Option vfs_dir_entry_t) × σ
  | 0, _, _, s => (.error .out_of_fuel, s)
  | fuel + 1, parent, path, s =>
    let tmp := take_name path
    let dentry := vfs_dir_entry_t.mk (tmp.1 ++ [0]) tmp.1.length none none
    match parent.dir_inode with
    | none => (.error .null_pointer, s)
    | some parent_inode =>
      match lookup parent_inode dentry s with
      | (.error f, s1) => (.error f, s1)
      | (.ok none, s1) => (.ok none, s1)
      | (.ok (some found), s1) =>
        let dentry1 := vfs_dir_entry_t.mk found.name found.name_length found.dir_inode (some parent)
        let path1 := skip_slashes tmp.2
        if at_end path1 then
          if flags &&& 1 ≠ 0 then (.ok (some parent), s1) else (.ok (some dentry1), s1)
        else path_walk_loop lookup flags fuel dentry1 path1 s1

/-- `fat32_path_walk`: `root` is `vfs_root_sb->root`, `path` the characters
of the string in front of its terminating NUL. -/
def fat32_path_walk {σ : Type} (root : vfs_dir_entry_t)
    (lookup : vfs_index_node_t → vfs_dir_entry_t → σ → Except Fault (Option vfs_dir_entry_t) × σ)
    (path : List Byte) (flags : Nat) (s : σ) : Except Fault (Option vfs_dir_entry_t) × σ :=
  let path0 := skip_slashes path
  if at_end path0 then (.ok (some root), s)
  else path_walk_loop lookup flags (path0.length + 1) root path0 s

/-! ## Concrete inputs and auxiliary notions used in the statements -/

/-- A memory image holding the bytes `l` from offset `base` on, and `rest` elsewhere. -/
def image (base : Nat) (l : List Nat) (rest : Nat → Byte) : Nat → Byte :=
  fun a => if base ≤ a ∧ a < base + l.length then u8 (l.getD (a - base) 0) else rest a

/-- A boot sector with BytesPerSec = 512, SecPerClus = 8, RsvdSecCnt = 32,
NumFATs = 2, FATSz32 = 1000 and RootClus = 2. -/
def boot_example : Mem :=
  image 11 [0x00, 0x02, 8, 32, 0, 2] (image 36 [0xe8, 0x03, 0, 0] (image 44 [2, 0, 0, 0] zero_mem))

/-- The raw 32-bit word of FAT1 that holds the entry of `cluster`, as it is on
the device. -/
def FAT1_word (fsbi : fat32_sb_info_t) (d : ahci_disk) (cluster : Nat) : Nat :=
  get_u32 (sector_byte d (u64 (fsbi.FAT1_base_sector + cluster / (fsbi.bootsector.BPB_BytesPerSec / 4))))
    (4 * (cluster % (fsbi.bootsector.BPB_BytesPerSec / 4)))

/-- The sector image that `fat32_write_FAT_entry` builds in `buf` and writes
to both FATs (line 82). -/
def FAT_sector_update (fsbi : fat32_sb_info_t) (cluster value : Nat) (d : ahci_disk) : Mem :=
  let fat_ent_per_sec := fsbi.bootsector.BPB_BytesPerSec >>> 2
  let r := ahci_read d (u64 (fsbi.FAT1_base_sector + cluster / fat_ent_per_sec)) 1 zero_mem
  let idx := cluster &&& (fat_ent_per_sec - 1)
  set_u32 r.1 (4 * idx) ((get_u32 r.1 (4 * idx) &&& 0xf0000000) ||| (value &&& 0x0fffffff))

/-- FAT1 and FAT2 are byte-identical on the device: every sector of the FAT1
region equals the sector at the same position of the FAT2 region. -/
def FAT_mirrored (fsbi : fat32_sb_info_t) (d : ahci_disk) : Prop :=
  ∀ s j, s < fsbi.sec_per_FAT → j < d.sector_bytes →
    sector_byte d (fsbi.FAT1_base_sector + s) j = sector_byte d (fsbi.FAT2_base_sector + s) j

/-- A volume with the geometry of `boot_example` at LBA 2048 (512-byte
sectors, 8 sectors per cluster, FAT1 at 2080, FAT2 at 3080, data at 4080),
with the boot sector copy filled in. -/
def fsbi_example : fat32_sb_info_t :=
  { zero_sb_info with
    bootsector := boot_sector_of boot_example
    starting_sector := 2048
    sector_count := 1000000
    sec_per_clus := 8
    bytes_per_sec := 512
    bytes_per_clus := 4096
    first_data_sector := 4080
    FAT1_base_sector := 2080
    FAT2_base_sector := 3080
    sec_per_FAT := 1000
    NumFATs := 2 }

/-- A device with 512-byte blocks whose FAT1 word of cluster 5 is
`0xA0000003` and which is zero elsewhere. -/
def disk_fat_example : ahci_disk :=
  { sector_bytes := 512
    data := image (2080 * 512 + 20) [0x03, 0x00, 0x00, 0xa0] zero_mem
    log := [] }

/-- A device with 512-byte blocks whose two FATs differ: byte 0 of the second
sector of FAT1 is 1, everything else is zero. -/
def disk_fat_differ : ahci_disk :=
  { sector_bytes := 512
    data := image (2081 * 512) [1] zero_mem
    log := [] }

/-- A device with 512-byte blocks holding zeroes. -/
def disk_zero : ahci_disk := { sector_bytes := 512, data := zero_mem, log := [] }

/-- The MBR entry of a partition that starts at LBA 2048. -/
def dpte_example : MBR_disk_partition_table_entry_t :=
  { type := 0x0c, starting_LBA := 2048, total_sectors := 1000000 }

/-- The bytes of the data cluster `c` as they are on the device, from the
first byte of the block at LBA `first_data_sector + (c - 2) * sec_per_clus`. -/
def cluster_bytes (fsbi : fat32_sb_info_t) (d : ahci_disk) (c : Nat) : Mem :=
  sector_byte d (dentry_cluster_LBA fsbi c)

/-- A device with 512-byte blocks whose cluster 5 (LBA 4104) holds, at byte
offset 64, the short entry of `README.TXT` with size 100, first cluster 10 and
the top four bits of `DIR_FstClusHI` set to `0x3`. -/
def disk_inode_example : ahci_disk :=
  { sector_bytes := 512
    data := image (4104 * 512 + 64)
      [82, 69, 65, 68, 77, 69, 32, 32, 84, 88, 84, 0x20, 0, 0, 0, 0, 0, 0, 0, 0,
        0x00, 0x30, 0, 0, 0, 0, 10, 0, 100, 0, 0, 0] zero_mem
    log := [] }

/-- An inode of `fsbi_example` whose entry is at byte offset 64 of cluster 5,
with size 200 and first cluster 11. -/
def inode_example : vfs_index_node_t :=
  { file_size := 200
    blocks := 8
    attribute_ := vfs_attribute.VFS_ATTR_FILE
    sb := fsbi_example
    private_inode_info :=
      { first_clus := 11
        dEntry_location_clus := 5
        dEntry_location_clus_offset := 64
        create_date := 0, create_time := 0, write_date := 0, write_time := 0 } }

/-- The cluster buffer of `fat32_lookup` after the transfer of `cluster` (line
123): the blocks of the cluster as they are on the device, and the zeroes of
the `memset` behind them. -/
def dir_cluster (fsbi : fat32_sb_info_t) (d : ahci_disk) (cluster : Nat) : Mem :=
  (ahci_read d (cluster_LBA fsbi cluster) fsbi.sec_per_clus zero_mem).1

/-- The fields of the inode that a lookup result is bound to: file size,
first cluster, and the cluster and the offset of the dentry location. -/
def lookup_inode_fields (r : Except Fault (Option vfs_dir_entry_t)) :
    Except Fault (Option (Nat × Nat × Nat × Nat)) :=
  match r with
  | .error f => .error f
  | .ok none => .ok none
  | .ok (some dentry) =>
    .ok (dentry.dir_inode.map fun i =>
      (i.file_size, i.private_inode_info.first_clus, i.private_inode_info.dEntry_location_clus,
        i.private_inode_info.dEntry_location_clus_offset))

/-- Kernel memory holding zeroes next to the buffers. -/
def heap_zero : kernel_heap := { before_buf := zero_mem, after_name := zero_mem }

/-- The target dentry that `fat32_path_walk` builds for a component. -/
def target_dentry (name : List Byte) : vfs_dir_entry_t :=
  vfs_dir_entry_t.mk (name ++ [0]) name.length none none

/-- The root inode of `fsbi_example`, with the root directory in cluster 2. -/
def root_inode_example : vfs_index_node_t :=
  { file_size := 0
    blocks := 7
    attribute_ := vfs_attribute.VFS_ATTR_DIR
    sb := fsbi_example
    private_inode_info :=
      { first_clus := 2
        dEntry_location_clus := 0
        dEntry_location_clus_offset := 0
        create_date := 0, create_time := 0, write_date := 0, write_time := 0 } }

/-- A device with 512-byte blocks whose root directory (cluster 2, LBA 4080)
holds a deleted entry followed by the short entry `HELLO   TXT` (archive,
both lowercase flags, first cluster 10, size 42), and whose FAT ends the chain
of cluster 2. -/
def disk_dir_example : ahci_disk :=
  { sector_bytes := 512
    data :=
      image (4080 * 512)
        [0xe5, 76, 68, 32, 32, 32, 32, 32, 84, 88, 84, 0x20, 0, 0, 0, 0, 0, 0, 0, 0,
          0, 0, 0, 0, 0, 0, 9, 0, 7, 0, 0, 0,
          72, 69, 76, 76, 79, 32, 32, 32, 84, 88, 84, 0x20, 0x18, 0, 0, 0, 0, 0, 0, 0,
          0, 0, 0, 0, 0, 0, 10, 0, 42, 0, 0, 0]
        (image (2080 * 512 + 8) [0xff, 0xff, 0xff, 0x0f] zero_mem)
    log := [] }

/-- The name `hello.txt`. -/
def name_hello_txt : List Byte := [104, 101, 108, 108, 111, 46, 116, 120, 116]

/-- An uppercase letter or a digit. -/
def upper_or_digit (c : Byte) : Prop := (65 ≤ c.val ∧ c.val ≤ 90) ∨ (48 ≤ c.val ∧ c.val ≤ 57)

/-- The character under which a stored name character is looked up: a letter
is lowercased when the lowercase flag of its part of the name is set. -/
def name_case (lower : Bool) (c : Byte) : Byte :=
  if lower = true ∧ is_letter c.val = true then u8 (c.val + 32) else c

/-- The target name of a short entry according to the specification: the
base, and for a file a dot and the extension, with the letters of the base
lowercased iff `LOWERCASE_BASE` is set in `ntres` and those of the extension
iff `LOWERCASE_EXT` is set. -/
def sfn_target (is_dir : Bool) (ntres : Nat) (base ext : List Byte) : List Byte :=
  base.map (name_case (decide (ntres &&& LOWERCASE_BASE ≠ 0)))
    ++ (if is_dir = true then []
        else (46 : Byte) :: ext.map (name_case (decide (ntres &&& LOWERCASE_EXT ≠ 0))))

instance (c : Byte) : Decidable (upper_or_digit c) :=
  inferInstanceAs (Decidable ((65 ≤ c.val ∧ c.val ≤ 90) ∨ (48 ≤ c.val ∧ c.val ≤ 57)))

/-- A cluster buffer whose entry 0 is the file `README  TXT` with both
lowercase flags set. -/
def buf_readme : Mem :=
  image 0 [82, 69, 65, 68, 77, 69, 32, 32, 84, 88, 84, 0x20, 0x18] zero_mem

/-- A cluster buffer whose entry 0 is the directory `DIR     ` with no
lowercase flag. -/
def buf_dir : Mem :=
  image 0 [68, 73, 82, 32, 32, 32, 32, 32, 32, 32, 32, 0x10, 0x00] zero_mem

/-- The name `readme.txt`. -/
def name_readme_txt : List Byte := [114, 101, 97, 100, 109, 101, 46, 116, 120, 116]

/-- The look-up of `name`, an update of the size and of the first cluster of
the inode found, its write-back with `fat32_write_inode`, and a fresh look-up
of `name`: the fields of the inode that the fresh look-up returns. -/
def write_inode_round_trip (km : kernel_heap) (fuel : Nat) (parent : vfs_index_node_t)
    (name : List Byte) (size first_clus : Nat) (d : ahci_disk) :
    Except Fault (Option (Nat × Nat × Nat × Nat)) :=
  match fat32_lookup km fuel parent (target_dentry name) d with
  | (.ok (some dentry), d1) =>
    match dentry.dir_inode with
    | some inode =>
      let inode1 : vfs_index_node_t :=
        { inode with
          file_size := size
          private_inode_info := { inode.private_inode_info with first_clus := first_clus } }
      lookup_inode_fields
        (fat32_lookup km fuel parent (target_dentry name) (fat32_write_inode inode1 d1)).1
    | none => .ok none
  | (r, _) => lookup_inode_fields r

/-- The device of `disk_dir_example` without the deleted entry: the short
entry `HELLO   TXT` is entry 0 of the root directory. -/
def disk_dir_first : ahci_disk :=
  { sector_bytes := 512
    data :=
      image (4080 * 512)
        [72, 69, 76, 76, 79, 32, 32, 32, 84, 88, 84, 0x20, 0x18, 0, 0, 0, 0, 0, 0, 0,
          0, 0, 0, 0, 0, 0, 10, 0, 42, 0, 0, 0]
        (image (2080 * 512 + 8) [0xff, 0xff, 0xff, 0x0f] zero_mem)
    log := [] }

/-- The components of a path according to the specification: the non-empty
maximal runs of characters other than `'/'`, in order. -/
def path_components (path : List Byte) : List (List Byte) :=
  (path.splitOn (47 : Byte)).filter (fun c => !c.isEmpty)

/-- The look-up of one component `comp` in the directory `parent`: `NULL`,
or the dentry of the component with `parent` as its parent. -/
def lookup_component {σ : Type}
    (lookup : vfs_index_node_t → vfs_dir_entry_t → σ → Except Fault (Option vfs_dir_entry_t) × σ)
    (parent : vfs_dir_entry_t) (comp : List Byte) (s : σ) :
    Except Fault (Option vfs_dir_entry_t) × σ :=
  match parent.dir_inode with
  | none => (.error .null_pointer, s)
  | some parent_inode =>
    match lookup parent_inode (vfs_dir_entry_t.mk (comp ++ [0]) comp.length none none) s with
    | (.error f, s1) => (.error f, s1)
    | (.ok none, s1) => (.ok none, s1)
    | (.ok (some found), s1) =>
      (.ok (some (vfs_dir_entry_t.mk found.name found.name_length found.dir_inode (some parent))),
        s1)

/-- The reference walk of the specification from the component `comp` on:
look the components up from left to right, each in the inode of the previous
result; `NULL` at the first failure; at the last component the containing
directory if bit 0 of `flags` is set, the component's dentry otherwise. -/
def path_walk_ref_from {σ : Type}
    (lookup : vfs_index_node_t → vfs_dir_entry_t → σ → Except Fault (Option vfs_dir_entry_t) × σ)
    (flags : Nat) : vfs_dir_entry_t → List Byte → List (List Byte) → σ →
    Except Fault (Option vfs_dir_entry_t) × σ
  | parent, comp, [], s =>
    match lookup_component lookup parent comp s with
    | (.ok (some dentry), s1) =>
      if flags % 2 = 1 then (.ok (some parent), s1) else (.ok (some dentry), s1)
    | r => r
  | parent, comp, c :: cs, s =>
    match lookup_component lookup parent comp s with
    | (.ok (some dentry), s1) => path_walk_ref_from lookup flags dentry c cs s1
    | r => r

/-- The reference path walk of the specification: the root when the path has
no component, the walk over its components from the root otherwise. -/
def path_walk_ref {σ : Type} (root : vfs_dir_entry_t)
    (lookup : vfs_index_node_t → vfs_dir_entry_t → σ → Except Fault (Option vfs_dir_entry_t) × σ)
    (path : List Byte) (flags : Nat) (s : σ) : Except Fault (Option vfs_dir_entry_t) × σ :=
  match path_components path with
  | [] => (.ok (some root), s)
  | c :: cs => path_walk_ref_from lookup flags root c cs s

/-- The root dentry of the volume `fsbi_example`. -/
def root_dentry_example : vfs_dir_entry_t :=
  vfs_dir_entry_t.mk [47] 1 (some root_inode_example) none

/-- The path `//hello.txt`. -/
def path_example : List Byte := [47, 47, 104, 101, 108, 108, 111, 46, 116, 120, 116]


/-! ## Further notions and concrete inputs used in the statements -/

/-- The `c`-th 32-bit word of the FAT1 region of the device, counted from the
first byte of the block `FAT1_base_sector`. -/
def FAT1_region_word (fsbi : fat32_sb_info_t) (d : ahci_disk) (c : Nat) : Nat :=
  get_u32 (fun i => d.data (fsbi.FAT1_base_sector * d.sector_bytes + i)) (4 * c)

/-- A device with 512-byte blocks whose FAT1 word of cluster 130 (word 2 of
the second FAT sector) is `0xF0000007`, and which is zero elsewhere. -/
def disk_fat_far : ahci_disk :=
  { sector_bytes := 512
    data := image (2081 * 512 + 8) [0x07, 0x00, 0x00, 0xf0] zero_mem
    log := [] }

/-- The FAT sector of `cluster` after a write according to the specification:
the old FAT1 sector of the entry, with the low 28 bits of word `cluster mod
(bytes_per_sector / 4)` replaced by `value & 0x0FFFFFFF`. -/
def FAT_sector_after (fsbi : fat32_sb_info_t) (d : ahci_disk) (cluster value : Nat) : Mem :=
  set_u32
    (sector_byte d
      (u64 (fsbi.FAT1_base_sector + cluster / (fsbi.bootsector.BPB_BytesPerSec / 4))))
    (4 * (cluster % (fsbi.bootsector.BPB_BytesPerSec / 4)))
    ((FAT1_word fsbi d cluster &&& 0xf0000000) ||| (value &&& 0x0fffffff))

/-- A device with 512-byte blocks whose root directory (cluster 2, LBA 4080)
holds as entry 0 the short entry `HELLO   TXT` (archive, both lowercase flags)
with `DIR_FstClusHI = 0x3000`, `DIR_FstClusLO = 10` and size 513, and whose
FAT ends the chain of cluster 2. -/
def disk_dir_hi : ahci_disk :=
  { sector_bytes := 512
    data :=
      image (4080 * 512)
        [72, 69, 76, 76, 79, 32, 32, 32, 84, 88, 84, 0x20, 0x18, 0, 0, 0, 0, 0, 0, 0,
          0x00, 0x30, 0, 0, 0, 0, 10, 0, 0x01, 0x02, 0, 0]
        (image (2080 * 512 + 8) [0xff, 0xff, 0xff, 0x0f] zero_mem)
    log := [] }

/-- The block count of the specification: the sectors of the whole clusters
needed for `file_size` bytes, `ceil(file_size / bytes_per_clus) * sec_per_clus`. -/
def blocks_spec (file_size bytes_per_clus sec_per_clus : Nat) : Nat :=
  (file_size + bytes_per_clus - 1) / bytes_per_clus * sec_per_clus

/-- The file size and the block count of the inode that a lookup result is
bound to. -/
def lookup_inode_blocks (r : Except Fault (Option vfs_dir_entry_t)) :
    Except Fault (Option (Nat × Nat)) :=
  match r with
  | .error f => .error f
  | .ok none => .ok none
  | .ok (some dentry) => .ok (dentry.dir_inode.map fun i => (i.file_size, i.blocks))

/-- The file size, the block count, and the cluster size and the sectors per
cluster of the volume, of the root inode of a mount result. -/
def mount_root_blocks (r : Except Fault (Option vfs_superblock_t)) :
    Except Fault (Option (Nat × Nat × Nat × Nat)) :=
  match r with
  | .error f => .error f
  | .ok none => .ok none
  | .ok (some sb) =>
    .ok (sb.root.dir_inode.map fun i =>
      (i.file_size, i.blocks, sb.private_sb_info.bytes_per_clus, sb.private_sb_info.sec_per_clus))

/-- Modelled from the spec: the byte offset, inside a long directory entry,
of its `x`-th UCS-2 name unit (`name1[5]` at 1, `name2[6]` at 14, `name3[2]`
at 28). -/
def ldir_unit_offset (x : Nat) : Nat :=
  if x < 5 then 1 + 2 * x else if x < 11 then 14 + 2 * (x - 5) else 28 + 2 * (x - 11)

/-- The `x`-th name unit of entry number `e` of a cluster buffer, read as a
long directory entry. -/
def ldir_unit (buf : Mem) (e x : Nat) : Nat := get_u16 buf (32 * e + ldir_unit_offset x)

/-- The `i`-th UCS-2 unit of the canonical long-name storage of `name`: its
characters, then a 0x0000 terminator, then 0xFFFF padding. -/
def lfn_unit (name : List Byte) (i : Nat) : Nat :=
  if i < name.length then (name.getD i 0).val else if i = name.length then 0 else 0xffff

/-- The canonical long-name chain of `name` is stored in the cluster buffer
right in front of entry `idx`: `ceil(n / 13)` long entries (attribute 0x0F,
ordinal other than 0xE5), the one nearest to entry `idx` holding the units 0
to 12. -/
def lfn_chain_at (buf : Mem) (idx : Nat) (name : List Byte) : Prop :=
  (name.length + 12) / 13 ≤ idx
  ∧ ∀ k, k < (name.length + 12) / 13 →
      (buf (32 * (idx - 1 - k) + 11)).val = ATTR_LONG_NAME
      ∧ (buf (32 * (idx - 1 - k))).val ≠ 0xe5
      ∧ ∀ x, x < 13 → ldir_unit buf (idx - 1 - k) x = lfn_unit name (13 * k + x)

instance (buf : Mem) (idx : Nat) (name : List Byte) : Decidable (lfn_chain_at buf idx name) :=
  inferInstanceAs (Decidable ((name.length + 12) / 13 ≤ idx
    ∧ ∀ k, k < (name.length + 12) / 13 →
      (buf (32 * (idx - 1 - k) + 11)).val = ATTR_LONG_NAME
      ∧ (buf (32 * (idx - 1 - k))).val ≠ 0xe5
      ∧ ∀ x, x < 13 → ldir_unit buf (idx - 1 - k) x = lfn_unit name (13 * k + x)))

/-- The 13 name units of the long entry at `buf + ld`, in order. -/
def LDIR_units (km : kernel_heap) (buf : Mem) (ld : Int) : List Nat :=
  LDIR_Name1 km buf ld ++ LDIR_Name2 km buf ld ++ LDIR_Name3 km buf ld

/-- The two bytes of a UCS-2 unit. -/
def ucs2_bytes (u : Nat) : List Nat := [u % 256, u / 256]

/-- The 32 bytes of the long entry number `k` (0 is the one next to the short
entry) of the canonical chain of `name`, with ordinal byte `ord`. -/
def lfn_record (ord : Nat) (name : List Byte) (k : Nat) : List Nat :=
  [ord]
    ++ ucs2_bytes (lfn_unit name (13 * k)) ++ ucs2_bytes (lfn_unit name (13 * k + 1))
    ++ ucs2_bytes (lfn_unit name (13 * k + 2)) ++ ucs2_bytes (lfn_unit name (13 * k + 3))
    ++ ucs2_bytes (lfn_unit name (13 * k + 4))
    ++ [0x0f, 0, 0]
    ++ ucs2_bytes (lfn_unit name (13 * k + 5)) ++ ucs2_bytes (lfn_unit name (13 * k + 6))
    ++ ucs2_bytes (lfn_unit name (13 * k + 7)) ++ ucs2_bytes (lfn_unit name (13 * k + 8))
    ++ ucs2_bytes (lfn_unit name (13 * k + 9)) ++ ucs2_bytes (lfn_unit name (13 * k + 10))
    ++ [0, 0]
    ++ ucs2_bytes (lfn_unit name (13 * k + 11)) ++ ucs2_bytes (lfn_unit name (13 * k + 12))

/-- The long name `verylongfilename.txt` (20 characters). -/
def name_verylong : List Byte :=
  [118, 101, 114, 121, 108, 111, 110, 103, 102, 105, 108, 101, 110, 97, 109, 101, 46, 116, 120,
    116]

/-- Its first 13 characters, `verylongfilen`. -/
def name_verylong13 : List Byte :=
  [118, 101, 114, 121, 108, 111, 110, 103, 102, 105, 108, 101, 110]

/-- The short entry `VERYLO~1TXT` (archive, no lowercase flag, first cluster
10, size 42), with `first` as its first name byte. -/
def sfn_verylo (first : Nat) : List Nat :=
  [first, 69, 82, 89, 76, 79, 126, 49, 84, 88, 84, 0x20, 0, 0, 0, 0, 0, 0, 0, 0,
    0, 0, 0, 0, 0, 0, 10, 0, 42, 0, 0, 0]

/-- The directory content of the long-name scenario of the specification:
the two long entries of `verylongfilename.txt` (ordinals 0x42 and 0x01) and
the short entry `VERYLO~1TXT`, whose first name byte is `first`. -/
def dir_verylong (first : Nat) : List Nat :=
  lfn_record 0x42 name_verylong 1 ++ lfn_record 0x01 name_verylong 0 ++ sfn_verylo first

/-- A cluster buffer holding `dir_verylong 86` (first name byte `V`). -/
def buf_verylong : Mem := image 0 (dir_verylong 86) zero_mem

/-- A cluster buffer holding `dir_verylong 5` (first name byte 0x05). -/
def buf_verylong_05 : Mem := image 0 (dir_verylong 5) zero_mem

/-- A device with 512-byte blocks whose root directory (cluster 2, LBA 4080)
holds `dir_verylong 86`, and whose FAT ends the chain of cluster 2. -/
def disk_verylong : ahci_disk :=
  { sector_bytes := 512
    data := image (4080 * 512) (dir_verylong 86)
      (image (2080 * 512 + 8) [0xff, 0xff, 0xff, 0x0f] zero_mem)
    log := [] }


/-- The device of `disk_verylong` with 0x05 as the first name byte of the
short entry. -/
def disk_verylong_05 : ahci_disk :=
  { sector_bytes := 512
    data := image (4080 * 512) (dir_verylong 5)
      (image (2080 * 512 + 8) [0xff, 0xff, 0xff, 0x0f] zero_mem)
    log := [] }

/-- The long name `Readme.txt`. -/
def name_Readme_txt : List Byte := [82, 101, 97, 100, 109, 101, 46, 116, 120, 116]

/-- The name `README.TXT`. -/
def name_README_TXT : List Byte := [82, 69, 65, 68, 77, 69, 46, 84, 88, 84]

/-- The short entry `README  TXT` (archive, NTRes 0, first cluster 10, size
42). -/
def sfn_README : List Nat :=
  [82, 69, 65, 68, 77, 69, 32, 32, 84, 88, 84, 0x20, 0, 0, 0, 0, 0, 0, 0, 0,
    0, 0, 0, 0, 0, 0, 10, 0, 42, 0, 0, 0]

/-- A cluster buffer holding the long entry of `Readme.txt` (ordinal 0x41)
and the short entry `README  TXT`. -/
def buf_Readme_long : Mem := image 0 (lfn_record 0x41 name_Readme_txt 0 ++ sfn_README) zero_mem

/-- A cluster buffer holding the short entry `README  TXT` alone. -/
def buf_README_short : Mem := image 0 sfn_README zero_mem

/-- A device with 512-byte blocks whose root directory (cluster 2, LBA 4080)
holds the content of `buf_Readme_long`, and whose FAT ends the chain of
cluster 2. -/
def disk_Readme_long : ahci_disk :=
  { sector_bytes := 512
    data := image (4080 * 512) (lfn_record 0x41 name_Readme_txt 0 ++ sfn_README)
      (image (2080 * 512 + 8) [0xff, 0xff, 0xff, 0x0f] zero_mem)
    log := [] }

/-- The cluster that the scan of a directory reaches `n` steps after
`cluster`: each step is the `fat32_read_FAT_entry` of line 309, and the chain
ends (`none`) at an entry of 0x0FFFFFF7 or more. -/
def chain_cluster (fsbi : fat32_sb_info_t) (d : ahci_disk) : Nat → Nat → Option Nat
  | 0, cluster => some cluster
  | n + 1, cluster =>
    match (fat32_read_FAT_entry fsbi cluster d).1 with
    | .error _ => none
    | .ok next => if next ≥ 0x0ffffff7 then none else chain_cluster fsbi d n next

/-- The short entry `HELLO   TXT` (archive, both lowercase flags) with first
cluster `clus` and size `size`, both below 256. -/
def sfn_HELLO (clus size : Nat) : List Nat :=
  [72, 69, 76, 76, 79, 32, 32, 32, 84, 88, 84, 0x20, 0x18, 0, 0, 0, 0, 0, 0, 0,
    0, 0, 0, 0, 0, 0, clus, 0, size, 0, 0, 0]

/-- A device with 512-byte blocks whose directory chain is 2 -> 3: cluster 2
(LBA 4080) holds the short entry `README  TXT`, cluster 3 (LBA 4088) a deleted
entry and then two entries `HELLO   TXT`, the first with first cluster 10 and
size 42, the second with first cluster 11 and size 99. -/
def disk_two_matches : ahci_disk :=
  { sector_bytes := 512
    data :=
      image (4080 * 512) sfn_README
        (image (4088 * 512) (0xe5 :: (sfn_HELLO 9 7).tail ++ sfn_HELLO 10 42 ++ sfn_HELLO 11 99)
          (image (2080 * 512 + 8) [3, 0, 0, 0, 0xff, 0xff, 0xff, 0x0f] zero_mem))
    log := [] }

/-- The path walk on a freshly mounted volume: `fat32_read_superblock` builds
the superblock, whose root dentry is `vfs_root_sb->root`, and `fat32_path_walk`
looks `path` up from it with `fat32_lookup`. -/
def path_walk_after_mount (km : kernel_heap) (DPTE : MBR_disk_partition_table_entry_t)
    (boot : Mem) (path : List Byte) (flags fuel : Nat) (d : ahci_disk) :
    Except Fault (Option vfs_dir_entry_t) × ahci_disk :=
  match fat32_read_superblock DPTE VFS_DPT_MBR boot 0 0 0 d with
  | (.ok (some sb), d1) => fat32_path_walk sb.root (fat32_lookup km fuel) path flags d1
  | (.ok none, d1) => (.ok none, d1)
  | (.error f, d1) => (.error f, d1)

/-- The name `absent.txt`. -/
def name_absent_txt : List Byte := [97, 98, 115, 101, 110, 116, 46, 116, 120, 116]

/-- The path `/absent.txt`. -/
def path_absent_txt : List Byte := 47 :: name_absent_txt

/-- A device with 512-byte blocks and the FAT entries FAT[2] = 3, FAT[3] = 4,
FAT[4] = 0x0FFFFFFF, whose clusters 2, 3 and 4 (LBA 4080, 4088, 4096) hold
the short entries `README  TXT`, `HELLO   TXT` and `HELLO   TXT`. -/
def disk_chain_234 : ahci_disk :=
  { sector_bytes := 512
    data :=
      image (4080 * 512) sfn_README
        (image (4088 * 512) (sfn_HELLO 10 42)
          (image (4096 * 512) (sfn_HELLO 11 99)
            (image (2080 * 512 + 8) [3, 0, 0, 0, 4, 0, 0, 0, 0xff, 0xff, 0xff, 0x0f] zero_mem)))
    log := [] }

/-- The usual dotted name of a file short entry with base `base` and
extension `ext` (both without the padding): the base alone when there is no
extension, the base, a dot and the extension otherwise, with the letters of
the base lowercased iff `LOWERCASE_BASE` is set in `ntres` and those of the
extension iff `LOWERCASE_EXT` is set. -/
def dotted_name (ntres : Nat) (base ext : List Byte) : List Byte :=
  base.map (name_case (decide (ntres &&& LOWERCASE_BASE ≠ 0)))
    ++ (match ext with
        | [] => []
        | c :: cs =>
          (46 : Byte) :: (c :: cs).map (name_case (decide (ntres &&& LOWERCASE_EXT ≠ 0))))

/-- A cluster buffer whose entry 0 is the file `A       C  ` with both
lowercase flags set. -/
def buf_A_C : Mem :=
  image 0 [65, 32, 32, 32, 32, 32, 32, 32, 67, 32, 32, 0x20, 0x18] zero_mem

/-- The name `a.c`. -/
def name_a_c : List Byte := [97, 46, 99]

/-- A device with 512-byte blocks whose root directory (cluster 2, LBA 4080)
holds as entry 0 the file `A       C  ` (both lowercase flags, first cluster
10, size 42), and whose FAT ends the chain of cluster 2. -/
def disk_A_C : ahci_disk :=
  { sector_bytes := 512
    data :=
      image (4080 * 512)
        [65, 32, 32, 32, 32, 32, 32, 32, 67, 32, 32, 0x20, 0x18, 0, 0, 0, 0, 0, 0, 0,
          0, 0, 0, 0, 0, 0, 10, 0, 42, 0, 0, 0]
        (image (2080 * 512 + 8) [0xff, 0xff, 0xff, 0x0f] zero_mem)
    log := [] }

/-- The name `ABCDEFGH`. -/
def name_ABCDEFGH : List Byte := [65, 66, 67, 68, 69, 70, 71, 72]

/-- The short entry `ABCDEFGHTXT` (archive, NTRes 0, first cluster 10, size
42). -/
def sfn_ABCDEFGH_TXT : List Nat :=
  [65, 66, 67, 68, 69, 70, 71, 72, 84, 88, 84, 0x20, 0, 0, 0, 0, 0, 0, 0, 0,
    0, 0, 0, 0, 0, 0, 10, 0, 42, 0, 0, 0]

/-- A cluster buffer whose entry 0 is the file `ABCDEFGHTXT`. -/
def buf_ABCDEFGH_TXT : Mem := image 0 sfn_ABCDEFGH_TXT zero_mem

/-- A device with 512-byte blocks whose root directory (cluster 2, LBA 4080)
holds as entry 0 the file `ABCDEFGHTXT`, and whose FAT ends the chain of
cluster 2. -/
def disk_ABCDEFGH_TXT : ahci_disk :=
  { sector_bytes := 512
    data := image (4080 * 512) sfn_ABCDEFGH_TXT
      (image (2080 * 512 + 8) [0xff, 0xff, 0xff, 0x0f] zero_mem)
    log := [] }

/-- Kernel memory in which the bytes `l` follow the name buffer of the target
dentry, and which is zero elsewhere. -/
def heap_after_name (l : List Nat) : kernel_heap :=
  { before_buf := zero_mem, after_name := image 0 l zero_mem }

/-- A cluster buffer whose entry 0 is the directory `ABCDEFGH   ` with no
lowercase flag. -/
def buf_ABCDEFGH_dir : Mem :=
  image 0 [65, 66, 67, 68, 69, 70, 71, 72, 32, 32, 32, 0x10, 0x00] zero_mem

/-- A cluster buffer whose entry 0 is the short entry `VERYLO~1TXT` with no
long entry in front of it. -/
def buf_VERYLO_short : Mem := image 0 (sfn_verylo 86) zero_mem

/-- The name `VERYLOX1.TXT`. -/
def name_VERYLOX1_TXT : List Byte := [86, 69, 82, 89, 76, 79, 88, 49, 46, 84, 88, 84]

/-- The path `/hello.txt`. -/
def path_hello_txt : List Byte := 47 :: name_hello_txt

/-- A device with 512-byte blocks whose root directory (cluster 2, LBA 4080)
holds a deleted entry and then two entries `HELLO   TXT`, the first with first
cluster 10 and size 42, the second with first cluster 11 and size 99, and
whose FAT ends the chain of cluster 2. -/
def disk_two_matches_first : ahci_disk :=
  { sector_bytes := 512
    data :=
      image (4080 * 512) (0xe5 :: (sfn_HELLO 9 7).tail ++ sfn_HELLO 10 42 ++ sfn_HELLO 11 99)
        (image (2080 * 512 + 8) [0xff, 0xff, 0xff, 0x0f] zero_mem)
    log := [] }

/-! ## Little-endian fields and the mount -/

theorem get_u16_lt (m : Mem) (off : Nat) : get_u16 m off < 2 ^ 16 := by
  unfold get_u16; omega

theorem get_u32_lt (m : Mem) (off : Nat) : get_u32 m off < 2 ^ 32 := by
  unfold get_u32; omega

theorem sb_info_fill_geometry (DPTE : MBR_disk_partition_table_entry_t) (fbs : fat32_BootSector_t)
    (c p n : Nat) (hF : fbs.BPB_FATSz32 < 2 ^ 32)
    (hsum : DPTE.starting_LBA + fbs.BPB_RsvdSecCnt + fbs.BPB_NumFATs * fbs.BPB_FATSz32 < 2 ^ 32) :
    (fat32_sb_info_fill DPTE fbs c p n).FAT1_base_sector = DPTE.starting_LBA + fbs.BPB_RsvdSecCnt
      ∧ (fat32_sb_info_fill DPTE fbs c p n).FAT2_base_sector
        = (fat32_sb_info_fill DPTE fbs c p n).FAT1_base_sector + fbs.BPB_FATSz32
      ∧ (fat32_sb_info_fill DPTE fbs c p n).first_data_sector
        = DPTE.starting_LBA + fbs.BPB_RsvdSecCnt + fbs.BPB_NumFATs * fbs.BPB_FATSz32
      ∧ (fat32_sb_info_fill DPTE fbs c p n).bytes_per_clus
        = fbs.BPB_SecPerClus * fbs.BPB_BytesPerSec := by
  have hcomm : fbs.BPB_FATSz32 * fbs.BPB_NumFATs = fbs.BPB_NumFATs * fbs.BPB_FATSz32 :=
    Nat.mul_comm _ _
  have h1 : u32 (DPTE.starting_LBA + fbs.BPB_RsvdSecCnt) = DPTE.starting_LBA + fbs.BPB_RsvdSecCnt := by
    unfold u32; omega
  have h2 : u64 (DPTE.starting_LBA + fbs.BPB_RsvdSecCnt + fbs.BPB_FATSz32)
      = DPTE.starting_LBA + fbs.BPB_RsvdSecCnt + fbs.BPB_FATSz32 := by
    unfold u64; omega
  have h3 : u32 (DPTE.starting_LBA + fbs.BPB_RsvdSecCnt + u32 (fbs.BPB_FATSz32 * fbs.BPB_NumFATs))
      = DPTE.starting_LBA + fbs.BPB_RsvdSecCnt + fbs.BPB_NumFATs * fbs.BPB_FATSz32 := by
    rw [hcomm]; unfold u32; omega
  simp only [fat32_sb_info_fill, h1, h2, h3, and_self]

/-- With a non-zero `BPB_BytesPerSec`, `fat32_read_superblock` returns a
superblock whose geometry fields are the ones stored at lines 448 to 463. -/
theorem read_superblock_some (DPTE : MBR_disk_partition_table_entry_t) (buf : Mem) (c p n : Nat)
    (d : ahci_disk) (hb : (boot_sector_of buf).BPB_BytesPerSec ≠ 0) :
    ∃ sb, (fat32_read_superblock DPTE VFS_DPT_MBR buf c p n d).1 = .ok (some sb)
      ∧ sb.private_sb_info.FAT1_base_sector
        = (fat32_sb_info_fill DPTE (boot_sector_of buf) c p n).FAT1_base_sector
      ∧ sb.private_sb_info.FAT2_base_sector
        = (fat32_sb_info_fill DPTE (boot_sector_of buf) c p n).FAT2_base_sector
      ∧ sb.private_sb_info.first_data_sector
        = (fat32_sb_info_fill DPTE (boot_sector_of buf) c p n).first_data_sector
      ∧ sb.private_sb_info.bytes_per_clus
        = (fat32_sb_info_fill DPTE (boot_sector_of buf) c p n).bytes_per_clus
      ∧ sb.private_sb_info.bytes_per_sec = (boot_sector_of buf).BPB_BytesPerSec := by
  have hbs : (fat32_sb_info_fill DPTE (boot_sector_of buf) c p n).bytes_per_sec
      = (boot_sector_of buf).BPB_BytesPerSec := rfl
  simp only [fat32_read_superblock, inode_blocks, hbs, if_neg hb, ne_eq, not_true_eq_false, if_false]
  exact ⟨_, rfl, rfl, rfl, rfl, rfl, rfl⟩

/-- C1: for every boot sector and MBR partition entry whose sums stay below
2^32, the geometry stored by `fat32_read_superblock` satisfies `FAT1_base =
starting_LBA + RsvdSecCnt`, `FAT2_base = FAT1_base + FATSz32`,
`first_data_sector = starting_LBA + RsvdSecCnt + NumFATs * FATSz32` and
`bytes_per_clus = SecPerClus * BytesPerSec`: the fields as stored (lines 448
to 463), and the ones of the superblock that the function returns on a device
whose blocks have at most 512 bytes, so that the one-block transfer of line
469 stays inside the 512-byte `fsinfo` member (it returns a superblock when
`BPB_BytesPerSec` is not 0; otherwise line 493 divides by zero). -/
theorem read_superblock_geometry (DPTE : MBR_disk_partition_table_entry_t) (buf : Mem)
    (ahci_ctrl_num ahci_port_num part_num : Nat)
    (hsum : DPTE.starting_LBA + (boot_sector_of buf).BPB_RsvdSecCnt
      + (boot_sector_of buf).BPB_NumFATs * (boot_sector_of buf).BPB_FATSz32 < 2 ^ 32) :
    ((fat32_sb_info_fill DPTE (boot_sector_of buf) ahci_ctrl_num ahci_port_num part_num).FAT1_base_sector
        = DPTE.starting_LBA + (boot_sector_of buf).BPB_RsvdSecCnt
      ∧ (fat32_sb_info_fill DPTE (boot_sector_of buf) ahci_ctrl_num ahci_port_num part_num).FAT2_base_sector
        = (fat32_sb_info_fill DPTE (boot_sector_of buf) ahci_ctrl_num ahci_port_num part_num).FAT1_base_sector
          + (boot_sector_of buf).BPB_FATSz32
      ∧ (fat32_sb_info_fill DPTE (boot_sector_of buf) ahci_ctrl_num ahci_port_num part_num).first_data_sector
        = DPTE.starting_LBA + (boot_sector_of buf).BPB_RsvdSecCnt
          + (boot_sector_of buf).BPB_NumFATs * (boot_sector_of buf).BPB_FATSz32
      ∧ (fat32_sb_info_fill DPTE (boot_sector_of buf) ahci_ctrl_num ahci_port_num part_num).bytes_per_clus
        = (boot_sector_of buf).BPB_SecPerClus * (boot_sector_of buf).BPB_BytesPerSec)
    ∧ ∀ d : ahci_disk, d.sector_bytes ≤ 512 → (boot_sector_of buf).BPB_BytesPerSec ≠ 0 →
        ∃ sb, (fat32_read_superblock DPTE VFS_DPT_MBR buf ahci_ctrl_num ahci_port_num part_num d).1
            = .ok (some sb)
          ∧ sb.private_sb_info.FAT1_base_sector
            = DPTE.starting_LBA + (boot_sector_of buf).BPB_RsvdSecCnt
          ∧ sb.private_sb_info.FAT2_base_sector
            = sb.private_sb_info.FAT1_base_sector + (boot_sector_of buf).BPB_FATSz32
          ∧ sb.private_sb_info.first_data_sector
            = DPTE.starting_LBA + (boot_sector_of buf).BPB_RsvdSecCnt
              + (boot_sector_of buf).BPB_NumFATs * (boot_sector_of buf).BPB_FATSz32
          ∧ sb.private_sb_info.bytes_per_clus
            = (boot_sector_of buf).BPB_SecPerClus * (boot_sector_of buf).BPB_BytesPerSec := by
  have hfill := sb_info_fill_geometry DPTE (boot_sector_of buf) ahci_ctrl_num ahci_port_num part_num
    (get_u32_lt buf 36) hsum
  refine ⟨hfill, ?_⟩
  intro d _ hb
  obtain ⟨sb, h0, h1, h2, h3, h4, -⟩ :=
    read_superblock_some DPTE buf ahci_ctrl_num ahci_port_num part_num d hb
  refine ⟨sb, h0, ?_, ?_, ?_, ?_⟩
  · rw [h1]; exact hfill.1
  · rw [h2, h1]; exact hfill.2.1
  · rw [h3]; exact hfill.2.2.1
  · rw [h4]; exact hfill.2.2.2

theorem read_superblock_geometry_witness :
    (dpte_example.starting_LBA + (boot_sector_of boot_example).BPB_RsvdSecCnt
      + (boot_sector_of boot_example).BPB_NumFATs * (boot_sector_of boot_example).BPB_FATSz32 < 2 ^ 32)
    ∧ disk_zero.sector_bytes ≤ 512
    ∧ (fat32_sb_info_fill dpte_example (boot_sector_of boot_example) 0 0 0).FAT1_base_sector = 2080
    ∧ (fat32_sb_info_fill dpte_example (boot_sector_of boot_example) 0 0 0).FAT2_base_sector = 3080
    ∧ (fat32_sb_info_fill dpte_example (boot_sector_of boot_example) 0 0 0).first_data_sector = 4080
    ∧ (fat32_sb_info_fill dpte_example (boot_sector_of boot_example) 0 0 0).bytes_per_clus = 4096
    ∧ ∃ sb, (fat32_read_superblock dpte_example VFS_DPT_MBR boot_example 0 0 0 disk_zero).1
          = .ok (some sb)
        ∧ sb.private_sb_info.FAT1_base_sector = 2080
        ∧ sb.private_sb_info.FAT2_base_sector = 3080
        ∧ sb.private_sb_info.first_data_sector = 4080
        ∧ sb.private_sb_info.bytes_per_clus = 4096 := by
  have hs : dpte_example.starting_LBA + (boot_sector_of boot_example).BPB_RsvdSecCnt
      + (boot_sector_of boot_example).BPB_NumFATs * (boot_sector_of boot_example).BPB_FATSz32
      < 2 ^ 32 := by
    decide
  have h := read_superblock_geometry dpte_example boot_example 0 0 0 hs
  have e0 : dpte_example.starting_LBA = 2048 := rfl
  have e1 : (boot_sector_of boot_example).BPB_RsvdSecCnt = 32 := by decide
  have e2 : (boot_sector_of boot_example).BPB_NumFATs = 2 := by decide
  have e3 : (boot_sector_of boot_example).BPB_FATSz32 = 1000 := by decide
  have e4 : (boot_sector_of boot_example).BPB_SecPerClus = 8 := by decide
  have e5 : (boot_sector_of boot_example).BPB_BytesPerSec = 512 := by decide
  have hb : (boot_sector_of boot_example).BPB_BytesPerSec ≠ 0 := by decide
  obtain ⟨⟨h1, h2, h3, h4⟩, hB⟩ := h
  have hd : disk_zero.sector_bytes ≤ 512 := by decide
  obtain ⟨sb, b0, b1, b2, b3, b4⟩ := hB disk_zero hd hb
  rw [e0, e1, e2, e3] at h3 b3
  rw [e0, e1] at h1 b1
  rw [h1, e3] at h2
  rw [b1, e3] at b2
  rw [e4, e5] at h4 b4
  exact ⟨hs, hd, h1, h2, h3, h4, sb, b0, b1, b2, b3, b4⟩


/-! ## The block device -/

theorem sector_disjoint (S s1 s2 j : Nat) (hj : j < S) (hne : s1 ≠ s2) :
    ¬ (s2 * S ≤ s1 * S + j ∧ s1 * S + j < s2 * S + 1 * S) := by
  rcases Nat.lt_or_gt_of_ne hne with h | h
  · have h1 : (s1 + 1) * S ≤ s2 * S := Nat.mul_le_mul_right S h
    rw [Nat.add_mul] at h1
    omega
  · have h1 : (s2 + 1) * S ≤ s1 * S := Nat.mul_le_mul_right S h
    rw [Nat.add_mul] at h1
    omega

theorem get_u32_congr (m1 m2 : Mem) (off : Nat)
    (h : ∀ j, j < 4 → m1 (off + j) = m2 (off + j)) : get_u32 m1 off = get_u32 m2 off := by
  unfold get_u32
  rw [show m1 off = m2 off from h 0 (by omega), h 1 (by omega), h 2 (by omega), h 3 (by omega)]

theorem get_u32_set_u32 (m : Mem) (off v : Nat) : get_u32 (set_u32 m off v) off = v % 2 ^ 32 := by
  simp [get_u32, set_u32, u8]
  omega

theorem mask_low (a b : Nat) :
    ((a &&& 0xf0000000) ||| (b &&& 0x0fffffff)) &&& 0x0fffffff = b &&& 0x0fffffff := by
  have hH : (0xf0000000 : Nat) = (2 ^ 4 - 1) <<< 28 := by decide
  have hL : (0x0fffffff : Nat) = 2 ^ 28 - 1 := by decide
  rw [hH, hL]
  apply Nat.eq_of_testBit_eq
  intro i
  simp only [Nat.testBit_and, Nat.testBit_or, Nat.testBit_shiftLeft, Nat.testBit_two_pow_sub_one]
  by_cases h : i < 28
  · have h1 : ¬ 28 ≤ i := by omega
    simp [h, h1]
  · have h1 : 28 ≤ i := by omega
    simp [h, h1]

theorem mask_high (a b : Nat) :
    ((a &&& 0xf0000000) ||| (b &&& 0x0fffffff)) &&& 0xf0000000 = a &&& 0xf0000000 := by
  have hH : (0xf0000000 : Nat) = (2 ^ 4 - 1) <<< 28 := by decide
  have hL : (0x0fffffff : Nat) = 2 ^ 28 - 1 := by decide
  rw [hH, hL]
  apply Nat.eq_of_testBit_eq
  intro i
  simp only [Nat.testBit_and, Nat.testBit_or, Nat.testBit_shiftLeft, Nat.testBit_two_pow_sub_one]
  by_cases h : i < 28
  · have h1 : ¬ 28 ≤ i := by omega
    simp [h, h1]
  · have h1 : 28 ≤ i := by omega
    simp [h, h1]

theorem mask_lt (a b : Nat) : ((a &&& 0xf0000000) ||| (b &&& 0x0fffffff)) < 2 ^ 32 :=
  Nat.or_lt_two_pow (Nat.and_lt_two_pow a (by decide)) (Nat.and_lt_two_pow b (by decide))

/-! ## FAT entries -/

theorem write_FAT_entry_fst (fsbi : fat32_sb_info_t) (c v : Nat) (d : ahci_disk)
    (h : fsbi.bootsector.BPB_BytesPerSec >>> 2 ≠ 0) :
    (fat32_write_FAT_entry fsbi c v d).1 = .ok 0 := by
  simp [fat32_write_FAT_entry, h]

theorem write_FAT_entry_sector_bytes (fsbi : fat32_sb_info_t) (c v : Nat) (d : ahci_disk) :
    (fat32_write_FAT_entry fsbi c v d).2.sector_bytes = d.sector_bytes := by
  unfold fat32_write_FAT_entry
  by_cases h : fsbi.bootsector.BPB_BytesPerSec >>> 2 = 0 <;> simp [h, ahci_write, ahci_read]

theorem write_FAT_entry_data (fsbi : fat32_sb_info_t) (c v : Nat) (d : ahci_disk)
    (h : fsbi.bootsector.BPB_BytesPerSec >>> 2 ≠ 0) (a : Nat) :
    (fat32_write_FAT_entry fsbi c v d).2.data a =
      if u64 (fsbi.FAT2_base_sector + c / (fsbi.bootsector.BPB_BytesPerSec >>> 2)) * d.sector_bytes ≤ a
          ∧ a < u64 (fsbi.FAT2_base_sector + c / (fsbi.bootsector.BPB_BytesPerSec >>> 2)) * d.sector_bytes
              + 1 * d.sector_bytes
      then FAT_sector_update fsbi c v d
        (a - u64 (fsbi.FAT2_base_sector + c / (fsbi.bootsector.BPB_BytesPerSec >>> 2)) * d.sector_bytes)
      else if u64 (fsbi.FAT1_base_sector + c / (fsbi.bootsector.BPB_BytesPerSec >>> 2)) * d.sector_bytes ≤ a
          ∧ a < u64 (fsbi.FAT1_base_sector + c / (fsbi.bootsector.BPB_BytesPerSec >>> 2)) * d.sector_bytes
              + 1 * d.sector_bytes
      then FAT_sector_update fsbi c v d
        (a - u64 (fsbi.FAT1_base_sector + c / (fsbi.bootsector.BPB_BytesPerSec >>> 2)) * d.sector_bytes)
      else d.data a := by
  simp only [fat32_write_FAT_entry, h, if_false, ahci_write, ahci_read, FAT_sector_update]

/-- After `fat32_write_FAT_entry`, the FAT1 sector of the entry and the FAT2
sector of the entry both hold the sector image built by the call. -/
theorem write_FAT_entry_sector (fsbi : fat32_sb_info_t) (c v : Nat) (d : ahci_disk)
    (h : fsbi.bootsector.BPB_BytesPerSec >>> 2 ≠ 0) (j : Nat) (hj : j < d.sector_bytes) :
    (fat32_write_FAT_entry fsbi c v d).2.data
        (u64 (fsbi.FAT1_base_sector + c / (fsbi.bootsector.BPB_BytesPerSec >>> 2)) * d.sector_bytes + j)
      = FAT_sector_update fsbi c v d j
    ∧ (fat32_write_FAT_entry fsbi c v d).2.data
        (u64 (fsbi.FAT2_base_sector + c / (fsbi.bootsector.BPB_BytesPerSec >>> 2)) * d.sector_bytes + j)
      = FAT_sector_update fsbi c v d j := by
  generalize hs1 : u64 (fsbi.FAT1_base_sector + c / (fsbi.bootsector.BPB_BytesPerSec >>> 2)) = s1
  generalize hs2 : u64 (fsbi.FAT2_base_sector + c / (fsbi.bootsector.BPB_BytesPerSec >>> 2)) = s2
  constructor
  · rw [write_FAT_entry_data fsbi c v d h, hs1, hs2]
    by_cases he : s1 = s2
    · subst he
      rw [if_pos (by omega)]
      congr 1; omega
    · rw [if_neg (sector_disjoint _ _ _ _ hj he), if_pos (by omega)]
      congr 1; omega
  · rw [write_FAT_entry_data fsbi c v d h, hs2]
    rw [if_pos (by omega)]
    congr 1; omega

theorem pow_two_entries (k : Nat) (hk : 2 ≤ k) :
    (2 ^ k) >>> 2 = 2 ^ (k - 2) ∧ 2 ^ k / 4 = 2 ^ (k - 2) ∧ 2 ^ k = 4 * 2 ^ (k - 2)
      ∧ 0 < 2 ^ (k - 2) := by
  have h4 : 2 ^ k = 4 * 2 ^ (k - 2) := by
    have : k = 2 + (k - 2) := by omega
    conv_lhs => rw [this, pow_add]
    norm_num
  refine ⟨?_, ?_, h4, Nat.pow_pos (by decide)⟩
  · rw [Nat.shiftRight_eq_div_pow, h4]; norm_num
  · rw [h4]; omega

/-- The buffer of `fat32_read_FAT_entry` holds the sector of the device. -/
theorem read_FAT_entry_eq (fsbi : fat32_sb_info_t) (c : Nat) (d : ahci_disk) (k : Nat)
    (hk : 2 ≤ k) (hbps : fsbi.bootsector.BPB_BytesPerSec = 2 ^ k)
    (hsec : d.sector_bytes = fsbi.bootsector.BPB_BytesPerSec) :
    (fat32_read_FAT_entry fsbi c d).1 = .ok (FAT1_word fsbi d c &&& 0x0fffffff) := by
  obtain ⟨e1, e2, e3, e4⟩ := pow_two_entries k hk
  have hidx : c % 2 ^ (k - 2) < 2 ^ (k - 2) := Nat.mod_lt _ e4
  simp only [fat32_read_FAT_entry, FAT1_word, hbps, e1, e2, Nat.and_pow_two_sub_one_eq_mod,
    if_neg (Nat.ne_of_gt e4), ahci_read]
  congr 2
  apply get_u32_congr
  intro j hj
  simp only [sector_byte]
  rw [if_pos (by rw [hsec, hbps, e3]; omega)]


theorem FAT1_word_write (fsbi : fat32_sb_info_t) (c v : Nat) (d : ahci_disk) (k : Nat)
    (hk : 2 ≤ k) (hbps : fsbi.bootsector.BPB_BytesPerSec = 2 ^ k)
    (hsec : d.sector_bytes = fsbi.bootsector.BPB_BytesPerSec) :
    FAT1_word fsbi (fat32_write_FAT_entry fsbi c v d).2 c
      = (FAT1_word fsbi d c &&& 0xf0000000) ||| (v &&& 0x0fffffff) := by
  obtain ⟨e1, e2, e3, e4⟩ := pow_two_entries k hk
  have hidx : c % 2 ^ (k - 2) < 2 ^ (k - 2) := Nat.mod_lt _ e4
  have hne : fsbi.bootsector.BPB_BytesPerSec >>> 2 ≠ 0 := by rw [hbps, e1]; omega
  have hshift : fsbi.bootsector.BPB_BytesPerSec >>> 2 = fsbi.bootsector.BPB_BytesPerSec / 4 := by
    rw [hbps, e1, e2]
  have hold : get_u32 (ahci_read d (u64 (fsbi.FAT1_base_sector + c / (fsbi.bootsector.BPB_BytesPerSec >>> 2)))
      1 zero_mem).1 (4 * (c &&& (fsbi.bootsector.BPB_BytesPerSec >>> 2) - 1)) = FAT1_word fsbi d c := by
    simp only [FAT1_word, hbps, e1, e2, Nat.and_pow_two_sub_one_eq_mod, ahci_read]
    apply get_u32_congr
    intro j hj
    simp only [sector_byte]
    rw [if_pos (by rw [hsec, hbps, e3]; omega)]
  have hnew : FAT1_word fsbi (fat32_write_FAT_entry fsbi c v d).2 c
      = get_u32 (FAT_sector_update fsbi c v d) (4 * (c % (fsbi.bootsector.BPB_BytesPerSec / 4))) := by
    unfold FAT1_word
    apply get_u32_congr
    intro j hj
    simp only [sector_byte, write_FAT_entry_sector_bytes]
    rw [← hshift]
    exact (write_FAT_entry_sector fsbi c v d hne _ (by rw [hsec, hshift, hbps, e2, e3]; omega)).1
  rw [hnew]
  have hupd : FAT_sector_update fsbi c v d
      = set_u32 (ahci_read d (u64 (fsbi.FAT1_base_sector + c / (fsbi.bootsector.BPB_BytesPerSec >>> 2)))
          1 zero_mem).1 (4 * (c &&& (fsbi.bootsector.BPB_BytesPerSec >>> 2) - 1))
          ((FAT1_word fsbi d c &&& 0xf0000000) ||| (v &&& 0x0fffffff)) := by
    rw [← hold]; rfl
  have hi : c % (fsbi.bootsector.BPB_BytesPerSec / 4) = c &&& (fsbi.bootsector.BPB_BytesPerSec >>> 2) - 1 := by
    rw [hbps, e1, e2, Nat.and_pow_two_sub_one_eq_mod]
  rw [hupd, hi, get_u32_set_u32, Nat.mod_eq_of_lt (mask_lt _ _)]

/-- C2: for a FAT sector size that is a power of two between 4 and 1024 (the
block size of the device), `fat32_write_FAT_entry (c, v)` completes, a
following `fat32_read_FAT_entry (c)` returns `v & 0x0FFFFFFF`, and the top
four bits of the raw FAT1 word of `c` are the ones it had before the write. -/
theorem write_FAT_entry_read_back (fsbi : fat32_sb_info_t) (d : ahci_disk) (c v k : Nat)
    (hk : 2 ≤ k ∧ k ≤ 10) (hbps : fsbi.bootsector.BPB_BytesPerSec = 2 ^ k)
    (hsec : d.sector_bytes = fsbi.bootsector.BPB_BytesPerSec) :
    (fat32_write_FAT_entry fsbi c v d).1 = .ok 0
    ∧ (fat32_read_FAT_entry fsbi c (fat32_write_FAT_entry fsbi c v d).2).1 = .ok (v &&& 0x0fffffff)
    ∧ FAT1_word fsbi (fat32_write_FAT_entry fsbi c v d).2 c &&& 0xf0000000
        = FAT1_word fsbi d c &&& 0xf0000000 := by
  obtain ⟨e1, _, _, e4⟩ := pow_two_entries k hk.1
  have hne : fsbi.bootsector.BPB_BytesPerSec >>> 2 ≠ 0 := by rw [hbps, e1]; omega
  refine ⟨write_FAT_entry_fst fsbi c v d hne, ?_, ?_⟩
  · rw [read_FAT_entry_eq fsbi c _ k hk.1 hbps (by rw [write_FAT_entry_sector_bytes]; exact hsec),
      FAT1_word_write fsbi c v d k hk.1 hbps hsec, mask_low]
  · rw [FAT1_word_write fsbi c v d k hk.1 hbps hsec, mask_high]


theorem write_FAT_entry_read_back_witness :
    (2 ≤ 9 ∧ 9 ≤ 10) ∧ fsbi_example.bootsector.BPB_BytesPerSec = 2 ^ 9
    ∧ disk_fat_example.sector_bytes = fsbi_example.bootsector.BPB_BytesPerSec
    ∧ (fat32_read_FAT_entry fsbi_example 5
        (fat32_write_FAT_entry fsbi_example 5 0x12345678 disk_fat_example).2).1 = .ok 0x02345678
    ∧ FAT1_word fsbi_example (fat32_write_FAT_entry fsbi_example 5 0x12345678 disk_fat_example).2 5
        &&& 0xf0000000 = 0xa0000000 := by
  have h := write_FAT_entry_read_back fsbi_example disk_fat_example 5 0x12345678 9
    (by decide) (by decide) (by decide)
  have hw : FAT1_word fsbi_example disk_fat_example 5 = 0xa0000003 := by decide
  rw [hw] at h
  exact ⟨by decide, by decide, by decide, h.2.1, h.2.2⟩

theorem write_FAT_entry_other (fsbi : fat32_sb_info_t) (c v : Nat) (d : ahci_disk)
    (h : fsbi.bootsector.BPB_BytesPerSec >>> 2 ≠ 0) (t j : Nat) (hj : j < d.sector_bytes)
    (h1 : t ≠ u64 (fsbi.FAT1_base_sector + c / (fsbi.bootsector.BPB_BytesPerSec >>> 2)))
    (h2 : t ≠ u64 (fsbi.FAT2_base_sector + c / (fsbi.bootsector.BPB_BytesPerSec >>> 2))) :
    (fat32_write_FAT_entry fsbi c v d).2.data (t * d.sector_bytes + j)
      = d.data (t * d.sector_bytes + j) := by
  rw [write_FAT_entry_data fsbi c v d h, if_neg (sector_disjoint _ _ _ _ hj h2),
    if_neg (sector_disjoint _ _ _ _ hj h1)]

theorem write_FAT_entry_done (fsbi : fat32_sb_info_t) (c v : Nat) (d : ahci_disk)
    (hdone : (fat32_write_FAT_entry fsbi c v d).1 = .ok 0) :
    fsbi.bootsector.BPB_BytesPerSec >>> 2 ≠ 0 := by
  intro h0
  simp [fat32_write_FAT_entry, h0] at hdone

/-- C3 as stated fails: on a device whose FAT1 and FAT2 differ in a sector the
write does not touch, `fat32_write_FAT_entry` completes and the two FAT
regions still differ. -/
theorem write_FAT_entry_mirror_counterexample :
    (fat32_write_FAT_entry fsbi_example 5 0x0fffffff disk_fat_differ).1 = .ok 0
    ∧ ¬ FAT_mirrored fsbi_example (fat32_write_FAT_entry fsbi_example 5 0x0fffffff disk_fat_differ).2 := by
  refine ⟨write_FAT_entry_fst _ _ _ _ (by decide), ?_⟩
  intro h
  have h1 := h 1 0 (by decide) (by decide)
  revert h1
  decide

/-- C3 (amended): once `fat32_write_FAT_entry (c, v)` has completed, the FAT1
sector that holds the entry of `c` and the FAT2 sector at the same position
are byte-identical; and if the two FAT regions were byte-identical before the
call, do not overlap, and the entry of `c` lies inside the FAT, the two FAT
regions are byte-identical after the call. -/
theorem write_FAT_entry_mirror (fsbi : fat32_sb_info_t) (d : ahci_disk) (c v : Nat)
    (hdone : (fat32_write_FAT_entry fsbi c v d).1 = .ok 0) :
    (∀ j, j < d.sector_bytes →
      sector_byte (fat32_write_FAT_entry fsbi c v d).2
          (u64 (fsbi.FAT1_base_sector + c / (fsbi.bootsector.BPB_BytesPerSec >>> 2))) j
        = sector_byte (fat32_write_FAT_entry fsbi c v d).2
          (u64 (fsbi.FAT2_base_sector + c / (fsbi.bootsector.BPB_BytesPerSec >>> 2))) j)
    ∧ (FAT_mirrored fsbi d →
        fsbi.FAT1_base_sector + fsbi.sec_per_FAT ≤ fsbi.FAT2_base_sector →
        fsbi.FAT2_base_sector + fsbi.sec_per_FAT ≤ 2 ^ 64 →
        c / (fsbi.bootsector.BPB_BytesPerSec >>> 2) < fsbi.sec_per_FAT →
        FAT_mirrored fsbi (fat32_write_FAT_entry fsbi c v d).2) := by
  have hne := write_FAT_entry_done fsbi c v d hdone
  constructor
  · intro j hj
    simp only [sector_byte, write_FAT_entry_sector_bytes]
    rw [(write_FAT_entry_sector fsbi c v d hne j hj).1, (write_FAT_entry_sector fsbi c v d hne j hj).2]
  · intro hm hlay hno hc s j hs hj
    rw [write_FAT_entry_sector_bytes] at hj
    simp only [sector_byte, write_FAT_entry_sector_bytes]
    generalize hqd : c / (fsbi.bootsector.BPB_BytesPerSec >>> 2) = q at hc
    have e1 : u64 (fsbi.FAT1_base_sector + q) = fsbi.FAT1_base_sector + q := by
      unfold u64; omega
    have e2 : u64 (fsbi.FAT2_base_sector + q) = fsbi.FAT2_base_sector + q := by
      unfold u64; omega
    by_cases hq : s = q
    · have w := write_FAT_entry_sector fsbi c v d hne j hj
      rw [hqd, e1, e2, ← hq] at w
      rw [w.1, w.2]
    · rw [write_FAT_entry_other fsbi c v d hne _ j hj (by rw [hqd, e1]; omega)
          (by rw [hqd, e2]; omega),
        write_FAT_entry_other fsbi c v d hne _ j hj (by rw [hqd, e1]; omega)
          (by rw [hqd, e2]; omega)]
      exact hm s j hs hj


theorem write_FAT_entry_mirror_witness :
    (fat32_write_FAT_entry fsbi_example 5 0x0fffffff disk_zero).1 = .ok 0
    ∧ FAT_mirrored fsbi_example disk_zero
    ∧ fsbi_example.FAT1_base_sector + fsbi_example.sec_per_FAT ≤ fsbi_example.FAT2_base_sector
    ∧ fsbi_example.FAT2_base_sector + fsbi_example.sec_per_FAT ≤ 2 ^ 64
    ∧ 5 / (fsbi_example.bootsector.BPB_BytesPerSec >>> 2) < fsbi_example.sec_per_FAT
    ∧ FAT_mirrored fsbi_example (fat32_write_FAT_entry fsbi_example 5 0x0fffffff disk_zero).2 := by
  have hd : (fat32_write_FAT_entry fsbi_example 5 0x0fffffff disk_zero).1 = .ok 0 :=
    write_FAT_entry_fst _ _ _ _ (by decide)
  have hm : FAT_mirrored fsbi_example disk_zero := by
    intro s j _ _
    simp only [sector_byte, disk_zero, zero_mem]
  exact ⟨hd, hm, by decide, by decide, by decide,
    (write_FAT_entry_mirror fsbi_example disk_zero 5 0x0fffffff hd).2 hm (by decide) (by decide)
      (by decide)⟩

/-! ## Mounting and the FAT -/

theorem read_superblock_bootsector (DPTE : MBR_disk_partition_table_entry_t) (DPT_type : Nat)
    (buf : Mem) (c p n : Nat) (d : ahci_disk) (sb : vfs_superblock_t)
    (h : (fat32_read_superblock DPTE DPT_type buf c p n d).1 = .ok (some sb)) :
    sb.private_sb_info.bootsector = zero_boot_sector
    ∧ sb.root.dir_inode.map (fun i => i.private_inode_info.dEntry_location_clus) = some 0 := by
  unfold fat32_read_superblock at h
  by_cases ht : DPT_type ≠ VFS_DPT_MBR
  · simp [ht] at h
  · simp only [ht, if_false] at h
    split at h
    · simp at h
    · simp only [Except.ok.injEq, Option.some.injEq] at h
      subst h
      exact ⟨rfl, rfl⟩

/-- C5: on the superblock that `fat32_read_superblock` builds from a boot
sector with 512 bytes per sector, `fat32_read_FAT_entry` does not compute 128
entries per sector: the copy of the boot sector it reads the sector size from
is never filled in by the mount, so the divisor is 0 and the call ends in a
divide error, whatever the cluster and the device. -/
theorem read_FAT_entry_after_mount :
    (boot_sector_of boot_example).BPB_BytesPerSec = 512
    ∧ ∃ sb, (fat32_read_superblock dpte_example VFS_DPT_MBR boot_example 0 0 0 disk_zero).1
          = .ok (some sb)
        ∧ sb.private_sb_info.bytes_per_sec = 512
        ∧ sb.private_sb_info.bootsector.BPB_BytesPerSec = 0
        ∧ ∀ (c : Nat) (d : ahci_disk),
            fat32_read_FAT_entry sb.private_sb_info c d = (.error .divide_error, d) := by
  refine ⟨by decide, ?_⟩
  have hb : (boot_sector_of boot_example).BPB_BytesPerSec ≠ 0 := by decide
  obtain ⟨sb, hsb, -, -, -, -, hbps⟩ := read_superblock_some dpte_example boot_example 0 0 0
    disk_zero hb
  have hz := (read_superblock_bootsector _ _ _ _ _ _ _ sb hsb).1
  refine ⟨sb, hsb, ?_, ?_, ?_⟩
  · rw [hbps]; decide
  · rw [hz]; rfl
  · intro c d
    simp [fat32_read_FAT_entry, hz, zero_boot_sector]


/-! ## Inode write-back -/

/-- C7: for an inode whose `dEntry_location_clus` is 0, `fat32_write_inode`
leaves the device as it is, its contents and the log of its transfers (no
read and no write is issued); the root inode of every superblock built by
`fat32_read_superblock` is such an inode. -/
theorem write_inode_root_refused :
    (∀ (inode : vfs_index_node_t) (d : ahci_disk),
      inode.private_inode_info.dEntry_location_clus = 0 → fat32_write_inode inode d = d)
    ∧ ∀ (DPTE : MBR_disk_partition_table_entry_t) (DPT_type : Nat) (buf : Mem) (c p n : Nat)
        (d0 : ahci_disk) (sb : vfs_superblock_t),
        (fat32_read_superblock DPTE DPT_type buf c p n d0).1 = .ok (some sb) →
        ∃ root_inode, sb.root.dir_inode = some root_inode
          ∧ root_inode.private_inode_info.dEntry_location_clus = 0
          ∧ ∀ d : ahci_disk, fat32_write_inode root_inode d = d := by
  have h1 : ∀ (inode : vfs_index_node_t) (d : ahci_disk),
      inode.private_inode_info.dEntry_location_clus = 0 → fat32_write_inode inode d = d := by
    intro inode d h
    simp only [fat32_write_inode, h, if_true]
  refine ⟨h1, ?_⟩
  intro DPTE DPT_type buf c p n d0 sb h
  have h2 := (read_superblock_bootsector DPTE DPT_type buf c p n d0 sb h).2
  cases hr : sb.root.dir_inode with
  | none => rw [hr] at h2; simp at h2
  | some i =>
    rw [hr] at h2
    simp only [Option.map_some', Option.some.injEq] at h2
    exact ⟨i, rfl, h2, fun d => h1 i d h2⟩

theorem write_inode_root_refused_witness :
    (∃ sb, (fat32_read_superblock dpte_example VFS_DPT_MBR boot_example 0 0 0 disk_zero).1
        = .ok (some sb)
      ∧ ∃ root_inode, sb.root.dir_inode = some root_inode
          ∧ root_inode.private_inode_info.dEntry_location_clus = 0
          ∧ ∀ d : ahci_disk, fat32_write_inode root_inode d = d)
    ∧ fat32_write_inode { inode_example with
          private_inode_info := { inode_example.private_inode_info with dEntry_location_clus := 0 } }
        disk_inode_example = disk_inode_example := by
  obtain ⟨sb, hsb, -⟩ := read_superblock_some dpte_example boot_example 0 0 0 disk_zero
    (by decide)
  exact ⟨⟨sb, hsb, write_inode_root_refused.2 _ _ _ _ _ _ _ sb hsb⟩,
    write_inode_root_refused.1 _ _ rfl⟩

theorem ahci_write_read_data (d : ahci_disk) (lba count : Nat) (buf : Mem) (i : Nat)
    (hi : i < count * d.sector_bytes) :
    (ahci_write d lba count buf).data (lba * d.sector_bytes + i) = buf i := by
  simp only [ahci_write]
  rw [if_pos (by omega)]
  congr 1; omega

theorem set_u16_other (m : Mem) (off v i : Nat) (h1 : i ≠ off) (h2 : i ≠ off + 1) :
    set_u16 m off v i = m i := by
  simp [set_u16, h1, h2]

theorem set_u32_other (m : Mem) (off v i : Nat) (h : i < off ∨ off + 4 ≤ i) :
    set_u32 m off v i = m i := by
  simp only [set_u32]
  rw [if_neg (by omega), if_neg (by omega), if_neg (by omega), if_neg (by omega)]

theorem get_u16_congr (m1 m2 : Mem) (off : Nat)
    (h : ∀ j, j < 2 → m1 (off + j) = m2 (off + j)) : get_u16 m1 off = get_u16 m2 off := by
  unfold get_u16
  rw [show m1 off = m2 off from h 0 (by omega), h 1 (by omega)]

theorem get_u16_set_u16 (m : Mem) (off v : Nat) : get_u16 (set_u16 m off v) off = v % 2 ^ 16 := by
  simp [get_u16, set_u16, u8]
  omega

theorem cluster_hi_low (a b : Nat) (ha : a < 2 ^ 12) : (a ||| (b &&& 0xf000)) % 2 ^ 12 = a := by
  have hH : (0xf000 : Nat) = (2 ^ 4 - 1) <<< 12 := by decide
  rw [hH]
  apply Nat.eq_of_testBit_eq
  intro i
  simp only [Nat.testBit_mod_two_pow, Nat.testBit_and, Nat.testBit_or, Nat.testBit_shiftLeft,
    Nat.testBit_two_pow_sub_one]
  by_cases h : i < 12
  · have h1 : ¬ 12 ≤ i := by omega
    simp [h, h1]
  · have h1 : 12 ≤ i := by omega
    have h2 : a.testBit i = false :=
      Nat.testBit_lt_two_pow (Nat.lt_of_lt_of_le ha (Nat.pow_le_pow_right (by decide) h1))
    simp [h, h2]

theorem cluster_hi_top (a b : Nat) (ha : a < 2 ^ 12) (hb : b < 2 ^ 16) :
    (a ||| (b &&& 0xf000)) / 2 ^ 12 = b / 2 ^ 12 := by
  have hH : (0xf000 : Nat) = (2 ^ 4 - 1) <<< 12 := by decide
  rw [hH, ← Nat.shiftRight_eq_div_pow, ← Nat.shiftRight_eq_div_pow]
  apply Nat.eq_of_testBit_eq
  intro i
  simp only [Nat.testBit_shiftRight, Nat.testBit_and, Nat.testBit_or, Nat.testBit_shiftLeft,
    Nat.testBit_two_pow_sub_one]
  have h2 : a.testBit (12 + i) = false :=
    Nat.testBit_lt_two_pow (Nat.lt_of_lt_of_le ha (Nat.pow_le_pow_right (by decide) (by omega)))
  by_cases h : i < 4
  · simp [h2, h]
  · have h3 : b.testBit (12 + i) = false :=
      Nat.testBit_lt_two_pow (Nat.lt_of_lt_of_le hb (Nat.pow_le_pow_right (by decide) (by omega)))
    simp [h2, h3]

theorem cluster_hi_lt (a b : Nat) (ha : a < 2 ^ 12) : (a ||| (b &&& 0xf000)) < 2 ^ 16 :=
  Nat.or_lt_two_pow (Nat.lt_of_lt_of_le ha (by decide)) (Nat.and_lt_two_pow b (by decide))


/-- The cluster of the directory entry after `fat32_write_inode`, byte by
byte, in terms of the buffer read by the call, and that buffer in terms of the
cluster before the call. -/
theorem write_inode_cluster (inode : vfs_index_node_t) (d : ahci_disk)
    (hc : 2 ≤ inode.private_inode_info.dEntry_location_clus)
    (hgeo : inode.sb.bytes_per_clus = inode.sb.sec_per_clus * d.sector_bytes)
    (i : Nat) (hi : i < inode.sb.bytes_per_clus) :
    cluster_bytes inode.sb (fat32_write_inode inode d) inode.private_inode_info.dEntry_location_clus i
      = set_u16
          (set_u16
            (set_u32
              (ahci_read d (dentry_cluster_LBA inode.sb inode.private_inode_info.dEntry_location_clus)
                inode.sb.sec_per_clus zero_mem).1
              (inode.private_inode_info.dEntry_location_clus_offset + 28) inode.file_size)
            (inode.private_inode_info.dEntry_location_clus_offset + 26)
            (inode.private_inode_info.first_clus &&& 0xffff))
          (inode.private_inode_info.dEntry_location_clus_offset + 20)
          ((inode.private_inode_info.first_clus >>> 16) |||
            (get_u16
              (set_u16
                (set_u32
                  (ahci_read d
                    (dentry_cluster_LBA inode.sb inode.private_inode_info.dEntry_location_clus)
                    inode.sb.sec_per_clus zero_mem).1
                  (inode.private_inode_info.dEntry_location_clus_offset + 28) inode.file_size)
                (inode.private_inode_info.dEntry_location_clus_offset + 26)
                (inode.private_inode_info.first_clus &&& 0xffff))
              (inode.private_inode_info.dEntry_location_clus_offset + 20) &&& 0xf000)) i
    ∧ (ahci_read d (dentry_cluster_LBA inode.sb inode.private_inode_info.dEntry_location_clus)
          inode.sb.sec_per_clus zero_mem).1 i
      = cluster_bytes inode.sb d inode.private_inode_info.dEntry_location_clus i := by
  have hne : inode.private_inode_info.dEntry_location_clus ≠ 0 := by omega
  rw [hgeo] at hi
  constructor
  · simp only [cluster_bytes, sector_byte, fat32_write_inode, if_neg hne]
    exact ahci_write_read_data _ _ _ _ _ hi
  · simp only [cluster_bytes, sector_byte, ahci_read]
    rw [if_pos hi]

/-- C8: for an inode with `dEntry_location_clus = c >= 2`, byte offset `o`
(`o + 32 <= bytes_per_clus`, the cluster size of the device) and first
cluster `f < 2^28`, after `fat32_write_inode` the cluster at LBA
`first_data_sector + (c - 2) * sec_per_clus` holds: at `o + 28` the little-endian 32-bit `file_size`
(`file_size` itself whenever it fits the field), at `o + 26` the 16-bit
`f & 0xFFFF`, at `o + 20` a 16-bit word whose low 12 bits are `f >> 16` and
whose top 4 bits are the previous ones; every other byte of the cluster is
unchanged. -/
theorem write_inode_entry (inode : vfs_index_node_t) (d : ahci_disk)
    (hc : 2 ≤ inode.private_inode_info.dEntry_location_clus)
    (ho : inode.private_inode_info.dEntry_location_clus_offset + 32 ≤ inode.sb.bytes_per_clus)
    (hf : inode.private_inode_info.first_clus < 2 ^ 28)
    (hgeo : inode.sb.bytes_per_clus = inode.sb.sec_per_clus * d.sector_bytes) :
    get_u32 (cluster_bytes inode.sb (fat32_write_inode inode d)
        inode.private_inode_info.dEntry_location_clus)
        (inode.private_inode_info.dEntry_location_clus_offset + 28) = inode.file_size % 2 ^ 32
    ∧ get_u16 (cluster_bytes inode.sb (fat32_write_inode inode d)
        inode.private_inode_info.dEntry_location_clus)
        (inode.private_inode_info.dEntry_location_clus_offset + 26)
      = inode.private_inode_info.first_clus &&& 0xffff
    ∧ get_u16 (cluster_bytes inode.sb (fat32_write_inode inode d)
        inode.private_inode_info.dEntry_location_clus)
        (inode.private_inode_info.dEntry_location_clus_offset + 20) % 2 ^ 12
      = inode.private_inode_info.first_clus >>> 16
    ∧ get_u16 (cluster_bytes inode.sb (fat32_write_inode inode d)
        inode.private_inode_info.dEntry_location_clus)
        (inode.private_inode_info.dEntry_location_clus_offset + 20) / 2 ^ 12
      = get_u16 (cluster_bytes inode.sb d inode.private_inode_info.dEntry_location_clus)
        (inode.private_inode_info.dEntry_location_clus_offset + 20) / 2 ^ 12
    ∧ ∀ i, i < inode.sb.bytes_per_clus →
        i ≠ inode.private_inode_info.dEntry_location_clus_offset + 20 →
        i ≠ inode.private_inode_info.dEntry_location_clus_offset + 21 →
        (i < inode.private_inode_info.dEntry_location_clus_offset + 26
          ∨ inode.private_inode_info.dEntry_location_clus_offset + 32 ≤ i) →
        cluster_bytes inode.sb (fat32_write_inode inode d)
            inode.private_inode_info.dEntry_location_clus i
          = cluster_bytes inode.sb d inode.private_inode_info.dEntry_location_clus i := by
  have key := write_inode_cluster inode d hc hgeo
  generalize cluster_bytes inode.sb (fat32_write_inode inode d)
    inode.private_inode_info.dEntry_location_clus = new at key ⊢
  generalize cluster_bytes inode.sb d inode.private_inode_info.dEntry_location_clus = old at key ⊢
  generalize (ahci_read d (dentry_cluster_LBA inode.sb inode.private_inode_info.dEntry_location_clus)
    inode.sb.sec_per_clus zero_mem).1 = r1 at key ⊢
  generalize inode.private_inode_info.dEntry_location_clus_offset = o at key ho ⊢
  generalize inode.private_inode_info.first_clus = f at key hf ⊢
  generalize inode.sb.bytes_per_clus = bpc at key ho ⊢
  have hsh : f >>> 16 < 2 ^ 12 := by
    rw [Nat.shiftRight_eq_div_pow]; omega
  have hold : get_u16 (set_u16 (set_u32 r1 (o + 28) inode.file_size) (o + 26) (f &&& 0xffff)) (o + 20)
      = get_u16 old (o + 20) := by
    apply get_u16_congr
    intro j hj
    rw [set_u16_other _ _ _ _ (by omega) (by omega), set_u32_other _ _ _ _ (by omega)]
    exact (key _ (by omega)).2
  have hhi : get_u16 new (o + 20) = (f >>> 16) ||| (get_u16 old (o + 20) &&& 0xf000) := by
    rw [← Nat.mod_eq_of_lt (cluster_hi_lt (f >>> 16) (get_u16 old (o + 20)) hsh), ← hold,
      ← get_u16_set_u16]
    apply get_u16_congr
    intro j hj
    exact (key _ (by omega)).1
  refine ⟨?_, ?_, ?_, ?_, ?_⟩
  · rw [← get_u32_set_u32 r1 (o + 28)]
    apply get_u32_congr
    intro j hj
    rw [(key _ (by omega)).1, set_u16_other _ _ _ _ (by omega) (by omega),
      set_u16_other _ _ _ _ (by omega) (by omega)]
  · rw [← Nat.mod_eq_of_lt (Nat.and_lt_two_pow f (show 0xffff < 2 ^ 16 by decide)),
      ← get_u16_set_u16 (set_u32 r1 (o + 28) inode.file_size) (o + 26)]
    apply get_u16_congr
    intro j hj
    rw [(key _ (by omega)).1, set_u16_other _ _ _ _ (by omega) (by omega)]
  · rw [hhi, cluster_hi_low _ _ hsh]
  · rw [hhi, cluster_hi_top _ _ hsh (get_u16_lt old (o + 20))]
  · intro i hi h20 h21 hrest
    rw [(key i hi).1, set_u16_other _ _ _ _ h20 h21, set_u16_other _ _ _ _ (by omega) (by omega),
      set_u32_other _ _ _ _ (by omega)]
    exact (key i hi).2


theorem write_inode_entry_witness :
    (2 ≤ inode_example.private_inode_info.dEntry_location_clus
      ∧ inode_example.private_inode_info.dEntry_location_clus_offset + 32
          ≤ inode_example.sb.bytes_per_clus
      ∧ inode_example.private_inode_info.first_clus < 2 ^ 28
      ∧ inode_example.sb.bytes_per_clus
          = inode_example.sb.sec_per_clus * disk_inode_example.sector_bytes)
    ∧ dentry_cluster_LBA fsbi_example 5 = 4080 + (5 - 2) * 8
    ∧ get_u32 (cluster_bytes fsbi_example disk_inode_example 5) (64 + 28) = 100
    ∧ get_u16 (cluster_bytes fsbi_example disk_inode_example 5) (64 + 26) = 10
    ∧ get_u32 (cluster_bytes fsbi_example (fat32_write_inode inode_example disk_inode_example) 5)
        (64 + 28) = 200
    ∧ get_u16 (cluster_bytes fsbi_example (fat32_write_inode inode_example disk_inode_example) 5)
        (64 + 26) = 11
    ∧ get_u16 (cluster_bytes fsbi_example (fat32_write_inode inode_example disk_inode_example) 5)
        (64 + 20) % 2 ^ 12 = 0
    ∧ get_u16 (cluster_bytes fsbi_example (fat32_write_inode inode_example disk_inode_example) 5)
        (64 + 20) / 2 ^ 12 = 3 := by
  have h := write_inode_entry inode_example disk_inode_example (by decide) (by decide) (by decide)
    (by decide)
  have hold : get_u16 (cluster_bytes fsbi_example disk_inode_example 5) (64 + 20) / 2 ^ 12 = 3 := by
    decide
  exact ⟨⟨by decide, by decide, by decide, by decide⟩, by decide, by decide, by decide, h.1, h.2.1,
    h.2.2.1,
    h.2.2.2.1.trans hold⟩


/-! ## Directory lookup -/

theorem read_FAT_entry_disk (fsbi : fat32_sb_info_t) (c : Nat) (d : ahci_disk) :
    (fat32_read_FAT_entry fsbi c d).2.data = d.data
    ∧ (fat32_read_FAT_entry fsbi c d).2.sector_bytes = d.sector_bytes := by
  unfold fat32_read_FAT_entry
  by_cases h : fsbi.bootsector.BPB_BytesPerSec >>> 2 = 0 <;> simp [h, ahci_read]

theorem dir_cluster_congr (fsbi : fat32_sb_info_t) (d1 d2 : ahci_disk) (c : Nat)
    (h1 : d1.data = d2.data) (h2 : d1.sector_bytes = d2.sector_bytes) :
    dir_cluster fsbi d1 c = dir_cluster fsbi d2 c := by
  simp only [dir_cluster, ahci_read, h1, h2]

theorem ahci_read_tail_zero (d : ahci_disk) (lba n : Nat) (buf : Mem)
    (h : ∀ i, n * d.sector_bytes ≤ i → buf i = 0) :
    (ahci_read d lba n buf).1 = (ahci_read d lba n zero_mem).1 := by
  funext i
  simp only [ahci_read]
  by_cases hi : i < n * d.sector_bytes
  · simp [hi]
  · simp only [hi, if_false, zero_mem]
    exact h i (by omega)

theorem lookup_entry_true (km : kernel_heap) (buf : Mem) (dest : vfs_dir_entry_t) (idx : Nat)
    (h : lookup_entry km buf dest idx = .ok true) :
    (buf (32 * idx + 11)).val ≠ ATTR_LONG_NAME
    ∧ (buf (32 * idx)).val ≠ 0xe5 ∧ (buf (32 * idx)).val ≠ 0x00 ∧ (buf (32 * idx)).val ≠ 0x05 := by
  unfold lookup_entry at h
  simp only at h
  by_cases h1 : (buf (32 * idx + 11)).val = ATTR_LONG_NAME
  · simp [h1] at h
  · rw [if_neg h1] at h
    by_cases h2 : (buf (32 * idx)).val = 0xe5 ∨ (buf (32 * idx)).val = 0x00
        ∨ (buf (32 * idx)).val = 0x05
    · simp [h2] at h
    · exact ⟨h1, fun e => h2 (Or.inl e), fun e => h2 (Or.inr (Or.inl e)),
        fun e => h2 (Or.inr (Or.inr e))⟩

/-- A hit of the scan of a cluster is the first entry, from `idx0` on, that
the loop body accepts. -/
theorem scan_cluster_hit (km : kernel_heap) (buf : Mem) (dest : vfs_dir_entry_t) (bpc : Nat) :
    ∀ (n idx0 idx : Nat), scan_cluster km buf dest bpc n idx0 = .ok (some idx) →
      lookup_entry km buf dest idx = .ok true ∧ idx0 ≤ idx ∧ 32 * idx < bpc
      ∧ ∀ j, idx0 ≤ j → j < idx → lookup_entry km buf dest j = .ok false := by
  intro n
  induction n with
  | zero => intro idx0 idx h; simp [scan_cluster] at h
  | succ n ih =>
    intro idx0 idx h
    unfold scan_cluster at h
    by_cases hb : 32 * idx0 < bpc
    · rw [if_pos hb] at h
      cases he : lookup_entry km buf dest idx0 with
      | error f => rw [he] at h; simp at h
      | ok b =>
        rw [he] at h
        cases b with
        | true =>
          simp only [Except.ok.injEq, Option.some.injEq] at h
          subst h
          exact ⟨he, Nat.le_refl _, hb, fun j h1 h2 => absurd h2 (by omega)⟩
        | false =>
          simp only at h
          obtain ⟨a1, a2, a3, a4⟩ := ih (idx0 + 1) idx h
          refine ⟨a1, by omega, a3, ?_⟩
          intro j h1 h2
          by_cases hj : j = idx0
          · rw [hj]; exact he
          · exact a4 j (by omega) h2
    · rw [if_neg hb] at h
      simp at h

theorem lookup_chain_hit (km : kernel_heap) (fsbi : fat32_sb_info_t) (dest : vfs_dir_entry_t) :
    ∀ (fuel cluster : Nat) (buf : Mem) (d : ahci_disk) (hit : lookup_hit) (d1 : ahci_disk),
      (∀ i, fsbi.sec_per_clus * d.sector_bytes ≤ i → buf i = 0) →
      lookup_chain km fsbi dest fuel cluster buf d = (.ok (some hit), d1) →
      hit.buf = dir_cluster fsbi d hit.cluster
      ∧ scan_cluster km hit.buf dest fsbi.bytes_per_clus ((fsbi.bytes_per_clus + 31) / 32) 0
          = .ok (some hit.index)
      ∧ d1.data = d.data ∧ d1.sector_bytes = d.sector_bytes := by
  intro fuel
  induction fuel with
  | zero => intro cluster buf d hit d1 _ h; simp [lookup_chain] at h
  | succ fuel ih =>
    intro cluster buf d hit d1 hz h
    unfold lookup_chain at h
    simp only at h
    have hbuf : (ahci_read d (cluster_LBA fsbi cluster) fsbi.sec_per_clus buf).1
        = dir_cluster fsbi d cluster := ahci_read_tail_zero d _ _ buf hz
    cases hs : scan_cluster km (ahci_read d (cluster_LBA fsbi cluster) fsbi.sec_per_clus buf).1 dest
        fsbi.bytes_per_clus ((fsbi.bytes_per_clus + 31) / 32) 0 with
    | error f => rw [hs] at h; simp at h
    | ok o =>
      rw [hs] at h
      cases o with
      | some idx =>
        simp only [Prod.mk.injEq, Except.ok.injEq, Option.some.injEq] at h
        obtain ⟨h1, h2⟩ := h
        subst h1
        subst h2
        exact ⟨hbuf, hs, rfl, rfl⟩
      | none =>
        simp only at h
        have hd := read_FAT_entry_disk fsbi cluster
          (ahci_read d (cluster_LBA fsbi cluster) fsbi.sec_per_clus buf).2
        cases hr : fat32_read_FAT_entry fsbi cluster
            (ahci_read d (cluster_LBA fsbi cluster) fsbi.sec_per_clus buf).2 with
        | mk res d2 =>
          rw [hr] at h hd
          cases res with
          | error f => simp at h
          | ok next =>
            simp only at h
            by_cases hn : next ≥ 0x0ffffff7
            · rw [if_pos hn] at h; simp at h
            · rw [if_neg hn] at h
              have hd1 : d2.data = d.data := hd.1
              have hd2 : d2.sector_bytes = d.sector_bytes := hd.2
              have hz2 : ∀ i, fsbi.sec_per_clus * d2.sector_bytes ≤ i →
                  (ahci_read d (cluster_LBA fsbi cluster) fsbi.sec_per_clus buf).1 i = 0 := by
                intro i hi
                rw [hd2] at hi
                simp only [ahci_read]
                rw [if_neg (by omega)]
                exact hz i hi
              obtain ⟨a1, a2, a3, a4⟩ := ih next _ d2 hit d1 hz2 h
              exact ⟨a1.trans (dir_cluster_congr fsbi d2 d _ hd1 hd2), a2, a3.trans hd1,
                a4.trans hd2⟩


/-- A successful `fat32_lookup` comes from a hit of the scan of the cluster
chain, and the inode bound to the target dentry is built from that hit. -/
theorem lookup_found (km : kernel_heap) (fuel : Nat) (parent : vfs_index_node_t)
    (dest : vfs_dir_entry_t) (d : ahci_disk) (dentry : vfs_dir_entry_t) (inode : vfs_index_node_t)
    (h : (fat32_lookup km fuel parent dest d).1 = .ok (some dentry))
    (hi : dentry.dir_inode = some inode) :
    ∃ hit d1, lookup_chain km parent.sb dest fuel (u32 parent.private_inode_info.first_clus)
          zero_mem d = (.ok (some hit), d1)
      ∧ lookup_inode parent.sb hit = .ok inode
      ∧ dentry = .mk dest.name dest.name_length (some inode) dest.parent := by
  unfold fat32_lookup at h
  simp only at h
  cases hc : lookup_chain km parent.sb dest fuel (u32 parent.private_inode_info.first_clus)
      zero_mem d with
  | mk res d1 =>
    rw [hc] at h
    cases res with
    | error f => simp at h
    | ok o =>
      cases o with
      | none => simp at h
      | some hit =>
        simp only at h
        cases hp : lookup_inode parent.sb hit with
        | error f => rw [hp] at h; simp at h
        | ok p =>
          rw [hp] at h
          simp only [Except.ok.injEq, Option.some.injEq] at h
          subst h
          simp only [vfs_dir_entry_t.dir_inode, Option.some.injEq] at hi
          subst hi
          exact ⟨hit, d1, rfl, hp, rfl⟩

theorem lookup_inode_location (fsbi : fat32_sb_info_t) (hit : lookup_hit) (inode : vfs_index_node_t)
    (h : lookup_inode fsbi hit = .ok inode) :
    inode.private_inode_info.dEntry_location_clus = hit.cluster
    ∧ inode.private_inode_info.dEntry_location_clus_offset = hit.index
    ∧ inode.sb = fsbi := by
  unfold lookup_inode at h
  simp only at h
  split at h
  · simp at h
  · simp only [Except.ok.injEq] at h
    subst h
    exact ⟨rfl, rfl, rfl⟩

/-- C9: the short entry that `fat32_lookup` accepts, entry number
`dEntry_location_clus_offset` of the cluster `dEntry_location_clus` as read
into the cluster buffer, has a first name byte different from 0x00, 0x05 and
0xE5 and an attribute byte different from 0x0F. -/
theorem lookup_accepted_entry (km : kernel_heap) (fuel : Nat) (parent : vfs_index_node_t)
    (dest : vfs_dir_entry_t) (d : ahci_disk) (dentry : vfs_dir_entry_t) (inode : vfs_index_node_t)
    (h : (fat32_lookup km fuel parent dest d).1 = .ok (some dentry))
    (hi : dentry.dir_inode = some inode) :
    (dir_cluster parent.sb d inode.private_inode_info.dEntry_location_clus
        (32 * inode.private_inode_info.dEntry_location_clus_offset)).val ≠ 0x00
    ∧ (dir_cluster parent.sb d inode.private_inode_info.dEntry_location_clus
        (32 * inode.private_inode_info.dEntry_location_clus_offset)).val ≠ 0x05
    ∧ (dir_cluster parent.sb d inode.private_inode_info.dEntry_location_clus
        (32 * inode.private_inode_info.dEntry_location_clus_offset)).val ≠ 0xe5
    ∧ (dir_cluster parent.sb d inode.private_inode_info.dEntry_location_clus
        (32 * inode.private_inode_info.dEntry_location_clus_offset + 11)).val ≠ 0x0f := by
  obtain ⟨hit, d1, hc, hp, -⟩ := lookup_found km fuel parent dest d dentry inode h hi
  obtain ⟨l1, l2, -⟩ := lookup_inode_location parent.sb hit inode hp
  obtain ⟨c1, c2, -, -⟩ := lookup_chain_hit km parent.sb dest fuel _ zero_mem d hit d1
    (fun _ _ => rfl) hc
  obtain ⟨s1, -, -, -⟩ := scan_cluster_hit km hit.buf dest _ _ 0 hit.index c2
  obtain ⟨e1, e2, e3, e4⟩ := lookup_entry_true km hit.buf dest hit.index s1
  rw [l1, l2, ← c1]
  exact ⟨e3, e4, e2, e1⟩


/-! ## The short-name comparison -/

theorem sfn_loop_succ (step : Byte → Nat → Option Nat) (buf : Mem) (e n x js : Nat) :
    sfn_loop step buf e (n + 1) x js
      = match step (buf (e + x)) js with
        | none => none
        | some js1 => sfn_loop step buf e n (x + 1) js1 := rfl

theorem sfn_loop_advance (step : Byte → Nat → Option Nat) (buf : Mem) (e : Nat) :
    ∀ (m x js k : Nat),
      (∀ y, y < m → step (buf (e + (x + y))) (js + y) = some (js + y + 1)) →
      sfn_loop step buf e (m + k) x js = sfn_loop step buf e k (x + m) (js + m) := by
  intro m
  induction m with
  | zero => intro x js k _; simp
  | succ m ih =>
    intro x js k h
    have h0 := h 0 (by omega)
    simp only [Nat.add_zero] at h0
    rw [show m + 1 + k = (m + k) + 1 by omega, sfn_loop_succ, h0]
    simp only
    rw [ih (x + 1) (js + 1) k]
    · rw [show x + 1 + m = x + (m + 1) by omega, show js + 1 + m = js + (m + 1) by omega]
    · intro y hy
      have := h (y + 1) (by omega)
      rw [show x + 1 + y = x + (y + 1) by omega, show js + 1 + y = js + (y + 1) by omega]
      exact this

theorem sfn_loop_stay (step : Byte → Nat → Option Nat) (buf : Mem) (e js : Nat) :
    ∀ (k x : Nat), (∀ y, y < k → step (buf (e + (x + y))) js = some js) →
      sfn_loop step buf e k x js = some js := by
  intro k
  induction k with
  | zero => intro x _; rfl
  | succ k ih =>
    intro x h
    have h0 := h 0 (by omega)
    simp only [Nat.add_zero] at h0
    rw [sfn_loop_succ, h0]
    simp only
    apply ih
    intro y hy
    have := h (y + 1) (by omega)
    rw [show x + 1 + y = x + (y + 1) by omega]
    exact this

theorem char_val_name_case (lower : Bool) (c : Byte) (hc : upper_or_digit c) :
    char_val (name_case lower c)
      = if lower = true ∧ is_letter c.val = true then (c.val : Int) + 32 else (c.val : Int) := by
  unfold name_case
  by_cases h : lower = true ∧ is_letter c.val = true
  · rw [if_pos h, if_pos h]
    have hl : 65 ≤ c.val ∧ c.val ≤ 90 := by
      have := h.2
      simp only [is_letter, Bool.or_eq_true, Bool.and_eq_true, decide_eq_true_eq] at this
      rcases hc with hc | hc <;> omega
    simp only [char_val, u8]
    have : (c.val + 32) % 256 = c.val + 32 := by omega
    simp only [this]
    rw [if_pos (by omega)]
    push_cast
    rfl
  · rw [if_neg h, if_neg h]
    simp only [char_val]
    rw [if_pos (by rcases hc with hc | hc <;> omega)]

theorem sfn_base_step_char (km : kernel_heap) (dest : vfs_dir_entry_t) (attr ntres : Nat) (c : Byte)
    (js : Nat) (hc : upper_or_digit c) (hjs : js < dest.name_length)
    (hn : name_byte km dest js = name_case (decide (ntres &&& LOWERCASE_BASE ≠ 0)) c) :
    sfn_base_step km dest attr ntres c js = some (js + 1) := by
  have hv := char_val_name_case (decide (ntres &&& LOWERCASE_BASE ≠ 0)) c hc
  rw [← hn] at hv
  unfold sfn_base_step
  have h32 : c.val ≠ 32 := by rcases hc with hc | hc <;> omega
  rw [if_neg h32]
  by_cases hl : is_letter c.val = true
  · rw [if_pos hl]
    by_cases hf : ntres &&& LOWERCASE_BASE ≠ 0
    · rw [if_pos hf, if_pos]
      refine ⟨hjs, ?_⟩
      rw [hv, if_pos ⟨by simpa using hf, hl⟩]
    · rw [if_neg hf, if_pos]
      refine ⟨hjs, ?_⟩
      rw [hv, if_neg (by simp [hf])]
  · rw [if_neg hl]
    have hd : is_digit c.val = true := by
      simp only [is_letter, Bool.or_eq_true, Bool.and_eq_true, decide_eq_true_eq] at hl
      simp only [is_digit, Bool.and_eq_true, decide_eq_true_eq]
      rcases hc with hc | hc <;> omega
    rw [if_pos hd, if_pos]
    refine ⟨hjs, ?_⟩
    rw [hv, if_neg (fun h => hl h.2)]

theorem sfn_base_step_pad (km : kernel_heap) (dest : vfs_dir_entry_t) (attr ntres : Nat) (c : Byte)
    (js : Nat) (hc : c.val = 32)
    (hfile : attr &&& ATTR_DIRECTORY = 0 → char_val (name_byte km dest js) = 46)
    (hdir : attr &&& ATTR_DIRECTORY ≠ 0 → js = dest.name_length) :
    sfn_base_step km dest attr ntres c js = some js := by
  unfold sfn_base_step
  rw [if_pos hc]
  by_cases ha : attr &&& ATTR_DIRECTORY = 0
  · rw [if_pos ha, if_pos (hfile ha)]
  · rw [if_neg ha, if_neg (by have := hdir ha; omega), if_pos (hdir ha)]

theorem sfn_ext_step_char (km : kernel_heap) (dest : vfs_dir_entry_t) (ntres : Nat) (c : Byte)
    (js : Nat) (hc : upper_or_digit c)
    (hn : name_byte km dest js = name_case (decide (ntres &&& LOWERCASE_EXT ≠ 0)) c) :
    sfn_ext_step km dest ntres c js = some (js + 1) := by
  have hv := char_val_name_case (decide (ntres &&& LOWERCASE_EXT ≠ 0)) c hc
  rw [← hn] at hv
  unfold sfn_ext_step
  by_cases hl : is_letter c.val = true
  · rw [if_pos hl]
    by_cases hf : ntres &&& LOWERCASE_EXT ≠ 0
    · rw [if_pos hf, if_pos]
      rw [hv, if_pos ⟨by simpa using hf, hl⟩]
    · rw [if_neg hf, if_pos]
      rw [hv, if_neg (by simp [hf])]
  · rw [if_neg hl]
    have hd : is_digit c.val = true := by
      simp only [is_letter, Bool.or_eq_true, Bool.and_eq_true, decide_eq_true_eq] at hl
      simp only [is_digit, Bool.and_eq_true, decide_eq_true_eq]
      rcases hc with hc | hc <;> omega
    rw [if_pos (Or.inl hd), if_pos]
    rw [hv, if_neg (fun h => hl h.2)]


theorem name_byte_target (km : kernel_heap) (target tail : List Byte)
    (ino : Option vfs_index_node_t) (par : Option vfs_dir_entry_t) (js : Nat)
    (h : js < target.length) :
    name_byte km (vfs_dir_entry_t.mk (target ++ tail) target.length ino par) js
      = target.getD js 0 := by
  simp only [name_byte, vfs_dir_entry_t.name, List.getD_eq_getElem?_getD]
  rw [List.getElem?_append_left h, List.getElem?_eq_getElem h]
  simp

theorem sfn_target_base (is_dir : Bool) (ntres : Nat) (base ext : List Byte) (x : Nat)
    (h : x < base.length) :
    (sfn_target is_dir ntres base ext).getD x 0
      = name_case (decide (ntres &&& LOWERCASE_BASE ≠ 0)) (base.getD x 32) := by
  simp only [sfn_target, List.getD_eq_getElem?_getD]
  rw [List.getElem?_append_left (by simpa using h)]
  simp [h]

theorem sfn_target_dot (ntres : Nat) (base ext : List Byte) :
    (sfn_target false ntres base ext).getD base.length 0 = 46 := by
  simp only [sfn_target, List.getD_eq_getElem?_getD]
  rw [List.getElem?_append_right (by simp)]
  simp

theorem sfn_target_ext (ntres : Nat) (base ext : List Byte) (y : Nat) (h : y < ext.length) :
    (sfn_target false ntres base ext).getD (base.length + 1 + y) 0
      = name_case (decide (ntres &&& LOWERCASE_EXT ≠ 0)) (ext.getD y 32) := by
  simp only [sfn_target, List.getD_eq_getElem?_getD]
  rw [List.getElem?_append_right (by simp; omega)]
  simp only [List.length_map, Bool.false_eq_true, if_false]
  rw [show base.length + 1 + y - base.length = y + 1 by omega]
  simp [h]

theorem sfn_target_length (is_dir : Bool) (ntres : Nat) (base ext : List Byte) :
    (sfn_target is_dir ntres base ext).length
      = base.length + (if is_dir = true then 0 else 1 + ext.length) := by
  cases is_dir
  · simp [sfn_target]; omega
  · simp [sfn_target]

theorem getD_mem_pred (p : Byte → Prop) (l : List Byte) (x : Nat) (d : Byte) (h : x < l.length)
    (hp : ∀ c ∈ l, p c) : p (l.getD x d) := by
  rw [List.getD_eq_getElem _ _ h]
  exact hp _ (List.getElem_mem h)


/-- C10: a short entry that is not preceded by a long-name record, whose base
is 1 to 8 uppercase letters or digits padded with spaces, and which is a
directory or a file with an extension of exactly 3 uppercase letters or
digits, is accepted by the loop body of `fat32_lookup` for the target made of
the base (and, for a file, a dot and the extension) with the letters of the
base lowercased iff `LOWERCASE_BASE` is set in `DIR_NTRes` and those of the
extension iff `LOWERCASE_EXT` is set. -/
theorem sfn_match_accepts (km : kernel_heap) (buf : Mem) (idx : Nat) (base ext tail : List Byte)
    (ino : Option vfs_index_node_t) (par : Option vfs_dir_entry_t)
    (hlen : 1 ≤ base.length ∧ base.length ≤ 8)
    (hbase : ∀ c ∈ base, upper_or_digit c)
    (hname : ∀ x, x < 8 → buf (32 * idx + x) = base.getD x 32)
    (hattr : (buf (32 * idx + 11)).val ≠ ATTR_LONG_NAME)
    (hprev : (dir_byte km buf ((32 * idx : Nat) - 32 + 11)).val ≠ ATTR_LONG_NAME)
    (hkind : (buf (32 * idx + 11)).val &&& ATTR_DIRECTORY ≠ 0
      ∨ (ext.length = 3 ∧ (∀ c ∈ ext, upper_or_digit c)
          ∧ ∀ x, x < 3 → buf (32 * idx + (8 + x)) = ext.getD x 32)) :
    lookup_entry km buf
      (vfs_dir_entry_t.mk
        (sfn_target (decide ((buf (32 * idx + 11)).val &&& ATTR_DIRECTORY ≠ 0))
          (buf (32 * idx + 12)).val base ext ++ tail)
        (sfn_target (decide ((buf (32 * idx + 11)).val &&& ATTR_DIRECTORY ≠ 0))
          (buf (32 * idx + 12)).val base ext).length ino par) idx = .ok true := by
  generalize hT : sfn_target (decide ((buf (32 * idx + 11)).val &&& ATTR_DIRECTORY ≠ 0))
    (buf (32 * idx + 12)).val base ext = target
  generalize hD : vfs_dir_entry_t.mk (target ++ tail) target.length ino par = dest
  have hnl : dest.name_length = target.length := by rw [← hD]; rfl
  have hNb : ∀ js, js < target.length → name_byte km dest js = target.getD js 0 := by
    intro js hjs; rw [← hD]; exact name_byte_target km target tail ino par js hjs
  have hTl := sfn_target_length (decide ((buf (32 * idx + 11)).val &&& ATTR_DIRECTORY ≠ 0))
    (buf (32 * idx + 12)).val base ext
  rw [hT] at hTl
  have hfirst : upper_or_digit (buf (32 * idx)) := by
    have := hname 0 (by omega)
    rw [Nat.add_zero] at this
    rw [this]
    exact getD_mem_pred _ base 0 32 (by omega) hbase
  -- the long-name loop ends at once
  have hlfn : lfn_walk km buf dest (dest.name_length + 1) (((32 * idx : Nat) : Int) - 32) 0
      = .ok .short_name := by
    unfold lfn_walk
    rw [if_neg (fun h => hprev h.1)]
  -- the base name
  have hchars : ∀ y, y < base.length →
      sfn_base_step km dest (buf (32 * idx + 11)).val (buf (32 * idx + 12)).val
        (buf (32 * idx + (0 + y))) (0 + y) = some (0 + y + 1) := by
    intro y hy
    rw [Nat.zero_add]
    apply sfn_base_step_char
    · rw [hname y (by omega)]
      exact getD_mem_pred _ base y 32 hy hbase
    · rw [hnl, hTl]; omega
    · rw [hNb y (by rw [hTl]; omega), ← hT, sfn_target_base _ _ _ _ _ hy, hname y (by omega)]
  have hpad : ∀ y, y < 8 - base.length →
      sfn_base_step km dest (buf (32 * idx + 11)).val (buf (32 * idx + 12)).val
        (buf (32 * idx + (0 + base.length + y))) (0 + base.length) = some (0 + base.length) := by
    intro y hy
    rw [Nat.zero_add]
    apply sfn_base_step_pad
    · rw [hname _ (by omega), List.getD_eq_default _ _ (by omega)]
      rfl
    · intro ha
      have hd : decide ((buf (32 * idx + 11)).val &&& ATTR_DIRECTORY ≠ 0) = false := by
        simp [ha]
      rw [hd] at hT hTl
      rw [hNb _ (by rw [hTl]; simp), ← hT, sfn_target_dot]
      rfl
    · intro ha
      have hd : decide ((buf (32 * idx + 11)).val &&& ATTR_DIRECTORY ≠ 0) = true := by
        simp [ha]
      rw [hd] at hTl
      rw [hnl, hTl]; simp
  have hbase8 : sfn_loop (sfn_base_step km dest (buf (32 * idx + 11)).val (buf (32 * idx + 12)).val)
      buf (32 * idx) 8 0 0 = some base.length := by
    rw [show 8 = base.length + (8 - base.length) by omega,
      sfn_loop_advance _ buf (32 * idx) base.length 0 0 (8 - base.length) hchars,
      sfn_loop_stay _ buf (32 * idx) (0 + base.length) (8 - base.length) (0 + base.length) hpad]
    simp
  have hsfn : sfn_match km buf dest (32 * idx) = true := by
    unfold sfn_match
    simp only [hbase8]
    by_cases ha : (buf (32 * idx + 11)).val &&& ATTR_DIRECTORY = 0
    · rw [if_pos ha]
      have hd : decide ((buf (32 * idx + 11)).val &&& ATTR_DIRECTORY ≠ 0) = false := by
        simp [ha]
      rw [hd] at hT hTl
      rcases hkind with hk | ⟨he1, he2, he3⟩
      · exact absurd ha hk
      · have hext : ∀ y, y < 3 →
            sfn_ext_step km dest (buf (32 * idx + 12)).val (buf (32 * idx + (8 + y)))
              (base.length + 1 + y) = some (base.length + 1 + y + 1) := by
          intro y hy
          apply sfn_ext_step_char
          · rw [he3 y hy]
            exact getD_mem_pred _ ext y 32 (by omega) he2
          · rw [hNb _ (by rw [hTl]; simp; omega), ← hT, sfn_target_ext _ _ _ _ (by omega),
              he3 y hy]
        have := sfn_loop_advance (sfn_ext_step km dest (buf (32 * idx + 12)).val) buf (32 * idx)
          3 8 (base.length + 1) 0 hext
        simp only [Nat.add_zero] at this
        rw [this]
        rfl
    · rw [if_neg ha]
  unfold lookup_entry
  simp only
  rw [if_neg hattr, if_neg, hlfn]
  · simp only [hsfn]
  · rcases hfirst with h | h <;> omega


set_option maxRecDepth 4000 in
theorem sfn_match_accepts_witness :
    lookup_entry heap_zero buf_readme
        (vfs_dir_entry_t.mk (name_readme_txt ++ [0]) name_readme_txt.length none none) 0 = .ok true
    ∧ lookup_entry heap_zero buf_dir
        (vfs_dir_entry_t.mk ([68, 73, 82] ++ [0]) [(68 : Byte), 73, 82].length none none) 0
        = .ok true := by
  have h1 := sfn_match_accepts heap_zero buf_readme 0 [82, 69, 65, 68, 77, 69] [84, 88, 84] [0]
    none none (by decide) (by decide) (by decide) (by decide) (by decide)
    (Or.inr ⟨by decide, by decide, by decide⟩)
  have h2 := sfn_match_accepts heap_zero buf_dir 0 [68, 73, 82] [] [0]
    none none (by decide) (by decide) (by decide) (by decide) (by decide)
    (Or.inl (by decide))
  have e1 : sfn_target (decide ((buf_readme (32 * 0 + 11)).val &&& ATTR_DIRECTORY ≠ 0))
      (buf_readme (32 * 0 + 12)).val [82, 69, 65, 68, 77, 69] [84, 88, 84] = name_readme_txt := by
    decide
  have e2 : sfn_target (decide ((buf_dir (32 * 0 + 11)).val &&& ATTR_DIRECTORY ≠ 0))
      (buf_dir (32 * 0 + 12)).val [68, 73, 82] [] = [68, 73, 82] := by
    decide
  rw [e1] at h1
  rw [e2] at h2
  exact ⟨h1, h2⟩

theorem lookup_accepted_entry_witness :
    ∃ dentry inode,
      (fat32_lookup heap_zero 4 root_inode_example (target_dentry name_hello_txt)
          disk_dir_example).1 = .ok (some dentry)
      ∧ dentry.dir_inode = some inode
      ∧ inode.private_inode_info.dEntry_location_clus = 2
      ∧ inode.private_inode_info.dEntry_location_clus_offset = 1
      ∧ (dir_cluster fsbi_example disk_dir_example 2 (32 * 1)).val = 72
      ∧ (dir_cluster root_inode_example.sb disk_dir_example
          inode.private_inode_info.dEntry_location_clus
          (32 * inode.private_inode_info.dEntry_location_clus_offset)).val ≠ 0xe5
      ∧ (dir_cluster root_inode_example.sb disk_dir_example
          inode.private_inode_info.dEntry_location_clus
          (32 * inode.private_inode_info.dEntry_location_clus_offset + 11)).val ≠ 0x0f := by
  have hf : lookup_inode_fields
      (fat32_lookup heap_zero 4 root_inode_example (target_dentry name_hello_txt)
        disk_dir_example).1 = .ok (some (42, 10, 2, 1)) := by decide
  cases hr : (fat32_lookup heap_zero 4 root_inode_example (target_dentry name_hello_txt)
      disk_dir_example).1 with
  | error f => rw [hr] at hf; simp [lookup_inode_fields] at hf
  | ok o =>
    cases o with
    | none => rw [hr] at hf; simp [lookup_inode_fields] at hf
    | some dentry =>
      rw [hr] at hf
      cases hi : dentry.dir_inode with
      | none => simp [lookup_inode_fields, hi] at hf
      | some inode =>
        simp only [lookup_inode_fields, hi, Option.map_some', Except.ok.injEq, Option.some.injEq,
          Prod.mk.injEq] at hf
        have h := lookup_accepted_entry heap_zero 4 root_inode_example
          (target_dentry name_hello_txt) disk_dir_example dentry inode hr hi
        exact ⟨dentry, inode, rfl, hi, hf.2.2.1, hf.2.2.2, by decide, h.2.2.1, h.2.2.2⟩

/-- C4 fails on the code: the short entry `HELLO   TXT` is entry 1 of the root
directory (byte offset 32 of cluster 2).  `fat32_lookup` of `hello.txt` finds
it (size 42, first cluster 10) and records the entry number 1 as the offset
of the dentry; after the size is set to 200 and the first cluster to 11,
`fat32_write_inode` uses that number as a byte offset, and the fresh
`fat32_lookup` of `hello.txt` returns `NULL`.  When the entry is entry 0 of the
cluster, the fresh look-up returns the written size and first cluster. -/
theorem write_inode_then_lookup_misses :
    lookup_inode_fields
        (fat32_lookup heap_zero 4 root_inode_example (target_dentry name_hello_txt)
          disk_dir_example).1 = .ok (some (42, 10, 2, 1))
    ∧ write_inode_round_trip heap_zero 4 root_inode_example name_hello_txt 200 11 disk_dir_example
        = .ok none
    ∧ write_inode_round_trip heap_zero 4 root_inode_example name_hello_txt 200 11 disk_dir_first
        = .ok (some (200, 11, 2, 0)) := by
  refine ⟨by decide, by decide, by decide⟩


/-! ## Path walk -/

theorem path_components_cons_slash (c : Byte) (cs : List Byte) (h : c.val = 47) :
    path_components (c :: cs) = path_components cs := by
  have hc : c = 47 := Fin.ext h
  subst hc
  simp [path_components, List.splitOn, List.splitOnP_cons]

theorem path_components_skip (p : List Byte) :
    path_components (skip_slashes p) = path_components p := by
  induction p with
  | nil => rfl
  | cons c cs ih =>
    unfold skip_slashes
    by_cases h : c.val = 47
    · rw [if_pos h, ih, path_components_cons_slash c cs h]
    · rw [if_neg h]

theorem skip_slashes_head (p : List Byte) :
    ∀ c cs, skip_slashes p = c :: cs → c.val ≠ 47 := by
  induction p with
  | nil => intro c cs h; simp [skip_slashes] at h
  | cons x xs ih =>
    intro c cs h
    unfold skip_slashes at h
    by_cases hx : x.val = 47
    · rw [if_pos hx] at h; exact ih c cs h
    · rw [if_neg hx] at h
      simp only [List.cons.injEq] at h
      rw [← h.1]; exact hx

theorem skip_slashes_length (p : List Byte) : (skip_slashes p).length ≤ p.length := by
  induction p with
  | nil => simp [skip_slashes]
  | cons x xs ih =>
    unfold skip_slashes
    by_cases hx : x.val = 47
    · rw [if_pos hx]; simp only [List.length_cons]; omega
    · rw [if_neg hx]

theorem skip_slashes_mem (p : List Byte) : ∀ b ∈ skip_slashes p, b ∈ p := by
  induction p with
  | nil => intro b hb; simp [skip_slashes] at hb
  | cons x xs ih =>
    intro b hb
    unfold skip_slashes at hb
    by_cases hx : x.val = 47
    · rw [if_pos hx] at hb; exact List.mem_cons_of_mem _ (ih b hb)
    · rw [if_neg hx] at hb; exact hb

/-- The first run of a path without NUL: `take_name` returns it and what
follows it, and the split of the path at the slashes starts with it. -/
theorem split_take_name (p : List Byte) (hp : ∀ b ∈ p, b.val ≠ 0) :
    ∃ t, p.splitOn (47 : Byte) = (take_name p).1 :: t
      ∧ t.filter (fun c => !c.isEmpty) = path_components (take_name p).2
      ∧ (take_name p).2.length + (take_name p).1.length = p.length
      ∧ ∀ b ∈ (take_name p).2, b ∈ p := by
  induction p with
  | nil => exact ⟨[], by simp [take_name, List.splitOn], by simp [take_name, path_components, List.splitOn], by simp [take_name], by simp [take_name]⟩
  | cons x xs ih =>
    have hx0 : x.val ≠ 0 := hp x (List.mem_cons_self _ _)
    obtain ⟨t, h1, h2, h3, h4⟩ := ih (fun b hb => hp b (List.mem_cons_of_mem _ hb))
    by_cases hx : x.val = 47
    · have hc : x = 47 := Fin.ext hx
      have htn : take_name (x :: xs) = ([], x :: xs) := by
        unfold take_name
        rw [if_neg (fun h => h.2 hx)]
      refine ⟨xs.splitOn (47 : Byte), ?_, ?_, ?_, ?_⟩
      · rw [htn, hc]
        simp [List.splitOn, List.splitOnP_cons]
      · rw [htn, path_components_cons_slash x xs hx]
        rfl
      · rw [htn]; simp
      · rw [htn]; intro b hb; exact hb
    · have htn : take_name (x :: xs) = (x :: (take_name xs).1, (take_name xs).2) := by
        conv_lhs => unfold take_name
        rw [if_pos ⟨hx0, hx⟩]
      have hne : ¬ ((x == (47 : Byte)) = true) := by
        intro h
        have := eq_of_beq h
        exact hx (by rw [this]; rfl)
      refine ⟨t, ?_, ?_, ?_, ?_⟩
      · rw [htn]
        have : (x :: xs).splitOn (47 : Byte)
            = List.modifyHead (List.cons x) (xs.splitOn (47 : Byte)) := by
          simp only [List.splitOn, List.splitOnP_cons]
          rw [if_neg hne]
        rw [this, h1]
        rfl
      · rw [htn]; exact h2
      · rw [htn]; simp only [List.length_cons]; omega
      · rw [htn]; intro b hb; exact List.mem_cons_of_mem _ (h4 b hb)


theorem at_end_iff (p : List Byte) (hp : ∀ b ∈ p, b.val ≠ 0) : at_end p = true ↔ p = [] := by
  cases p with
  | nil => simp [at_end]
  | cons y ys =>
    have := hp y (List.mem_cons_self _ _)
    simp [at_end, this]

theorem path_components_take_name (x : Byte) (xs : List Byte) (hp : ∀ b ∈ x :: xs, b.val ≠ 0)
    (hx : x.val ≠ 47) :
    (take_name (x :: xs)).1 ≠ []
    ∧ path_components (x :: xs)
      = (take_name (x :: xs)).1 :: path_components (take_name (x :: xs)).2 := by
  obtain ⟨t, h1, h2, -, -⟩ := split_take_name (x :: xs) hp
  have htn : take_name (x :: xs) = (x :: (take_name xs).1, (take_name xs).2) := by
    conv_lhs => unfold take_name
    rw [if_pos ⟨hp x (List.mem_cons_self _ _), hx⟩]
  constructor
  · rw [htn]; simp
  · unfold path_components
    rw [h1, ← path_components, ← h2, htn]
    simp

theorem path_walk_loop_eq_ref {σ : Type}
    (lookup : vfs_index_node_t → vfs_dir_entry_t → σ → Except Fault (Option vfs_dir_entry_t) × σ)
    (flags : Nat) :
    ∀ (fuel : Nat) (parent : vfs_dir_entry_t) (x : Byte) (xs : List Byte) (s : σ),
      (∀ b ∈ x :: xs, b.val ≠ 0) → x.val ≠ 47 → (x :: xs).length < fuel →
      ∃ c cs, path_components (x :: xs) = c :: cs
        ∧ path_walk_loop lookup flags fuel parent (x :: xs) s
          = path_walk_ref_from lookup flags parent c cs s := by
  intro fuel
  induction fuel with
  | zero => intro parent x xs s _ _ h; simp at h
  | succ fuel ih =>
    intro parent x xs s hp hx hlen
    obtain ⟨hne, hpc⟩ := path_components_take_name x xs hp hx
    obtain ⟨t, -, -, h3, h4⟩ := split_take_name (x :: xs) hp
    refine ⟨(take_name (x :: xs)).1, path_components (take_name (x :: xs)).2, hpc, ?_⟩
    have hrest : ∀ b ∈ skip_slashes (take_name (x :: xs)).2, b.val ≠ 0 :=
      fun b hb => hp b (h4 b (skip_slashes_mem _ b hb))
    have hrl : (skip_slashes (take_name (x :: xs)).2).length < fuel := by
      have h5 := skip_slashes_length (take_name (x :: xs)).2
      have h6 : 0 < (take_name (x :: xs)).1.length := List.length_pos.mpr hne
      omega
    have hcomp := path_components_skip (take_name (x :: xs)).2
    unfold path_walk_loop
    simp only
    cases hpi : parent.dir_inode with
    | none =>
      cases hcs : path_components (take_name (x :: xs)).2 <;>
        simp [path_walk_ref_from, lookup_component, hpi]
    | some pin =>
      simp only
      cases hl : lookup pin (vfs_dir_entry_t.mk ((take_name (x :: xs)).1 ++ [0])
          (take_name (x :: xs)).1.length none none) s with
      | mk res s1 =>
        cases res with
        | error f =>
          cases hcs : path_components (take_name (x :: xs)).2 <;>
            simp [path_walk_ref_from, lookup_component, hpi, hl]
        | ok o =>
          cases o with
          | none =>
            cases hcs : path_components (take_name (x :: xs)).2 <;>
              simp [path_walk_ref_from, lookup_component, hpi, hl]
          | some found =>
            simp only
            cases hsk : skip_slashes (take_name (x :: xs)).2 with
            | nil =>
              rw [hsk] at hcomp
              have hcs : path_components (take_name (x :: xs)).2 = [] := by
                rw [← hcomp]; rfl
              rw [hcs]
              have he : at_end ([] : List Byte) = true := by simp [at_end]
              simp only [he, if_true, path_walk_ref_from, lookup_component, hpi, hl,
                Nat.and_one_is_mod]
              by_cases hf : flags % 2 = 1
              · simp [hf]
              · have : flags % 2 = 0 := by omega
                simp [this]
            | cons y ys =>
              rw [hsk] at hrest hrl hcomp
              have hy : y.val ≠ 47 := skip_slashes_head _ y ys hsk
              have he : at_end (y :: ys) = false := by
                have := hrest y (List.mem_cons_self _ _)
                simp [at_end, this]
              obtain ⟨c, cs, hc1, hc2⟩ := ih
                (vfs_dir_entry_t.mk found.name found.name_length found.dir_inode (some parent))
                y ys s1 hrest hy hrl
              rw [← hcomp, hc1]
              simp only [he, Bool.false_eq_true, if_false, path_walk_ref_from, lookup_component,
                hpi, hl]
              exact hc2

/-- C6: for every path (the characters of a C string, none of them NUL) and
every flags value, `fat32_path_walk` equals the reference walk of the
specification over the non-empty runs of characters other than `'/'`. -/
theorem path_walk_eq_ref {σ : Type} (root : vfs_dir_entry_t)
    (lookup : vfs_index_node_t → vfs_dir_entry_t → σ → Except Fault (Option vfs_dir_entry_t) × σ)
    (path : List Byte) (flags : Nat) (s : σ) (hp : ∀ b ∈ path, b.val ≠ 0) :
    fat32_path_walk root lookup path flags s = path_walk_ref root lookup path flags s := by
  have hcomp := path_components_skip path
  have h0 : ∀ b ∈ skip_slashes path, b.val ≠ 0 := fun b hb => hp b (skip_slashes_mem _ b hb)
  unfold fat32_path_walk path_walk_ref
  simp only
  cases hsk : skip_slashes path with
  | nil =>
    rw [hsk] at hcomp
    have hcs : path_components path = [] := by rw [← hcomp]; rfl
    have he : at_end ([] : List Byte) = true := by simp [at_end]
    simp [hcs, he]
  | cons y ys =>
    rw [hsk] at h0 hcomp
    have hy : y.val ≠ 47 := skip_slashes_head _ y ys hsk
    have he : at_end (y :: ys) = false := by
      have := h0 y (List.mem_cons_self _ _)
      simp [at_end, this]
    obtain ⟨c, cs, hc1, hc2⟩ := path_walk_loop_eq_ref lookup flags ((y :: ys).length + 1) root
      y ys s h0 hy (by omega)
    rw [← hcomp, hc1]
    simp only [he, Bool.false_eq_true, if_false]
    exact hc2


set_option maxRecDepth 4000 in
theorem path_walk_eq_ref_witness :
    (∀ b ∈ path_example, b.val ≠ 0)
    ∧ fat32_path_walk root_dentry_example (fat32_lookup heap_zero 4) path_example 0 disk_dir_example
      = path_walk_ref root_dentry_example (fat32_lookup heap_zero 4) path_example 0 disk_dir_example
    ∧ lookup_inode_fields
        (fat32_path_walk root_dentry_example (fat32_lookup heap_zero 4) path_example 0
          disk_dir_example).1 = .ok (some (42, 10, 2, 1))
    ∧ lookup_inode_fields
        (fat32_path_walk root_dentry_example (fat32_lookup heap_zero 4) path_example 1
          disk_dir_example).1 = .ok (some (0, 2, 0, 0)) := by
  have hp : ∀ b ∈ path_example, b.val ≠ 0 := by decide
  exact ⟨hp, path_walk_eq_ref root_dentry_example (fat32_lookup heap_zero 4) path_example 0
    disk_dir_example hp, by decide, by decide⟩


/-! ## FAT entries: the word read and the frame of a write -/

theorem get_u32_shift (m1 m2 : Mem) (o1 o2 : Nat)
    (h : ∀ j, j < 4 → m1 (o1 + j) = m2 (o2 + j)) : get_u32 m1 o1 = get_u32 m2 o2 := by
  unfold get_u32
  rw [show m1 o1 = m2 o2 from h 0 (by omega), h 1 (by omega), h 2 (by omega), h 3 (by omega)]

theorem FAT1_word_eq_region (fsbi : fat32_sb_info_t) (c : Nat) (d : ahci_disk) (k : Nat)
    (hk : 2 ≤ k) (hbps : fsbi.bootsector.BPB_BytesPerSec = 2 ^ k)
    (hsec : d.sector_bytes = fsbi.bootsector.BPB_BytesPerSec)
    (hlba : fsbi.FAT1_base_sector + c / (fsbi.bootsector.BPB_BytesPerSec / 4) < 2 ^ 64) :
    FAT1_word fsbi d c = FAT1_region_word fsbi d c := by
  obtain ⟨_, e2, e3, e4⟩ := pow_two_entries k hk
  have hu : u64 (fsbi.FAT1_base_sector + c / (fsbi.bootsector.BPB_BytesPerSec / 4))
      = fsbi.FAT1_base_sector + c / (fsbi.bootsector.BPB_BytesPerSec / 4) := Nat.mod_eq_of_lt hlba
  unfold FAT1_word FAT1_region_word
  rw [hu, hsec, hbps, e2]
  apply get_u32_shift
  intro j _
  simp only [sector_byte]
  rw [hsec, hbps]
  congr 1
  have hdm := Nat.div_add_mod c (2 ^ (k - 2))
  rw [e3, Nat.add_mul]
  have h1 : c / 2 ^ (k - 2) * (4 * 2 ^ (k - 2)) = 4 * (2 ^ (k - 2) * (c / 2 ^ (k - 2))) := by ring
  rw [h1]
  omega

/-- C16: for a sector size that is a power of two between 4 and 1024 (the
block size of the device) and every cluster number `c`,
`fat32_read_FAT_entry (c)` issues one read of one block at `FAT1_base + c div
(bytes_per_sector / 4)`, leaves the contents of the device as they are and
returns word `c mod (bytes_per_sector / 4)` of that block masked with
`0x0FFFFFFF`; this is the `c`-th 32-bit word of the FAT1 region (when the
block number does not wrap), and the result is below 2^28. -/
theorem read_FAT_entry_word (fsbi : fat32_sb_info_t) (d : ahci_disk) (c k : Nat)
    (hk : 2 ≤ k ∧ k ≤ 10) (hbps : fsbi.bootsector.BPB_BytesPerSec = 2 ^ k)
    (hsec : d.sector_bytes = fsbi.bootsector.BPB_BytesPerSec) :
    (fat32_read_FAT_entry fsbi c d).1
        = .ok (get_u32
            (sector_byte d (u64 (fsbi.FAT1_base_sector + c / (fsbi.bootsector.BPB_BytesPerSec / 4))))
            (4 * (c % (fsbi.bootsector.BPB_BytesPerSec / 4))) &&& 0x0fffffff)
    ∧ (fat32_read_FAT_entry fsbi c d).2.log
        = d.log ++ [⟨ata_cmd.ATA_CMD_READ_DMA_EXT,
            u64 (fsbi.FAT1_base_sector + c / (fsbi.bootsector.BPB_BytesPerSec / 4)), 1⟩]
    ∧ (fat32_read_FAT_entry fsbi c d).2.data = d.data
    ∧ (fsbi.FAT1_base_sector + c / (fsbi.bootsector.BPB_BytesPerSec / 4) < 2 ^ 64 →
        (fat32_read_FAT_entry fsbi c d).1 = .ok (FAT1_region_word fsbi d c &&& 0x0fffffff))
    ∧ ∀ v, (fat32_read_FAT_entry fsbi c d).1 = .ok v → v < 2 ^ 28 := by
  obtain ⟨e1, e2, _, e4⟩ := pow_two_entries k hk.1
  have hne : fsbi.bootsector.BPB_BytesPerSec >>> 2 ≠ 0 := by rw [hbps, e1]; omega
  have heq := read_FAT_entry_eq fsbi c d k hk.1 hbps hsec
  have hshift : fsbi.bootsector.BPB_BytesPerSec >>> 2 = fsbi.bootsector.BPB_BytesPerSec / 4 := by
    rw [hbps, e1, e2]
  refine ⟨heq, ?_, (read_FAT_entry_disk fsbi c d).1, ?_, ?_⟩
  · simp only [fat32_read_FAT_entry, ahci_read]
    rw [if_neg hne, hshift]
  · intro hlba
    rw [heq, FAT1_word_eq_region fsbi c d k hk.1 hbps hsec hlba]
  · intro v hv
    rw [heq] at hv
    simp only [Except.ok.injEq] at hv
    rw [← hv]
    exact Nat.and_lt_two_pow _ (by decide)

theorem read_FAT_entry_word_witness :
    (2 ≤ 9 ∧ 9 ≤ 10) ∧ fsbi_example.bootsector.BPB_BytesPerSec = 2 ^ 9
    ∧ disk_fat_far.sector_bytes = fsbi_example.bootsector.BPB_BytesPerSec
    ∧ (fat32_read_FAT_entry fsbi_example 130 disk_fat_far).1 = .ok 7
    ∧ (fat32_read_FAT_entry fsbi_example 130 disk_fat_far).2.log
        = [⟨ata_cmd.ATA_CMD_READ_DMA_EXT, 2081, 1⟩]
    ∧ FAT1_region_word fsbi_example disk_fat_far 130 = 0xf0000007 := by
  have h := read_FAT_entry_word fsbi_example disk_fat_far 130 9 (by decide) (by decide) (by decide)
  have hw : FAT1_region_word fsbi_example disk_fat_far 130 = 0xf0000007 := by decide
  have h4 := h.2.2.2.1 (by decide)
  rw [hw] at h4
  exact ⟨by decide, by decide, by decide, h4, h.2.1, hw⟩


theorem set_u32_congr (m1 m2 : Mem) (off v j : Nat) (h : m1 j = m2 j) :
    set_u32 m1 off v j = set_u32 m2 off v j := by
  simp only [set_u32, h]

theorem FAT_sector_update_eq (fsbi : fat32_sb_info_t) (c v : Nat) (d : ahci_disk) (k : Nat)
    (hk : 2 ≤ k) (hbps : fsbi.bootsector.BPB_BytesPerSec = 2 ^ k)
    (hsec : d.sector_bytes = fsbi.bootsector.BPB_BytesPerSec) (j : Nat) (hj : j < d.sector_bytes) :
    FAT_sector_update fsbi c v d j = FAT_sector_after fsbi d c v j := by
  obtain ⟨e1, e2, e3, e4⟩ := pow_two_entries k hk
  have hidx : c % 2 ^ (k - 2) < 2 ^ (k - 2) := Nat.mod_lt _ e4
  have hS : d.sector_bytes = 4 * 2 ^ (k - 2) := by rw [hsec, hbps, e3]
  have hold : get_u32 (ahci_read d (u64 (fsbi.FAT1_base_sector + c / 2 ^ (k - 2))) 1 zero_mem).1
        (4 * (c % 2 ^ (k - 2)))
      = get_u32 (sector_byte d (u64 (fsbi.FAT1_base_sector + c / 2 ^ (k - 2))))
          (4 * (c % 2 ^ (k - 2))) := by
    apply get_u32_congr
    intro i hi
    simp only [sector_byte, ahci_read]
    rw [if_pos (by omega)]
  simp only [FAT_sector_update, FAT_sector_after, FAT1_word, hbps, e1, e2,
    Nat.and_pow_two_sub_one_eq_mod, hold]
  apply set_u32_congr
  simp only [sector_byte, ahci_read]
  rw [if_pos (by omega)]

/-- C19: for a sector size that is a power of two between 4 and 1024 (the
block size of the device), `fat32_write_FAT_entry (c, v)` changes no byte of
the device outside the blocks `FAT1_base + c div eps` and `FAT2_base + c div
eps` (`eps = bytes_per_sector / 4`), and both blocks end up equal to the old
FAT1 block with the low 28 bits of word `c mod eps` replaced by `v &
0x0FFFFFFF` (the top 4 bits of the word are kept). -/
theorem write_FAT_entry_frame (fsbi : fat32_sb_info_t) (d : ahci_disk) (c v k : Nat)
    (hk : 2 ≤ k ∧ k ≤ 10) (hbps : fsbi.bootsector.BPB_BytesPerSec = 2 ^ k)
    (hsec : d.sector_bytes = fsbi.bootsector.BPB_BytesPerSec) :
    (∀ a,
      ¬ (u64 (fsbi.FAT1_base_sector + c / (fsbi.bootsector.BPB_BytesPerSec / 4)) * d.sector_bytes ≤ a
        ∧ a < u64 (fsbi.FAT1_base_sector + c / (fsbi.bootsector.BPB_BytesPerSec / 4))
            * d.sector_bytes + d.sector_bytes) →
      ¬ (u64 (fsbi.FAT2_base_sector + c / (fsbi.bootsector.BPB_BytesPerSec / 4)) * d.sector_bytes ≤ a
        ∧ a < u64 (fsbi.FAT2_base_sector + c / (fsbi.bootsector.BPB_BytesPerSec / 4))
            * d.sector_bytes + d.sector_bytes) →
      (fat32_write_FAT_entry fsbi c v d).2.data a = d.data a)
    ∧ (∀ j, j < d.sector_bytes →
        sector_byte (fat32_write_FAT_entry fsbi c v d).2
            (u64 (fsbi.FAT1_base_sector + c / (fsbi.bootsector.BPB_BytesPerSec / 4))) j
          = FAT_sector_after fsbi d c v j
        ∧ sector_byte (fat32_write_FAT_entry fsbi c v d).2
            (u64 (fsbi.FAT2_base_sector + c / (fsbi.bootsector.BPB_BytesPerSec / 4))) j
          = FAT_sector_after fsbi d c v j)
    ∧ get_u32 (FAT_sector_after fsbi d c v) (4 * (c % (fsbi.bootsector.BPB_BytesPerSec / 4)))
        = (FAT1_word fsbi d c &&& 0xf0000000) ||| (v &&& 0x0fffffff)
    ∧ (∀ j, j < 4 * (c % (fsbi.bootsector.BPB_BytesPerSec / 4))
          ∨ 4 * (c % (fsbi.bootsector.BPB_BytesPerSec / 4)) + 4 ≤ j →
        FAT_sector_after fsbi d c v j
          = sector_byte d
              (u64 (fsbi.FAT1_base_sector + c / (fsbi.bootsector.BPB_BytesPerSec / 4))) j) := by
  obtain ⟨e1, e2, _, e4⟩ := pow_two_entries k hk.1
  have hne : fsbi.bootsector.BPB_BytesPerSec >>> 2 ≠ 0 := by rw [hbps, e1]; omega
  have hshift : fsbi.bootsector.BPB_BytesPerSec >>> 2 = fsbi.bootsector.BPB_BytesPerSec / 4 := by
    rw [hbps, e1, e2]
  refine ⟨?_, ?_, ?_, ?_⟩
  · intro a h1 h2
    rw [write_FAT_entry_data fsbi c v d hne, hshift, Nat.one_mul, if_neg h2, if_neg h1]
  · intro j hj
    have w := write_FAT_entry_sector fsbi c v d hne j hj
    rw [hshift] at w
    simp only [sector_byte, write_FAT_entry_sector_bytes]
    rw [w.1, w.2, FAT_sector_update_eq fsbi c v d k hk.1 hbps hsec j hj]
    exact ⟨rfl, rfl⟩
  · unfold FAT_sector_after
    rw [get_u32_set_u32, Nat.mod_eq_of_lt (mask_lt _ _)]
  · intro j hj
    unfold FAT_sector_after
    exact set_u32_other _ _ _ _ hj

theorem write_FAT_entry_frame_witness :
    (2 ≤ 9 ∧ 9 ≤ 10) ∧ fsbi_example.bootsector.BPB_BytesPerSec = 2 ^ 9
    ∧ disk_zero.sector_bytes = fsbi_example.bootsector.BPB_BytesPerSec
    ∧ get_u32 (sector_byte (fat32_write_FAT_entry fsbi_example 5 0x0fffffff disk_zero).2 2080) 20
        = 0x0fffffff
    ∧ get_u32 (sector_byte (fat32_write_FAT_entry fsbi_example 5 0x0fffffff disk_zero).2 3080) 20
        = 0x0fffffff
    ∧ ∀ j, j < 512 → (j < 20 ∨ 24 ≤ j) →
        sector_byte (fat32_write_FAT_entry fsbi_example 5 0x0fffffff disk_zero).2 2080 j = 0
        ∧ sector_byte (fat32_write_FAT_entry fsbi_example 5 0x0fffffff disk_zero).2 3080 j = 0 := by
  have h := write_FAT_entry_frame fsbi_example disk_zero 5 0x0fffffff 9 (by decide) (by decide)
    (by decide)
  have e1 : u64 (fsbi_example.FAT1_base_sector + 5 / (fsbi_example.bootsector.BPB_BytesPerSec / 4))
      = 2080 := by decide
  have e2 : u64 (fsbi_example.FAT2_base_sector + 5 / (fsbi_example.bootsector.BPB_BytesPerSec / 4))
      = 3080 := by decide
  have e3 : 4 * (5 % (fsbi_example.bootsector.BPB_BytesPerSec / 4)) = 20 := by decide
  have e4 : disk_zero.sector_bytes = 512 := rfl
  rw [e1, e2, e3, e4] at h
  obtain ⟨-, hs, -, ho⟩ := h
  refine ⟨by decide, by decide, by decide, by decide, by decide, ?_⟩
  intro j hj hr
  rw [(hs j hj).1, (hs j hj).2, ho j hr]
  exact ⟨rfl, rfl⟩


/-! ## The inode built by a lookup -/

theorem lookup_inode_entry (fsbi : fat32_sb_info_t) (hit : lookup_hit) (inode : vfs_index_node_t)
    (h : lookup_inode fsbi hit = .ok inode) :
    inode.file_size = get_u32 hit.buf (32 * hit.index + 28)
    ∧ inode.attribute_
      = (if (hit.buf (32 * hit.index + 11)).val &&& ATTR_DIRECTORY ≠ 0
          then vfs_attribute.VFS_ATTR_DIR else vfs_attribute.VFS_ATTR_FILE)
    ∧ inode.private_inode_info.first_clus
      = ((get_u16 hit.buf (32 * hit.index + 20) <<< 16) ||| get_u16 hit.buf (32 * hit.index + 26))
          &&& 0x0fffffff
    ∧ inode_blocks (get_u32 hit.buf (32 * hit.index + 28)) fsbi.bytes_per_clus fsbi.bytes_per_sec
      = .ok inode.blocks := by
  unfold lookup_inode at h
  simp only at h
  split at h
  · simp at h
  · rename_i blocks hb
    simp only [Except.ok.injEq] at h
    subst h
    exact ⟨rfl, rfl, rfl, hb⟩

/-- C13 as stated fails: the accepted entry `HELLO   TXT` has `DIR_FstClusHI =
0x3000` and `DIR_FstClusLO = 10`, so `(DIR_FstClusHI << 16) | DIR_FstClusLO` is
`0x3000000A`, and the inode returned has first cluster 10. -/
theorem lookup_first_cluster_counterexample :
    lookup_inode_fields
        (fat32_lookup heap_zero 4 root_inode_example (target_dentry name_hello_txt)
          disk_dir_hi).1 = .ok (some (513, 10, 2, 0))
    ∧ (get_u16 (dir_cluster fsbi_example disk_dir_hi 2) (32 * 0 + 20) <<< 16)
        ||| get_u16 (dir_cluster fsbi_example disk_dir_hi 2) (32 * 0 + 26) = 0x3000000a := by
  refine ⟨by decide, by decide⟩

/-- C13 (amended): for every short entry that `fat32_lookup` accepts, the
returned inode has `file_size` equal to the `DIR_FileSize` of the entry,
attribute DIR exactly when bit 0x10 of `DIR_Attr` is set (FILE otherwise), and
first cluster equal to `((DIR_FstClusHI << 16) | DIR_FstClusLO) & 0x0FFFFFFF`. -/
theorem lookup_inode_of_entry (km : kernel_heap) (fuel : Nat) (parent : vfs_index_node_t)
    (dest : vfs_dir_entry_t) (d : ahci_disk) (dentry : vfs_dir_entry_t) (inode : vfs_index_node_t)
    (h : (fat32_lookup km fuel parent dest d).1 = .ok (some dentry))
    (hi : dentry.dir_inode = some inode) :
    inode.file_size
      = get_u32 (dir_cluster parent.sb d inode.private_inode_info.dEntry_location_clus)
          (32 * inode.private_inode_info.dEntry_location_clus_offset + 28)
    ∧ (inode.attribute_ = vfs_attribute.VFS_ATTR_DIR ↔
        (dir_cluster parent.sb d inode.private_inode_info.dEntry_location_clus
          (32 * inode.private_inode_info.dEntry_location_clus_offset + 11)).val &&& 0x10 ≠ 0)
    ∧ (inode.attribute_ = vfs_attribute.VFS_ATTR_FILE ↔
        (dir_cluster parent.sb d inode.private_inode_info.dEntry_location_clus
          (32 * inode.private_inode_info.dEntry_location_clus_offset + 11)).val &&& 0x10 = 0)
    ∧ inode.private_inode_info.first_clus
      = ((get_u16 (dir_cluster parent.sb d inode.private_inode_info.dEntry_location_clus)
            (32 * inode.private_inode_info.dEntry_location_clus_offset + 20) <<< 16)
          ||| get_u16 (dir_cluster parent.sb d inode.private_inode_info.dEntry_location_clus)
            (32 * inode.private_inode_info.dEntry_location_clus_offset + 26))
        &&& 0x0fffffff := by
  obtain ⟨hit, d1, hc, hp, -⟩ := lookup_found km fuel parent dest d dentry inode h hi
  obtain ⟨l1, l2, -⟩ := lookup_inode_location parent.sb hit inode hp
  obtain ⟨c1, -, -, -⟩ := lookup_chain_hit km parent.sb dest fuel _ zero_mem d hit d1
    (fun _ _ => rfl) hc
  obtain ⟨f1, f2, f3, -⟩ := lookup_inode_entry parent.sb hit inode hp
  rw [l1, l2, ← c1]
  refine ⟨f1, ?_, ?_, f3⟩
  · rw [f2]
    by_cases ha : (hit.buf (32 * hit.index + 11)).val &&& ATTR_DIRECTORY ≠ 0
    · rw [if_pos ha]; exact ⟨fun _ => ha, fun _ => rfl⟩
    · rw [if_neg ha]; exact ⟨fun e => (by cases e), fun e => absurd e ha⟩
  · rw [f2]
    by_cases ha : (hit.buf (32 * hit.index + 11)).val &&& ATTR_DIRECTORY ≠ 0
    · rw [if_pos ha]; exact ⟨fun e => (by cases e), fun e => absurd e ha⟩
    · rw [if_neg ha]; exact ⟨fun _ => not_not.mp ha, fun _ => rfl⟩

theorem lookup_inode_of_entry_witness :
    ∃ dentry inode,
      (fat32_lookup heap_zero 4 root_inode_example (target_dentry name_hello_txt)
          disk_dir_hi).1 = .ok (some dentry)
      ∧ dentry.dir_inode = some inode
      ∧ inode.file_size = 513
      ∧ inode.private_inode_info.first_clus = 10
      ∧ inode.file_size
        = get_u32 (dir_cluster root_inode_example.sb disk_dir_hi
            inode.private_inode_info.dEntry_location_clus)
            (32 * inode.private_inode_info.dEntry_location_clus_offset + 28)
      ∧ inode.private_inode_info.first_clus
        = ((get_u16 (dir_cluster root_inode_example.sb disk_dir_hi
              inode.private_inode_info.dEntry_location_clus)
              (32 * inode.private_inode_info.dEntry_location_clus_offset + 20) <<< 16)
            ||| get_u16 (dir_cluster root_inode_example.sb disk_dir_hi
              inode.private_inode_info.dEntry_location_clus)
              (32 * inode.private_inode_info.dEntry_location_clus_offset + 26))
          &&& 0x0fffffff := by
  have hf : lookup_inode_fields
      (fat32_lookup heap_zero 4 root_inode_example (target_dentry name_hello_txt)
        disk_dir_hi).1 = .ok (some (513, 10, 2, 0)) := by decide
  cases hr : (fat32_lookup heap_zero 4 root_inode_example (target_dentry name_hello_txt)
      disk_dir_hi).1 with
  | error f => rw [hr] at hf; simp [lookup_inode_fields] at hf
  | ok o =>
    cases o with
    | none => rw [hr] at hf; simp [lookup_inode_fields] at hf
    | some dentry =>
      rw [hr] at hf
      cases hi : dentry.dir_inode with
      | none => simp [lookup_inode_fields, hi] at hf
      | some inode =>
        simp only [lookup_inode_fields, hi, Option.map_some', Except.ok.injEq, Option.some.injEq,
          Prod.mk.injEq] at hf
        have h := lookup_inode_of_entry heap_zero 4 root_inode_example
          (target_dentry name_hello_txt) disk_dir_hi dentry inode hr hi
        exact ⟨dentry, inode, rfl, hi, hf.1, hf.2.1, h.1, h.2.2.2⟩

/-- C14 fails on the code: with 4096-byte clusters of 8 sectors, the root
inode built by `fat32_read_superblock` (size 0) has 7 blocks where the
specification has 0, and the inode that `fat32_lookup` builds for a file of
513 bytes has 9 blocks where the specification has 8: the code computes
`(file_size + bytes_per_clus - 1) / bytes_per_sec`. -/
theorem inode_blocks_not_cluster_aligned :
    mount_root_blocks
        (fat32_read_superblock dpte_example VFS_DPT_MBR boot_example 0 0 0 disk_zero).1
      = .ok (some (0, 7, 4096, 8))
    ∧ blocks_spec 0 4096 8 = 0
    ∧ lookup_inode_blocks
        (fat32_lookup heap_zero 4 root_inode_example (target_dentry name_hello_txt)
          disk_dir_hi).1 = .ok (some (513, 9))
    ∧ fsbi_example.bytes_per_clus = 4096 ∧ fsbi_example.sec_per_clus = 8
    ∧ blocks_spec 513 4096 8 = 8 := by
  refine ⟨by decide, by decide, by decide, by decide, by decide, by decide⟩


/-! ## The long-name comparison -/

theorem dir_byte_nat (km : kernel_heap) (buf : Mem) (a : Int) (m : Nat) (h : a = (m : Int)) :
    dir_byte km buf a = buf m := by
  subst h
  simp [dir_byte]

theorem dir_u16_nat (km : kernel_heap) (buf : Mem) (a : Int) (m : Nat) (h : a = (m : Int)) :
    dir_u16 km buf a = get_u16 buf m := by
  unfold dir_u16 get_u16
  rw [dir_byte_nat km buf a m h, dir_byte_nat km buf (a + 1) (m + 1) (by rw [h]; push_cast; rfl)]

theorem LDIR_units_length (km : kernel_heap) (buf : Mem) (ld : Int) :
    (LDIR_units km buf ld).length = 13 := by
  rfl

theorem LDIR_units_getD (km : kernel_heap) (buf : Mem) (e x : Nat) (hx : x < 13) :
    (LDIR_units km buf ((32 * e : Nat) : Int)).getD x 0 = ldir_unit buf e x := by
  unfold ldir_unit
  interval_cases x <;>
    simp only [LDIR_units, LDIR_Name1, LDIR_Name2, LDIR_Name3, ldir_unit_offset, List.range,
      List.range.loop, List.map, List.cons_append, List.nil_append, List.getD_cons_zero,
      List.getD_cons_succ] <;>
    exact dir_u16_nat km buf _ _ (by push_cast; ring)


theorem lfn_cmp_slice_append (km : kernel_heap) (dest : vfs_dir_entry_t) :
    ∀ (a b : List Nat) (js : Nat),
      lfn_cmp_slice km dest (a ++ b) js
        = (lfn_cmp_slice km dest a js).bind (lfn_cmp_slice km dest b) := by
  intro a
  induction a with
  | nil => intro b js; simp [lfn_cmp_slice]
  | cons u us ih =>
    intro b js
    simp only [List.cons_append, lfn_cmp_slice]
    by_cases h1 : js > dest.name_length ∧ u = 0xffff
    · simp only [h1, and_self, if_true]; exact ih b js
    · rw [if_neg h1, if_neg h1]
      by_cases h2 : js > dest.name_length ∨ u ≠ char_u16 (name_byte km dest js)
      · rw [if_pos h2, if_pos h2]; rfl
      · rw [if_neg h2, if_neg h2]; exact ih b (js + 1)

/-- One turn of the loop over the long entries, with the three slices of the
entry compared as one list of 13 units. -/
theorem lfn_walk_step (km : kernel_heap) (buf : Mem) (dest : vfs_dir_entry_t) (fuel : Nat)
    (ld : Int) (js : Nat) :
    lfn_walk km buf dest (fuel + 1) ld js
      = if (dir_byte km buf (ld + 11)).val = ATTR_LONG_NAME ∧ (dir_byte km buf ld).val ≠ 0xe5 then
          match lfn_cmp_slice km dest (LDIR_units km buf ld) js with
          | none => .ok .fail
          | some js3 =>
            if js3 ≥ dest.name_length then .ok .success
            else lfn_walk km buf dest fuel (ld - 32) js3
        else .ok .short_name := by
  rw [lfn_walk]
  by_cases hl : (dir_byte km buf (ld + 11)).val = ATTR_LONG_NAME ∧ (dir_byte km buf ld).val ≠ 0xe5
  · rw [if_pos hl, if_pos hl]
    simp only [LDIR_units, lfn_cmp_slice_append]
    cases h1 : lfn_cmp_slice km dest (LDIR_Name1 km buf ld) js with
    | none => rfl
    | some js1 =>
      simp only [Option.some_bind]
      cases h2 : lfn_cmp_slice km dest (LDIR_Name2 km buf ld) js1 with
      | none => rfl
      | some js2 => rfl
  · rw [if_neg hl, if_neg hl]

theorem lfn_walk_record (km : kernel_heap) (buf : Mem) (dest : vfs_dir_entry_t) (fuel e js : Nat)
    (hattr : (buf (32 * e + 11)).val = ATTR_LONG_NAME) (hord : (buf (32 * e)).val ≠ 0xe5) :
    lfn_walk km buf dest (fuel + 1) ((32 * e : Nat) : Int) js
      = match lfn_cmp_slice km dest (LDIR_units km buf ((32 * e : Nat) : Int)) js with
        | none => .ok .fail
        | some js3 =>
          if js3 ≥ dest.name_length then .ok .success
          else lfn_walk km buf dest fuel (((32 * e : Nat) : Int) - 32) js3 := by
  rw [lfn_walk_step, if_pos]
  rw [dir_byte_nat km buf _ (32 * e + 11) (by push_cast; ring),
    dir_byte_nat km buf _ (32 * e) rfl]
  exact ⟨hattr, hord⟩

/-- A slice whose units all equal the target characters at their positions,
none of them past the terminator, is passed with the index advanced by its
length. -/
theorem lfn_cmp_slice_match (km : kernel_heap) (dest : vfs_dir_entry_t) :
    ∀ (us : List Nat) (js : Nat),
      (∀ x, x < us.length →
        js + x ≤ dest.name_length ∧ us.getD x 0 = char_u16 (name_byte km dest (js + x))) →
      lfn_cmp_slice km dest us js = some (js + us.length) := by
  intro us
  induction us with
  | nil => intro js _; simp [lfn_cmp_slice]
  | cons u us ih =>
    intro js h
    have h0 := h 0 (by simp)
    simp only [Nat.add_zero, List.getD_cons_zero] at h0
    rw [lfn_cmp_slice, if_neg (by omega), if_neg (by rw [not_or, not_not]; exact ⟨by omega, h0.2⟩),
      ih (js + 1)]
    · simp only [List.length_cons]; congr 1; omega
    · intro x hx
      have hx1 := h (x + 1) (by simp only [List.length_cons]; omega)
      simp only [List.getD_cons_succ] at hx1
      rw [show js + 1 + x = js + (x + 1) by omega]
      exact hx1

/-- A slice is failed at its first unit that differs from the target
character at its position. -/
theorem lfn_cmp_slice_mismatch (km : kernel_heap) (dest : vfs_dir_entry_t) :
    ∀ (us : List Nat) (js x : Nat), x < us.length → js + x ≤ dest.name_length →
      (∀ y, y < x → us.getD y 0 = char_u16 (name_byte km dest (js + y))) →
      us.getD x 0 ≠ char_u16 (name_byte km dest (js + x)) →
      lfn_cmp_slice km dest us js = none := by
  intro us
  induction us with
  | nil => intro js x hx; simp at hx
  | cons u us ih =>
    intro js x hx hle hm hne
    cases x with
    | zero =>
      simp only [Nat.add_zero, List.getD_cons_zero] at hne hle
      rw [lfn_cmp_slice, if_neg (by omega), if_pos (Or.inr hne)]
    | succ x =>
      have h0 := hm 0 (by omega)
      simp only [Nat.add_zero, List.getD_cons_zero] at h0
      rw [lfn_cmp_slice, if_neg (by omega),
        if_neg (by rw [not_or, not_not]; exact ⟨by omega, h0⟩)]
      apply ih (js + 1) x (by simpa using hx) (by omega)
      · intro y hy
        have := hm (y + 1) (by omega)
        simp only [List.getD_cons_succ] at this
        rw [show js + 1 + y = js + (y + 1) by omega]
        exact this
      · simp only [List.getD_cons_succ] at hne
        rw [show js + 1 + x = js + (x + 1) by omega]
        exact hne

/-- A slice that is passed with the index still below the name length has
advanced the index by its length. -/
theorem lfn_cmp_slice_advance (km : kernel_heap) (dest : vfs_dir_entry_t) :
    ∀ (us : List Nat) (js js1 : Nat), lfn_cmp_slice km dest us js = some js1 →
      js1 ≤ dest.name_length → js1 = js + us.length := by
  intro us
  induction us with
  | nil => intro js js1 h _; simp [lfn_cmp_slice] at h; simp [h]
  | cons u us ih =>
    intro js js1 h hle
    rw [lfn_cmp_slice] at h
    have hmono : ∀ (l : List Nat) (a b : Nat), lfn_cmp_slice km dest l a = some b → a ≤ b := by
      intro l
      induction l with
      | nil => intro a b h; simp [lfn_cmp_slice] at h; omega
      | cons v l ihl =>
        intro a b h
        rw [lfn_cmp_slice] at h
        split at h
        · exact ihl a b h
        · split at h
          · cases h
          · have := ihl (a + 1) b h; omega
    split at h
    · rename_i hc
      have := hmono us js js1 h
      omega
    · split at h
      · cases h
      · have := ih (js + 1) js1 h hle
        simp only [List.length_cons]; omega

/-- The loop over the long entries ends within `name_length + 1` turns: every
turn that does not end it advances the index by 13. -/
theorem lfn_walk_ok (km : kernel_heap) (buf : Mem) (dest : vfs_dir_entry_t) :
    ∀ (fuel : Nat) (ld : Int) (js : Nat), js ≤ dest.name_length → dest.name_length < fuel + js →
      ∃ r, lfn_walk km buf dest fuel ld js = .ok r := by
  intro fuel
  induction fuel with
  | zero => intro ld js h1 h2; omega
  | succ fuel ih =>
    intro ld js h1 h2
    rw [lfn_walk_step]
    split
    · cases hs : lfn_cmp_slice km dest (LDIR_units km buf ld) js with
      | none => exact ⟨_, rfl⟩
      | some js3 =>
        simp only
        by_cases hge : js3 ≥ dest.name_length
        · rw [if_pos hge]; exact ⟨_, rfl⟩
        · rw [if_neg hge]
          have hadv := lfn_cmp_slice_advance km dest _ js js3 hs (by omega)
          rw [LDIR_units_length] at hadv
          exact ih (ld - 32) js3 (by omega) (by omega)
    · exact ⟨_, rfl⟩

/-- The examination of one entry never faults. -/
theorem lookup_entry_ok (km : kernel_heap) (buf : Mem) (dest : vfs_dir_entry_t) (idx : Nat) :
    ∃ b, lookup_entry km buf dest idx = .ok b := by
  unfold lookup_entry
  simp only
  split
  · exact ⟨_, rfl⟩
  · split
    · exact ⟨_, rfl⟩
    · obtain ⟨r, hr⟩ := lfn_walk_ok km buf dest (dest.name_length + 1) (((32 * idx : Nat) : Int) - 32)
        0 (Nat.zero_le _) (by omega)
      rw [hr]
      cases r <;> exact ⟨_, rfl⟩

/-- The long entries in front of entry `idx` whose units all equal the target
characters are passed one after the other. -/
theorem lfn_walk_matched (km : kernel_heap) (buf : Mem) (dest : vfs_dir_entry_t) (idx : Nat) :
    ∀ (k : Nat), k ≤ idx →
      (∀ j, j < k → (buf (32 * (idx - 1 - j) + 11)).val = ATTR_LONG_NAME
        ∧ (buf (32 * (idx - 1 - j))).val ≠ 0xe5) →
      (∀ j x, j < k → x < 13 →
        ldir_unit buf (idx - 1 - j) x = char_u16 (name_byte km dest (13 * j + x))) →
      (k = 0 ∨ 13 * k < dest.name_length) →
      ∀ fuel, lfn_walk km buf dest (fuel + k) (((32 * idx : Nat) : Int) - 32) 0
        = lfn_walk km buf dest fuel (((32 * (idx - k) : Nat) : Int) - 32) (13 * k) := by
  intro k
  induction k with
  | zero => intro _ _ _ _ fuel; rfl
  | succ k ih =>
    intro hk hlive hunit hlen fuel
    have hlen1 : 13 * (k + 1) < dest.name_length := by omega
    rw [show fuel + (k + 1) = (fuel + 1) + k by omega,
      ih (by omega) (fun j hj => hlive j (by omega)) (fun j x hj hx => hunit j x (by omega) hx)
        (by omega) (fuel + 1)]
    have hld : (((32 * (idx - k) : Nat) : Int) - 32) = ((32 * (idx - 1 - k) : Nat) : Int) := by
      have : 32 * (idx - k) = 32 * (idx - 1 - k) + 32 := by omega
      rw [this]; push_cast; ring
    rw [hld, lfn_walk_record km buf dest fuel (idx - 1 - k) (13 * k) (hlive k (by omega)).1
      (hlive k (by omega)).2]
    rw [lfn_cmp_slice_match km dest _ (13 * k)]
    · simp only [LDIR_units_length]
      rw [if_neg (by omega)]
      congr 1
      · have : idx - 1 - k = idx - (k + 1) := by omega
        rw [this]
    · intro x hx
      rw [LDIR_units_length] at hx
      rw [LDIR_units_getD km buf _ x hx]
      exact ⟨by omega, hunit k x (by omega) hx⟩

theorem name_byte_terminator (km : kernel_heap) (target tail : List Byte)
    (ino : Option vfs_index_node_t) (par : Option vfs_dir_entry_t) :
    name_byte km (vfs_dir_entry_t.mk (target ++ 0 :: tail) target.length ino par) target.length
      = 0 := by
  simp only [name_byte, vfs_dir_entry_t.name, List.getD_eq_getElem?_getD]
  rw [List.getElem?_append_right (Nat.le_refl _)]
  simp

theorem char_u16_target (km : kernel_heap) (name tail : List Byte)
    (ino : Option vfs_index_node_t) (par : Option vfs_dir_entry_t)
    (hc : ∀ c ∈ name, c.val ≤ 127) (i : Nat) (hi : i ≤ name.length) :
    char_u16 (name_byte km (vfs_dir_entry_t.mk (name ++ 0 :: tail) name.length ino par) i)
      = lfn_unit name i := by
  rcases Nat.lt_or_ge i name.length with h | h
  · rw [name_byte_target km name (0 :: tail) ino par i h]
    have hm : name.getD i 0 ∈ name := by
      rw [List.getD_eq_getElem _ _ h]; exact List.getElem_mem h
    have := hc _ hm
    simp only [char_u16, lfn_unit, if_pos h]
    rw [if_pos (by omega)]
  · have he : i = name.length := by omega
    subst he
    rw [name_byte_terminator]
    simp [char_u16, lfn_unit]

/-- A slice of the canonical storage of the target name, from unit `i` on, is
passed: the index follows the position up to the terminator and stays behind
it over the padding. -/
theorem lfn_cmp_slice_canonical (km : kernel_heap) (name tail : List Byte)
    (ino : Option vfs_index_node_t) (par : Option vfs_dir_entry_t)
    (hc : ∀ c ∈ name, c.val ≤ 127) :
    ∀ (us : List Nat) (i : Nat), (∀ x, x < us.length → us.getD x 0 = lfn_unit name (i + x)) →
      lfn_cmp_slice km (vfs_dir_entry_t.mk (name ++ 0 :: tail) name.length ino par) us
          (min i (name.length + 1))
        = some (min (i + us.length) (name.length + 1)) := by
  intro us
  induction us with
  | nil => intro i _; simp [lfn_cmp_slice]
  | cons u us ih =>
    intro i h
    have hu := h 0 (by simp)
    simp only [Nat.add_zero, List.getD_cons_zero] at hu
    have hrest : ∀ x, x < us.length → us.getD x 0 = lfn_unit name (i + 1 + x) := by
      intro x hx
      have := h (x + 1) (by simp only [List.length_cons]; omega)
      simp only [List.getD_cons_succ] at this
      rw [show i + 1 + x = i + (x + 1) by omega]
      exact this
    have hlen : (vfs_dir_entry_t.mk (name ++ 0 :: tail) name.length ino par).name_length
        = name.length := rfl
    have ih1 := ih (i + 1) hrest
    rw [show i + 1 + us.length = i + (u :: us).length by simp only [List.length_cons]; omega] at ih1
    rw [lfn_cmp_slice, hlen]
    rcases Nat.lt_or_ge name.length i with hgt | hle
    · have hm : min i (name.length + 1) = name.length + 1 := by omega
      have hm1 : min (i + 1) (name.length + 1) = name.length + 1 := by omega
      rw [hm1] at ih1
      rw [hm, if_pos ⟨by omega, by rw [hu]; simp only [lfn_unit]; rw [if_neg (by omega),
        if_neg (by omega)]⟩]
      exact ih1
    · have hm : min i (name.length + 1) = i := by omega
      have hm1 : min (i + 1) (name.length + 1) = i + 1 := by omega
      rw [hm1] at ih1
      rw [hm, if_neg (by omega), if_neg (by
        rw [not_or, not_not]
        exact ⟨by omega, by rw [hu, char_u16_target km name tail ino par hc i hle]⟩)]
      exact ih1

/-- The loop over the long entries accepts the canonical chain of the target
name. -/
theorem lfn_walk_canonical (km : kernel_heap) (buf : Mem) (name tail : List Byte)
    (ino : Option vfs_index_node_t) (par : Option vfs_dir_entry_t) (idx : Nat)
    (hn : 1 ≤ name.length) (hc : ∀ c ∈ name, c.val ≤ 127) (hchain : lfn_chain_at buf idx name) :
    lfn_walk km buf (vfs_dir_entry_t.mk (name ++ 0 :: tail) name.length ino par)
      (name.length + 1) (((32 * idx : Nat) : Int) - 32) 0 = .ok .success := by
  obtain ⟨hidx, hrec⟩ := hchain
  have hlen : (vfs_dir_entry_t.mk (name ++ 0 :: tail) name.length ino par).name_length
      = name.length := rfl
  generalize hr : (name.length + 12) / 13 = r at hidx hrec
  have hr1 : 1 ≤ r := by omega
  have hr2 : 13 * (r - 1) < name.length := by omega
  have hr3 : name.length ≤ 13 * r := by omega
  rw [show name.length + 1 = (name.length + 1 - (r - 1) - 1 + 1) + (r - 1) by omega,
    lfn_walk_matched km buf _ idx (r - 1) (by omega)
      (fun j hj => ⟨(hrec j (by omega)).1, (hrec j (by omega)).2.1⟩)
      (fun j x hj hx => by
        rw [char_u16_target km name tail ino par hc _ (by omega)]
        exact (hrec j (by omega)).2.2 x hx)
      (by rw [hlen]; omega)]
  have hld : (((32 * (idx - (r - 1)) : Nat) : Int) - 32) = ((32 * (idx - 1 - (r - 1)) : Nat) : Int) := by
    have : 32 * (idx - (r - 1)) = 32 * (idx - 1 - (r - 1)) + 32 := by omega
    rw [this]; push_cast; ring
  rw [hld, lfn_walk_record km buf _ _ (idx - 1 - (r - 1)) (13 * (r - 1)) (hrec (r - 1) (by omega)).1
    (hrec (r - 1) (by omega)).2.1]
  have hsl := lfn_cmp_slice_canonical km name tail ino par hc
    (LDIR_units km buf ((32 * (idx - 1 - (r - 1)) : Nat) : Int)) (13 * (r - 1)) (by
      intro x hx
      rw [LDIR_units_length] at hx
      rw [LDIR_units_getD km buf _ x hx]
      exact (hrec (r - 1) (by omega)).2.2 x hx)
  rw [show min (13 * (r - 1)) (name.length + 1) = 13 * (r - 1) by omega] at hsl
  rw [hsl, hlen]
  simp only [LDIR_units_length]
  rw [if_pos (by omega)]

/-- When the long entries in front of entry `idx` run out before the target
does (the entries 0 to `k - 1` are live and equal the target characters, the
target is longer than their `13 * k` units, and the entry in front of them is
not a live long entry), the loop over the long entries is left and the short
name of entry `idx` decides. -/
theorem lfn_walk_exhausted (km : kernel_heap) (buf : Mem) (dest : vfs_dir_entry_t) (idx k : Nat)
    (hk : k ≤ idx)
    (hlive : ∀ j, j < k → (buf (32 * (idx - 1 - j) + 11)).val = ATTR_LONG_NAME
      ∧ (buf (32 * (idx - 1 - j))).val ≠ 0xe5)
    (hunit : ∀ j x, j < k → x < 13 →
      ldir_unit buf (idx - 1 - j) x = char_u16 (name_byte km dest (13 * j + x)))
    (hlen : k = 0 ∨ 13 * k < dest.name_length)
    (hend : ¬ ((dir_byte km buf (((32 * (idx - k) : Nat) : Int) - 32 + 11)).val = ATTR_LONG_NAME
      ∧ (dir_byte km buf (((32 * (idx - k) : Nat) : Int) - 32)).val ≠ 0xe5))
    (hattr : (buf (32 * idx + 11)).val ≠ ATTR_LONG_NAME)
    (hfirst : (buf (32 * idx)).val ≠ 0xe5 ∧ (buf (32 * idx)).val ≠ 0x00
      ∧ (buf (32 * idx)).val ≠ 0x05) :
    lookup_entry km buf dest idx = .ok (sfn_match km buf dest (32 * idx)) := by
  unfold lookup_entry
  simp only
  rw [if_neg hattr, if_neg (by rw [not_or, not_or]; exact hfirst),
    show dest.name_length + 1 = (dest.name_length - k) + 1 + k by omega,
    lfn_walk_matched km buf dest idx k hk hlive hunit hlen, lfn_walk_step, if_neg hend]

set_option maxRecDepth 4000 in
/-- C11 as stated fails: the canonical long-name chain of
`verylongfilename.txt` in front of a short entry whose 11-byte name starts
with the byte 0x05 is not accepted, since the scan skips the names that start
with 0x00, 0x05 or 0xE5 before it looks at the long entries. -/
theorem lookup_long_name_counterexample :
    (∀ c ∈ name_verylong, 1 ≤ c.val ∧ c.val ≤ 127)
    ∧ lfn_chain_at buf_verylong_05 2 name_verylong
    ∧ (buf_verylong_05 (32 * 2 + 11)).val ≠ ATTR_LONG_NAME
    ∧ lookup_entry heap_zero buf_verylong_05 (target_dentry name_verylong) 2 = .ok false
    ∧ lookup_inode_fields
        (fat32_lookup heap_zero 4 root_inode_example (target_dentry name_verylong)
          disk_verylong_05).1 = .ok none := by
  refine ⟨by decide, by decide, by decide, by decide, by decide⟩

/-- C11 (amended): for every name of n >= 1 characters with codes 1..127 whose
canonical long-name chain stands right in front of entry `idx` of the cluster
buffer, the scan of `fat32_lookup` for that NUL-terminated name accepts entry
`idx` when it comes to it, provided the entry is a short one (attribute other
than 0x0F) whose first name byte is none of 0xE5, 0x00 and 0x05; the other
bytes of the short name do not matter. -/
theorem lookup_long_name (km : kernel_heap) (buf : Mem) (name tail : List Byte)
    (ino : Option vfs_index_node_t) (par : Option vfs_dir_entry_t) (idx : Nat)
    (hn : 1 ≤ name.length) (hc : ∀ c ∈ name, 1 ≤ c.val ∧ c.val ≤ 127)
    (hchain : lfn_chain_at buf idx name)
    (hattr : (buf (32 * idx + 11)).val ≠ ATTR_LONG_NAME)
    (hfirst : (buf (32 * idx)).val ≠ 0xe5 ∧ (buf (32 * idx)).val ≠ 0x00
      ∧ (buf (32 * idx)).val ≠ 0x05) :
    lookup_entry km buf (vfs_dir_entry_t.mk (name ++ 0 :: tail) name.length ino par) idx
      = .ok true := by
  unfold lookup_entry
  simp only
  rw [if_neg hattr, if_neg (by
    rw [not_or, not_or]; exact hfirst)]
  have hlen : (vfs_dir_entry_t.mk (name ++ 0 :: tail) name.length ino par).name_length
      = name.length := rfl
  rw [hlen, lfn_walk_canonical km buf name tail ino par idx hn (fun c hm => (hc c hm).2) hchain]

set_option maxRecDepth 4000 in
theorem lookup_long_name_witness :
    lfn_chain_at buf_verylong 2 name_verylong
    ∧ lookup_entry heap_zero buf_verylong (target_dentry name_verylong) 2 = .ok true :=
  ⟨by decide,
    lookup_long_name heap_zero buf_verylong name_verylong [] none none 2 (by decide) (by decide)
      (by decide) (by decide) (by decide)⟩

/-- C17 as stated fails: with the long name `Readme.txt` in front of the
short entry `README  TXT` (NTRes 0), the target `README.TXT` is not found,
although the short entry alone matches it: after a long-name mismatch the
scan goes on with the next entry. -/
theorem lfn_mismatch_counterexample :
    lookup_entry heap_zero buf_Readme_long (target_dentry name_README_TXT) 1 = .ok false
    ∧ lookup_inode_fields
        (fat32_lookup heap_zero 4 root_inode_example (target_dentry name_README_TXT)
          disk_Readme_long).1 = .ok none
    ∧ sfn_match heap_zero buf_Readme_long (target_dentry name_README_TXT) 32 = true
    ∧ lookup_entry heap_zero buf_README_short (target_dentry name_README_TXT) 0 = .ok true := by
  refine ⟨by decide, by decide, by decide, by decide⟩

/-- C17 (amended): a short entry preceded by long entries whose units differ
from the target at some position is skipped without a comparison of its short
name, whatever that name is.  Here the long entries 0 to `k` in front of entry
`idx` are live (attribute 0x0F, ordinal other than 0xE5), their units equal
the target characters up to position `13 * k + x`, the target has not ended
with the entries before entry `k`, and the unit at position `13 * k + x`, not
past the terminator of the target, differs from it. -/
theorem lfn_mismatch_skips (km : kernel_heap) (buf : Mem) (dest : vfs_dir_entry_t)
    (idx k x : Nat) (hk : k < idx) (hx : x < 13) (hpos : 13 * k + x ≤ dest.name_length)
    (hrec : k = 0 ∨ 13 * k < dest.name_length)
    (hlive : ∀ j, j ≤ k → (buf (32 * (idx - 1 - j) + 11)).val = ATTR_LONG_NAME
      ∧ (buf (32 * (idx - 1 - j))).val ≠ 0xe5)
    (hfull : ∀ j y, j < k → y < 13 →
      ldir_unit buf (idx - 1 - j) y = char_u16 (name_byte km dest (13 * j + y)))
    (hpart : ∀ y, y < x →
      ldir_unit buf (idx - 1 - k) y = char_u16 (name_byte km dest (13 * k + y)))
    (hdiff : ldir_unit buf (idx - 1 - k) x ≠ char_u16 (name_byte km dest (13 * k + x))) :
    lookup_entry km buf dest idx = .ok false := by
  unfold lookup_entry
  simp only
  split
  · rfl
  · split
    · rfl
    · rw [show dest.name_length + 1 = (dest.name_length - k) + 1 + k by omega,
        lfn_walk_matched km buf dest idx k (by omega) (fun j hj => hlive j (by omega)) hfull hrec]
      have hld : (((32 * (idx - k) : Nat) : Int) - 32) = ((32 * (idx - 1 - k) : Nat) : Int) := by
        have : 32 * (idx - k) = 32 * (idx - 1 - k) + 32 := by omega
        rw [this]; push_cast; ring
      rw [hld, lfn_walk_record km buf dest _ (idx - 1 - k) (13 * k) (hlive k (Nat.le_refl _)).1
        (hlive k (Nat.le_refl _)).2,
        lfn_cmp_slice_mismatch km dest _ (13 * k) x (by rw [LDIR_units_length]; exact hx) hpos
          (fun y hy => by rw [LDIR_units_getD km buf _ y (by omega)]; exact hpart y hy)
          (by rw [LDIR_units_getD km buf _ x hx]; exact hdiff)]

theorem lfn_mismatch_skips_witness :
    lookup_entry heap_zero buf_Readme_long (target_dentry name_README_TXT) 1 = .ok false :=
  lfn_mismatch_skips heap_zero buf_Readme_long (target_dentry name_README_TXT) 1 0 1 (by decide)
    (by decide) (by decide) (by decide) (by decide)
    (fun j _ hj _ => absurd hj (Nat.not_lt_zero j)) (by decide) (by decide)

/-- C20 fails: the target `verylongfilen`, the first 13 characters of the
long name `verylongfilename.txt`, is accepted through the long-name chain of
that file (entry 2 of the root directory, size 42, first cluster 10), because
the test made after each long entry does not look whether the stored name goes
on in the next long entry. -/
theorem lookup_accepts_shorter_name :
    lfn_chain_at buf_verylong 2 name_verylong
    ∧ name_verylong13 = name_verylong.take 13
    ∧ sfn_match heap_zero buf_verylong (target_dentry name_verylong13) 64 = false
    ∧ lookup_inode_fields
        (fat32_lookup heap_zero 4 root_inode_example (target_dentry name_verylong13)
          disk_verylong).1 = .ok (some (42, 10, 2, 2)) := by
  refine ⟨by decide, by decide, by decide, by decide⟩

/-! ## The order of the scan -/

theorem lookup_entry_not_true (km : kernel_heap) (buf : Mem) (dest : vfs_dir_entry_t) (idx : Nat)
    (h : lookup_entry km buf dest idx ≠ .ok true) : lookup_entry km buf dest idx = .ok false := by
  obtain ⟨b, hb⟩ := lookup_entry_ok km buf dest idx
  rw [hb] at h ⊢
  cases b with
  | true => exact absurd rfl h
  | false => rfl

theorem scan_cluster_none (km : kernel_heap) (buf : Mem) (dest : vfs_dir_entry_t) (bpc : Nat) :
    ∀ (n idx0 : Nat),
      (∀ j, idx0 ≤ j → 32 * j < bpc → lookup_entry km buf dest j ≠ .ok true) →
      scan_cluster km buf dest bpc n idx0 = .ok none := by
  intro n
  induction n with
  | zero => intro idx0 _; rfl
  | succ n ih =>
    intro idx0 h
    unfold scan_cluster
    by_cases hb : 32 * idx0 < bpc
    · rw [if_pos hb, lookup_entry_not_true km buf dest idx0 (h idx0 (Nat.le_refl _) hb)]
      exact ih (idx0 + 1) (fun j hj hjb => h j (by omega) hjb)
    · rw [if_neg hb]

theorem scan_cluster_first (km : kernel_heap) (buf : Mem) (dest : vfs_dir_entry_t) (bpc idx : Nat)
    (hidx : 32 * idx < bpc) (hmatch : lookup_entry km buf dest idx = .ok true) :
    ∀ (n idx0 : Nat), idx0 ≤ idx → idx - idx0 < n →
      (∀ j, idx0 ≤ j → j < idx → lookup_entry km buf dest j ≠ .ok true) →
      scan_cluster km buf dest bpc n idx0 = .ok (some idx) := by
  intro n
  induction n with
  | zero => intro idx0 _ h; omega
  | succ n ih =>
    intro idx0 hle hn h
    unfold scan_cluster
    rw [if_pos (by omega)]
    rcases Nat.eq_or_lt_of_le hle with he | hlt
    · subst he
      rw [hmatch]
    · rw [lookup_entry_not_true km buf dest idx0 (h idx0 (Nat.le_refl _) hlt)]
      exact ih (idx0 + 1) (by omega) (by omega) (fun j hj hjb => h j (by omega) hjb)

theorem read_FAT_entry_congr (fsbi : fat32_sb_info_t) (c : Nat) (d1 d2 : ahci_disk)
    (h1 : d1.data = d2.data) (h2 : d1.sector_bytes = d2.sector_bytes) :
    (fat32_read_FAT_entry fsbi c d1).1 = (fat32_read_FAT_entry fsbi c d2).1 := by
  unfold fat32_read_FAT_entry
  by_cases h : fsbi.bootsector.BPB_BytesPerSec >>> 2 = 0
  · simp [h]
  · simp only [h, if_false, ahci_read, h1, h2]

theorem chain_cluster_congr (fsbi : fat32_sb_info_t) (d1 d2 : ahci_disk)
    (h1 : d1.data = d2.data) (h2 : d1.sector_bytes = d2.sector_bytes) :
    ∀ (n c : Nat), chain_cluster fsbi d1 n c = chain_cluster fsbi d2 n c := by
  intro n
  induction n with
  | zero => intro c; rfl
  | succ n ih =>
    intro c
    simp only [chain_cluster, read_FAT_entry_congr fsbi c d1 d2 h1 h2, ih]

/-- The scan of the cluster chain stops at the first accepted entry: when no
entry of the clusters at the chain positions below `n` is accepted and entry
`idx` is the first accepted one of the cluster at position `n`, the scan
returns that cluster, that entry number and the buffer of that cluster. -/
theorem lookup_chain_first (km : kernel_heap) (fsbi : fat32_sb_info_t) (dest : vfs_dir_entry_t)
    (c idx : Nat) (hidx : 32 * idx < fsbi.bytes_per_clus) :
    ∀ (n fuel c0 : Nat) (buf : Mem) (d : ahci_disk),
      (∀ i, fsbi.sec_per_clus * d.sector_bytes ≤ i → buf i = 0) →
      n < fuel →
      chain_cluster fsbi d n c0 = some c →
      (∀ m c1, m < n → chain_cluster fsbi d m c0 = some c1 →
        ∀ j, 32 * j < fsbi.bytes_per_clus →
          lookup_entry km (dir_cluster fsbi d c1) dest j ≠ .ok true) →
      lookup_entry km (dir_cluster fsbi d c) dest idx = .ok true →
      (∀ j, j < idx → lookup_entry km (dir_cluster fsbi d c) dest j ≠ .ok true) →
      ∃ d1, lookup_chain km fsbi dest fuel c0 buf d
        = (.ok (some ⟨c, idx, dir_cluster fsbi d c⟩), d1) := by
  intro n
  induction n with
  | zero =>
    intro fuel c0 buf d hz hfuel hchain _ hmatch hfirst
    simp only [chain_cluster, Option.some.injEq] at hchain
    subst hchain
    obtain ⟨f, rfl⟩ : ∃ f, fuel = f + 1 := ⟨fuel - 1, by omega⟩
    have hbuf : (ahci_read d (cluster_LBA fsbi c0) fsbi.sec_per_clus buf).1
        = dir_cluster fsbi d c0 := ahci_read_tail_zero d _ _ buf hz
    unfold lookup_chain
    simp only
    rw [hbuf, scan_cluster_first km _ dest _ idx hidx hmatch _ 0 (Nat.zero_le _) (by omega)
      (fun j _ hj => hfirst j hj)]
    exact ⟨_, rfl⟩
  | succ n ih =>
    intro fuel c0 buf d hz hfuel hchain hbefore hmatch hfirst
    obtain ⟨f, rfl⟩ : ∃ f, fuel = f + 1 := ⟨fuel - 1, by omega⟩
    have hbuf : (ahci_read d (cluster_LBA fsbi c0) fsbi.sec_per_clus buf).1
        = dir_cluster fsbi d c0 := ahci_read_tail_zero d _ _ buf hz
    have hrd := read_FAT_entry_congr fsbi c0
      (ahci_read d (cluster_LBA fsbi c0) fsbi.sec_per_clus buf).2 d rfl rfl
    have hdisk := read_FAT_entry_disk fsbi c0
      (ahci_read d (cluster_LBA fsbi c0) fsbi.sec_per_clus buf).2
    unfold lookup_chain
    simp only
    rw [hbuf, scan_cluster_none km _ dest _ _ 0 (fun j _ hj => hbefore 0 c0 (by omega) rfl j hj)]
    simp only
    rw [chain_cluster] at hchain
    cases hr : fat32_read_FAT_entry fsbi c0
        (ahci_read d (cluster_LBA fsbi c0) fsbi.sec_per_clus buf).2 with
    | mk res d2 =>
      rw [hr] at hrd hdisk
      simp only at hrd hdisk
      rw [← hrd] at hchain
      cases res with
      | error e => simp at hchain
      | ok next =>
        simp only at hchain ⊢
        by_cases hn : next ≥ 0x0ffffff7
        · rw [if_pos hn] at hchain; simp at hchain
        · rw [if_neg hn] at hchain
          rw [if_neg hn]
          have hd1 : d2.data = d.data := hdisk.1
          have hd2 : d2.sector_bytes = d.sector_bytes := hdisk.2
          have hz2 : ∀ i, fsbi.sec_per_clus * d2.sector_bytes ≤ i →
              dir_cluster fsbi d c0 i = 0 := by
            intro i hi
            rw [hd2] at hi
            simp only [dir_cluster, ahci_read]
            rw [if_neg (by omega)]
            rfl
          have hcc := chain_cluster_congr fsbi d2 d hd1 hd2
          have hdc := fun c1 => dir_cluster_congr fsbi d2 d c1 hd1 hd2
          obtain ⟨d1, h1⟩ := ih f next (dir_cluster fsbi d c0) d2 hz2 (by omega)
            (by rw [hcc]; exact hchain)
            (fun m c1 hm hc j hj => by
              rw [hdc]
              rw [hcc] at hc
              refine hbefore (m + 1) c1 (by omega) ?_ j hj
              rw [chain_cluster, ← hrd]
              simp only
              rw [if_neg hn]
              exact hc)
            (by rw [hdc]; exact hmatch)
            (fun j hj => by rw [hdc]; exact hfirst j hj)
          rw [hdc] at h1
          exact ⟨d1, h1⟩

/-- Where the FAT can be read, the scan order is the order of the chain: when
entry `idx` of the cluster `c`, the cluster `n` steps down the chain of the
directory, is the first entry in scan order that the comparison accepts (no
entry of the clusters before it in the chain and no entry before it in its
cluster is accepted; later entries may match as well), `fat32_lookup` returns
the inode built from that entry, with `dEntry_location_clus = c` and
`dEntry_location_clus_offset = idx`.  `hgeo` holds the sizes that keep the
transfers inside the buffers of the code: the cluster transfer fills the
cluster buffer exactly, and where the FAT is read (`n` above 0) the sector
size and the block size are at most the 1024 bytes of the FAT sector buffer. -/
theorem lookup_first_match (km : kernel_heap) (fuel : Nat) (parent : vfs_index_node_t)
    (dest : vfs_dir_entry_t) (d : ahci_disk) (n c idx : Nat)
    (hfuel : n < fuel)
    (hgeo : parent.sb.bytes_per_sec ≠ 0
      ∧ parent.sb.bytes_per_clus = parent.sb.sec_per_clus * d.sector_bytes
      ∧ (n = 0 ∨ (parent.sb.bootsector.BPB_BytesPerSec ≤ 1024 ∧ d.sector_bytes ≤ 1024)))
    (hchain : chain_cluster parent.sb d n (u32 parent.private_inode_info.first_clus) = some c)
    (hbefore : ∀ m c1, m < n →
      chain_cluster parent.sb d m (u32 parent.private_inode_info.first_clus) = some c1 →
      ∀ j, 32 * j < parent.sb.bytes_per_clus →
        lookup_entry km (dir_cluster parent.sb d c1) dest j ≠ .ok true)
    (hidx : 32 * idx < parent.sb.bytes_per_clus)
    (hmatch : lookup_entry km (dir_cluster parent.sb d c) dest idx = .ok true)
    (hfirst : ∀ j, j < idx → lookup_entry km (dir_cluster parent.sb d c) dest j ≠ .ok true) :
    ∃ dentry inode,
      (fat32_lookup km fuel parent dest d).1 = .ok (some dentry)
      ∧ dentry.dir_inode = some inode
      ∧ inode.private_inode_info.dEntry_location_clus = c
      ∧ inode.private_inode_info.dEntry_location_clus_offset = idx
      ∧ inode.file_size = get_u32 (dir_cluster parent.sb d c) (32 * idx + 28)
      ∧ inode.private_inode_info.first_clus
          = ((get_u16 (dir_cluster parent.sb d c) (32 * idx + 20) <<< 16)
              ||| get_u16 (dir_cluster parent.sb d c) (32 * idx + 26)) &&& 0x0fffffff := by
  obtain ⟨d1, h1⟩ := lookup_chain_first km parent.sb dest c idx hidx n fuel
    (u32 parent.private_inode_info.first_clus) zero_mem d (fun _ _ => rfl) hfuel hchain hbefore
    hmatch hfirst
  simp only [fat32_lookup, h1, lookup_inode, inode_blocks, if_neg hgeo.1]
  exact ⟨_, _, rfl, rfl, rfl, rfl, rfl, rfl⟩

set_option maxRecDepth 8000 in
theorem lookup_first_match_witness :
    lookup_entry heap_zero (dir_cluster fsbi_example disk_two_matches 3)
        (target_dentry name_hello_txt) 2 = .ok true
    ∧ ∃ dentry inode,
      (fat32_lookup heap_zero 4 root_inode_example (target_dentry name_hello_txt)
          disk_two_matches).1 = .ok (some dentry)
      ∧ dentry.dir_inode = some inode
      ∧ inode.private_inode_info.dEntry_location_clus = 3
      ∧ inode.private_inode_info.dEntry_location_clus_offset = 1
      ∧ inode.file_size = get_u32 (dir_cluster fsbi_example disk_two_matches 3) (32 * 1 + 28)
      ∧ inode.private_inode_info.first_clus
          = ((get_u16 (dir_cluster fsbi_example disk_two_matches 3) (32 * 1 + 20) <<< 16)
              ||| get_u16 (dir_cluster fsbi_example disk_two_matches 3) (32 * 1 + 26))
            &&& 0x0fffffff := by
  have hall : ∀ j, j < 128 → lookup_entry heap_zero (dir_cluster fsbi_example disk_two_matches 2)
      (target_dentry name_hello_txt) j ≠ .ok true := by decide
  exact ⟨by decide,
    lookup_first_match heap_zero 4 root_inode_example (target_dentry name_hello_txt)
      disk_two_matches 1 3 1 (by decide) (by decide) (by decide)
      (fun m c1 hm hc j hj => by
        have hm0 : m = 0 := by omega
        subst hm0
        simp only [chain_cluster, Option.some.injEq] at hc
        subst hc
        exact hall j (by
          have : root_inode_example.sb.bytes_per_clus = 4096 := rfl
          omega))
      (by decide) (by decide) (by decide)⟩


set_option maxRecDepth 8000 in
/-- C18 fails on the code, by the defect behind C5 and C12: on the volume
mounted by `fat32_read_superblock` whose root directory has the chain 2 -> 3,
no entry `hello.txt` in cluster 2 and two entries `HELLO   TXT` in cluster 3
(entries 1 and 2), the look-up of `/hello.txt` reads cluster 2 and then ends
in the divide error of `fat32_read_FAT_entry`: the first of the two matching
entries is not returned.  With the sector size filled into the copy of the
boot sector by hand (`fsbi_example`) the look-up returns the first one (size
42, first cluster 10) with `dEntry_location_clus = 3` and
`dEntry_location_clus_offset = 1`; and on the mounted volume two matching
entries in the first cluster of the directory give the first one, with
location cluster 2 and entry number 1. -/
theorem lookup_first_match_after_mount :
    (fat32_read_FAT_entry fsbi_example 2 disk_two_matches).1 = .ok 3
    ∧ (∀ j, j < 128 → lookup_entry heap_zero (dir_cluster fsbi_example disk_two_matches 2)
        (target_dentry name_hello_txt) j ≠ .ok true)
    ∧ lookup_entry heap_zero (dir_cluster fsbi_example disk_two_matches 3)
        (target_dentry name_hello_txt) 0 = .ok false
    ∧ lookup_entry heap_zero (dir_cluster fsbi_example disk_two_matches 3)
        (target_dentry name_hello_txt) 1 = .ok true
    ∧ lookup_entry heap_zero (dir_cluster fsbi_example disk_two_matches 3)
        (target_dentry name_hello_txt) 2 = .ok true
    ∧ lookup_inode_fields
        (path_walk_after_mount heap_zero dpte_example boot_example path_hello_txt 0 4
          disk_two_matches).1 = .error .divide_error
    ∧ (path_walk_after_mount heap_zero dpte_example boot_example path_hello_txt 0 4
          disk_two_matches).2.log
        = [⟨ata_cmd.ATA_CMD_READ_DMA_EXT, 2048, 1⟩, ⟨ata_cmd.ATA_CMD_READ_DMA_EXT, 4080, 8⟩]
    ∧ lookup_inode_fields
        (fat32_lookup heap_zero 4 root_inode_example (target_dentry name_hello_txt)
          disk_two_matches).1 = .ok (some (42, 10, 3, 1))
    ∧ lookup_inode_fields
        (path_walk_after_mount heap_zero dpte_example boot_example path_hello_txt 0 4
          disk_two_matches_first).1 = .ok (some (42, 10, 2, 1)) := by
  refine ⟨by decide, by decide, by decide, by decide, by decide, by decide, by decide, by decide,
    by decide⟩
/-! ## Lookups on a mounted volume -/

/-- With no sector size in the copy of the boot sector, the scan of a
directory cannot leave its first cluster: a hit is a hit in that cluster. -/
theorem lookup_chain_first_cluster (km : kernel_heap) (fsbi : fat32_sb_info_t)
    (dest : vfs_dir_entry_t) (fuel c0 : Nat) (buf : Mem) (d : ahci_disk) (hit : lookup_hit)
    (d1 : ahci_disk) (hz : fsbi.bootsector = zero_boot_sector)
    (h : lookup_chain km fsbi dest fuel c0 buf d = (.ok (some hit), d1)) :
    hit.cluster = c0 := by
  cases fuel with
  | zero => simp [lookup_chain] at h
  | succ fuel =>
    unfold lookup_chain at h
    simp only at h
    cases hs : scan_cluster km (ahci_read d (cluster_LBA fsbi c0) fsbi.sec_per_clus buf).1 dest
        fsbi.bytes_per_clus ((fsbi.bytes_per_clus + 31) / 32) 0 with
    | error f => rw [hs] at h; simp at h
    | ok o =>
      rw [hs] at h
      cases o with
      | some idx =>
        simp only [Prod.mk.injEq, Except.ok.injEq, Option.some.injEq] at h
        rw [← h.1]
      | none =>
        simp [fat32_read_FAT_entry, hz, zero_boot_sector] at h

/-- C12 fails on the code, by the defect behind C5: on the volume mounted by
`fat32_read_superblock` (512-byte sectors, 8 sectors per cluster, root cluster
2) with FAT[2] = 3, FAT[3] = 4, FAT[4] = 0x0FFFFFFF and no entry named
`absent.txt` in the clusters 2, 3 and 4, the look-up of `/absent.txt` reads
cluster 2 at LBA 4080 and then ends in a divide error in
`fat32_read_FAT_entry`; it neither visits the clusters 3 and 4 nor returns
`NULL`.  With the sector size filled into the copy of the boot sector by hand
(`fsbi_example`) the same look-up reads the clusters at LBA 4080, 4088 and
4096, in that order, and returns `NULL`. -/
theorem lookup_chain_after_mount :
    (fat32_read_FAT_entry fsbi_example 2 disk_chain_234).1 = .ok 3
    ∧ (fat32_read_FAT_entry fsbi_example 3 disk_chain_234).1 = .ok 4
    ∧ (fat32_read_FAT_entry fsbi_example 4 disk_chain_234).1 = .ok 0x0fffffff
    ∧ lookup_inode_fields
        (path_walk_after_mount heap_zero dpte_example boot_example path_absent_txt 0 4
          disk_chain_234).1 = .error .divide_error
    ∧ (path_walk_after_mount heap_zero dpte_example boot_example path_absent_txt 0 4
          disk_chain_234).2.log
        = [⟨ata_cmd.ATA_CMD_READ_DMA_EXT, 2048, 1⟩, ⟨ata_cmd.ATA_CMD_READ_DMA_EXT, 4080, 8⟩]
    ∧ lookup_inode_fields
        (fat32_lookup heap_zero 4 root_inode_example (target_dentry name_absent_txt)
          disk_chain_234).1 = .ok none
    ∧ (fat32_lookup heap_zero 4 root_inode_example (target_dentry name_absent_txt)
          disk_chain_234).2.log
        = [⟨ata_cmd.ATA_CMD_READ_DMA_EXT, 4080, 8⟩, ⟨ata_cmd.ATA_CMD_READ_DMA_EXT, 2080, 1⟩,
           ⟨ata_cmd.ATA_CMD_READ_DMA_EXT, 4088, 8⟩, ⟨ata_cmd.ATA_CMD_READ_DMA_EXT, 2080, 1⟩,
           ⟨ata_cmd.ATA_CMD_READ_DMA_EXT, 4096, 8⟩, ⟨ata_cmd.ATA_CMD_READ_DMA_EXT, 2080, 1⟩] := by
  refine ⟨by decide, by decide, by decide, by decide, by decide, by decide, by decide⟩

theorem dir_byte_heap (km1 km2 : kernel_heap) (hb : km1.before_buf = km2.before_buf) (buf : Mem)
    (a : Int) : dir_byte km1 buf a = dir_byte km2 buf a := by
  simp only [dir_byte, hb]

theorem LDIR_units_heap (km1 km2 : kernel_heap) (hb : km1.before_buf = km2.before_buf) (buf : Mem)
    (ld : Int) : LDIR_units km1 buf ld = LDIR_units km2 buf ld := by
  simp only [LDIR_units, LDIR_Name1, LDIR_Name2, LDIR_Name3, dir_u16, dir_byte_heap km1 km2 hb]

/-- The loops over the name slices of a long entry read `name[js]` only for
`js <= name_length`: with a name buffer of more than `name_length` bytes their
result does not depend on the memory behind the buffer. -/
theorem lfn_cmp_slice_heap (km1 km2 : kernel_heap) (dest : vfs_dir_entry_t)
    (hlen : dest.name_length < dest.name.length) :
    ∀ (us : List Nat) (js : Nat), lfn_cmp_slice km1 dest us js = lfn_cmp_slice km2 dest us js := by
  intro us
  induction us with
  | nil => intro js; rfl
  | cons u us ih =>
    intro js
    simp only [lfn_cmp_slice]
    by_cases hjs : js > dest.name_length
    · simp only [hjs, true_and, true_or, if_true, ih js]
    · have hn : name_byte km1 dest js = name_byte km2 dest js := by
        simp only [name_byte]
        rw [List.getD_eq_getElem _ _ (by omega), List.getD_eq_getElem _ _ (by omega)]
      simp only [hjs, false_and, false_or, if_false, hn, ih (js + 1)]

theorem lfn_walk_heap (km1 km2 : kernel_heap) (hb : km1.before_buf = km2.before_buf) (buf : Mem)
    (dest : vfs_dir_entry_t) (hlen : dest.name_length < dest.name.length) :
    ∀ (fuel : Nat) (ld : Int) (js : Nat),
      lfn_walk km1 buf dest fuel ld js = lfn_walk km2 buf dest fuel ld js := by
  intro fuel
  induction fuel with
  | zero => intro ld js; rfl
  | succ fuel ih =>
    intro ld js
    rw [lfn_walk_step, lfn_walk_step, dir_byte_heap km1 km2 hb, dir_byte_heap km1 km2 hb,
      LDIR_units_heap km1 km2 hb, lfn_cmp_slice_heap km1 km2 dest hlen]
    split
    · cases lfn_cmp_slice km2 dest (LDIR_units km2 buf ld) js with
      | none => rfl
      | some js3 =>
        simp only
        rw [ih]
    · rfl

/-- C23 fails on the code: the target `ABCDEFGH` is stored in a buffer of 9
bytes (8 characters and the terminator).  Compared with the file entry
`ABCDEFGHTXT`, the short-name comparison goes on with `name[9]`, `name[10]` and
`name[11]` for the extension: the look-up returns `NULL` when zeroes follow
the buffer and the inode of the file (size 42, first cluster 10) when the
bytes `TXT` follow it, so its result depends on three bytes behind the
terminator. -/
theorem sfn_reads_past_terminator :
    (target_dentry name_ABCDEFGH).name.length = (target_dentry name_ABCDEFGH).name_length + 1
    ∧ (heap_after_name [84, 88, 84]).before_buf = heap_zero.before_buf
    ∧ lookup_entry heap_zero buf_ABCDEFGH_TXT (target_dentry name_ABCDEFGH) 0 = .ok false
    ∧ lookup_entry (heap_after_name [84, 88, 84]) buf_ABCDEFGH_TXT (target_dentry name_ABCDEFGH) 0
        = .ok true
    ∧ lookup_inode_fields
        (fat32_lookup heap_zero 4 root_inode_example (target_dentry name_ABCDEFGH)
          disk_ABCDEFGH_TXT).1 = .ok none
    ∧ lookup_inode_fields
        (fat32_lookup (heap_after_name [84, 88, 84]) 4 root_inode_example
          (target_dentry name_ABCDEFGH) disk_ABCDEFGH_TXT).1 = .ok (some (42, 10, 2, 0)) := by
  refine ⟨by decide, rfl, by decide, by decide, by decide, by decide⟩

/-- C21 fails on the code: the short-name comparison ends without a look at
`name_length`.  The target `hello.txtX` (10 characters) is accepted for the
file `HELLO   TXT`, whose comparison consumes 5 + 1 + 3 = 9 characters; the
target `ABCDEFGHX` is accepted for the directory `ABCDEFGH`; and the target
`VERYLOX1.TXT` is accepted for the file `VERYLO~1TXT`, the character at the
place of `~` being passed without a comparison. -/
theorem sfn_accepts_longer_target :
    (target_dentry (name_hello_txt ++ [88])).name_length = 10
    ∧ sfn_match heap_zero (dir_cluster fsbi_example disk_dir_first 2)
        (target_dentry (name_hello_txt ++ [88])) 0 = true
    ∧ lookup_inode_fields
        (fat32_lookup heap_zero 4 root_inode_example (target_dentry (name_hello_txt ++ [88]))
          disk_dir_first).1 = .ok (some (42, 10, 2, 0))
    ∧ lookup_entry heap_zero buf_ABCDEFGH_dir (target_dentry (name_ABCDEFGH ++ [88])) 0 = .ok true
    ∧ lookup_entry heap_zero buf_VERYLO_short (target_dentry name_VERYLOX1_TXT) 0 = .ok true := by
  refine ⟨by decide, by decide, by decide, by decide, by decide⟩

/-! ## Short extensions -/

theorem dotted_name_eq_sfn_target (ntres : Nat) (base ext : List Byte) (h : ext ≠ []) :
    dotted_name ntres base ext = sfn_target false ntres base ext := by
  cases ext with
  | nil => exact absurd rfl h
  | cons c cs => simp [dotted_name, sfn_target]

theorem dotted_name_length (ntres : Nat) (base ext : List Byte) :
    (dotted_name ntres base ext).length
      = base.length + (if ext.length = 0 then 0 else 1 + ext.length) := by
  cases ext with
  | nil => simp [dotted_name]
  | cons c cs => simp [dotted_name]; omega

theorem dotted_name_base (ntres : Nat) (base ext : List Byte) (x : Nat) (h : x < base.length) :
    (dotted_name ntres base ext).getD x 0
      = name_case (decide (ntres &&& LOWERCASE_BASE ≠ 0)) (base.getD x 32) := by
  simp only [dotted_name, List.getD_eq_getElem?_getD]
  rw [List.getElem?_append_left (by simpa using h)]
  simp [h]

theorem sfn_base_step_pad_end (km : kernel_heap) (dest : vfs_dir_entry_t) (attr ntres : Nat)
    (c : Byte) (js : Nat) (hc : c.val = 32) (hfile : attr &&& ATTR_DIRECTORY = 0)
    (hn : name_byte km dest js = 0) :
    sfn_base_step km dest attr ntres c js = none := by
  unfold sfn_base_step
  rw [if_pos hc, if_pos hfile, hn, hc]
  simp [char_val]

theorem sfn_ext_step_pad_end (km : kernel_heap) (dest : vfs_dir_entry_t) (ntres : Nat)
    (c : Byte) (js : Nat) (hc : c.val = 32) (hn : name_byte km dest js = 0) :
    sfn_ext_step km dest ntres c js = none := by
  unfold sfn_ext_step
  rw [hn, hc]
  simp [char_val, is_letter, is_digit]

theorem sfn_loop_fails (step : Byte → Nat → Option Nat) (buf : Mem) (e m x js k : Nat)
    (hadv : ∀ y, y < m → step (buf (e + (x + y))) (js + y) = some (js + y + 1))
    (hfail : step (buf (e + (x + m))) (js + m) = none) :
    sfn_loop step buf e (m + (k + 1)) x js = none := by
  rw [sfn_loop_advance step buf e m x js (k + 1) hadv, sfn_loop_succ, hfail]

/-- C22 fails on the code: a file short entry that is not preceded by a
long-name record, whose base is 1 to 8 uppercase letters or digits padded
with spaces and whose extension is 0, 1 or 2 uppercase letters or digits
padded with spaces, is rejected by the loop body of `fat32_lookup` for the
usual dotted name of the file, stored with its terminating NUL: the padding
of the extension (or, without an extension, the padding of the base) is
compared with the terminator of the target.  The case of a base of 8
characters without an extension is left out, where the comparison goes on
behind the name buffer. -/
theorem sfn_short_extension_rejected (km : kernel_heap) (buf : Mem) (idx : Nat)
    (base ext tail : List Byte) (ino : Option vfs_index_node_t) (par : Option vfs_dir_entry_t)
    (hlen : 1 ≤ base.length ∧ base.length ≤ 8)
    (hbase : ∀ c ∈ base, upper_or_digit c)
    (hname : ∀ x, x < 8 → buf (32 * idx + x) = base.getD x 32)
    (hfile : (buf (32 * idx + 11)).val &&& ATTR_DIRECTORY = 0)
    (hprev : (dir_byte km buf ((32 * idx : Nat) - 32 + 11)).val ≠ ATTR_LONG_NAME)
    (hext : ext.length ≤ 2 ∧ (∀ c ∈ ext, upper_or_digit c)
      ∧ ∀ x, x < 3 → buf (32 * idx + (8 + x)) = ext.getD x 32)
    (hshort : ext.length = 0 → base.length < 8) :
    lookup_entry km buf
      (vfs_dir_entry_t.mk
        (dotted_name (buf (32 * idx + 12)).val base ext ++ 0 :: tail)
        (dotted_name (buf (32 * idx + 12)).val base ext).length ino par) idx = .ok false := by
  obtain ⟨he1, he2, he3⟩ := hext
  generalize hT : dotted_name (buf (32 * idx + 12)).val base ext = target
  have hterm : name_byte km (vfs_dir_entry_t.mk (target ++ 0 :: tail) target.length ino par)
      target.length = 0 := name_byte_terminator km target tail ino par
  generalize hD : vfs_dir_entry_t.mk (target ++ 0 :: tail) target.length ino par = dest at hterm ⊢
  have hnl : dest.name_length = target.length := by rw [← hD]; rfl
  have hNb : ∀ js, js < target.length → name_byte km dest js = target.getD js 0 := by
    intro js hjs; rw [← hD]; exact name_byte_target km target (0 :: tail) ino par js hjs
  have hTl := dotted_name_length (buf (32 * idx + 12)).val base ext
  rw [hT] at hTl
  -- the long-name loop ends at once
  have hlfn : lfn_walk km buf dest (dest.name_length + 1) (((32 * idx : Nat) : Int) - 32) 0
      = .ok .short_name := by
    unfold lfn_walk
    rw [if_neg (fun h => hprev h.1)]
  -- the characters of the base
  have hchars : ∀ y, y < base.length →
      sfn_base_step km dest (buf (32 * idx + 11)).val (buf (32 * idx + 12)).val
        (buf (32 * idx + (0 + y))) (0 + y) = some (0 + y + 1) := by
    intro y hy
    rw [Nat.zero_add]
    apply sfn_base_step_char
    · rw [hname y (by omega)]
      exact getD_mem_pred _ base y 32 hy hbase
    · rw [hnl, hTl]; omega
    · rw [hNb y (by rw [hTl]; omega), ← hT, dotted_name_base _ _ _ _ hy, hname y (by omega)]
  have hsfn : sfn_match km buf dest (32 * idx) = false := by
    unfold sfn_match
    simp only
    rcases Nat.eq_zero_or_pos ext.length with hk | hk
    · -- no extension: the padding of the base meets the terminator
      have hb8 := hshort hk
      have hnone : sfn_loop
          (sfn_base_step km dest (buf (32 * idx + 11)).val (buf (32 * idx + 12)).val)
          buf (32 * idx) 8 0 0 = none := by
        rw [show 8 = base.length + ((8 - base.length - 1) + 1) by omega]
        apply sfn_loop_fails _ buf (32 * idx) base.length 0 0 _ hchars
        apply sfn_base_step_pad_end
        · rw [Nat.zero_add, hname _ (by omega), List.getD_eq_default _ _ (by omega)]
          rfl
        · exact hfile
        · rw [Nat.zero_add]
          have : base.length = target.length := by rw [hTl, if_pos hk]; rfl
          rw [this]
          exact hterm
      rw [hnone]
    · -- an extension of one or two characters: its padding meets the terminator
      have hne : ext ≠ [] := by
        intro h; rw [h] at hk; simp at hk
      have hTs : sfn_target false (buf (32 * idx + 12)).val base ext = target := by
        rw [← dotted_name_eq_sfn_target _ _ _ hne]; exact hT
      have hTl2 : target.length = base.length + 1 + ext.length := by
        rw [hTl, if_neg (by omega)]; omega
      have hpad : ∀ y, y < 8 - base.length →
          sfn_base_step km dest (buf (32 * idx + 11)).val (buf (32 * idx + 12)).val
            (buf (32 * idx + (0 + base.length + y))) (0 + base.length)
            = some (0 + base.length) := by
        intro y hy
        rw [Nat.zero_add]
        apply sfn_base_step_pad
        · rw [hname _ (by omega), List.getD_eq_default _ _ (by omega)]
          rfl
        · intro _
          rw [hNb _ (by omega), ← hTs, sfn_target_dot]
          rfl
        · intro ha
          exact absurd hfile ha
      have hbase8 : sfn_loop
          (sfn_base_step km dest (buf (32 * idx + 11)).val (buf (32 * idx + 12)).val)
          buf (32 * idx) 8 0 0 = some base.length := by
        rw [show 8 = base.length + (8 - base.length) by omega,
          sfn_loop_advance _ buf (32 * idx) base.length 0 0 (8 - base.length) hchars,
          sfn_loop_stay _ buf (32 * idx) (0 + base.length) (8 - base.length) (0 + base.length)
            hpad]
        simp
      have hextc : ∀ y, y < ext.length →
          sfn_ext_step km dest (buf (32 * idx + 12)).val (buf (32 * idx + (8 + y)))
            (base.length + 1 + y) = some (base.length + 1 + y + 1) := by
        intro y hy
        apply sfn_ext_step_char
        · rw [he3 y (by omega)]
          exact getD_mem_pred _ ext y 32 hy he2
        · rw [hNb _ (by omega), ← hTs, sfn_target_ext _ _ _ _ hy, he3 y (by omega)]
      have hnone : sfn_loop (sfn_ext_step km dest (buf (32 * idx + 12)).val) buf (32 * idx) 3 8
          (base.length + 1) = none := by
        rw [show 3 = ext.length + ((3 - ext.length - 1) + 1) by omega]
        apply sfn_loop_fails _ buf (32 * idx) ext.length 8 (base.length + 1) _ hextc
        apply sfn_ext_step_pad_end
        · rw [he3 _ (by omega), List.getD_eq_default _ _ (by omega)]
          rfl
        · rw [← hTl2]
          exact hterm
      rw [hbase8]
      simp only
      rw [if_pos hfile, hnone]
      rfl
  unfold lookup_entry
  simp only
  split
  · rfl
  · split
    · rfl
    · rw [hlfn]
      simp only [hsfn]

set_option maxRecDepth 4000 in
theorem sfn_short_extension_rejected_witness :
    dotted_name (buf_A_C (32 * 0 + 12)).val [65] [67] = name_a_c
    ∧ lookup_entry heap_zero buf_A_C (target_dentry name_a_c) 0 = .ok false
    ∧ lookup_inode_fields
        (fat32_lookup heap_zero 4 root_inode_example (target_dentry name_a_c) disk_A_C).1
        = .ok none := by
  have h := sfn_short_extension_rejected heap_zero buf_A_C 0 [65] [67] [] none none
    (by decide) (by decide) (by decide) (by decide) (by decide) (by decide) (by decide)
  have e : dotted_name (buf_A_C (32 * 0 + 12)).val [65] [67] = name_a_c := by decide
  rw [e] at h
  exact ⟨e, h, by decide⟩


end Fat32
